import Mathlib

/-!
Verification of the core of the `rusty-engine` chess engine against its
natural-language specification.

The definitions below are a shallow embedding of the Rust sources
(`src/board.rs`, `src/engine.rs`, `src/piece.rs`, `src/move.rs`,
`src/game.rs`).  Conventions of the embedding:

* `u64` bitboards are `Nat` values kept below `2^64`; the Rust operation
  `!(1u64 << sq)` is modelled as `(1 <<< sq) ^^^ (2^64 - 1)`, which agrees
  with the 64-bit complement for `sq < 64`.
* `i32` scores are `Int` (no value in scope of the theorems overflows and
  the source's single explicit overflow work-around, the `i32::MIN`
  comparison in `Engine::minimax`, is modelled verbatim).
* `u8`/`u16` counters are `Nat`.
* Rust code that can `panic!` (failed `assert_eq!`, `panic!` arms of a
  `match`, `unwrap()` on `None`) is modelled with `Option`, `none` standing
  for the panic.  Arithmetic overflow panics of debug builds that cannot
  occur in the scope of the theorems (for example `halfmove_clock + 1`
  at 255) are not modelled and are noted at their definition sites.
* Rust `for` loops over `0..64` become folds over `List.range 64`; the
  unbounded ray-walking loops of the sliding-piece code become structural
  recursion on an explicit step budget that dominates the longest possible
  ray on an 8x8 board (every ray leaves the board or hits a wrap guard
  after at most 16 steps, see the comments at the definitions).
-/

namespace RustyEngine

/-- Side to move, as in `board.rs`: `true` is White. -/
def WHITE : Bool := true

/-- `false` is Black. -/
def BLACK : Bool := false

/-- `get_rank` from `board.rs`: the rank (0..7) of a square (0..63). -/
def get_rank (square : Nat) : Nat := square / 8

/-- `get_file` from `board.rs`: the file (0..7) of a square (0..63). -/
def get_file (square : Nat) : Nat := square % 8

/-- `u8::abs_diff`. -/
def abs_diff (a b : Nat) : Nat := if b ≤ a then a - b else b - a

/-- `PieceType` from `board.rs`. -/
inductive PieceType where
  | Pawn
  | Knight
  | Bishop
  | Rook
  | Queen
  | King
deriving DecidableEq, Repr

/-- `Move` from `board.rs`.  The Rust field `from` is a Lean keyword, so the
square fields are named `fromSq`/`toSq`. -/
structure Move where
  fromSq : Nat
  toSq : Nat
  promotion : Option PieceType
  piece_type : PieceType
deriving DecidableEq, Repr

/-- `ScoredMove` from `board.rs` (score is `i32`). -/
structure ScoredMove where
  mv : Move
  score : Int
deriving DecidableEq, Repr

/-- `UndoState` from `board.rs`. -/
structure UndoState where
  captured_piece : Option PieceType
  en_passant : Option Nat
  castling_rights : Nat
  halfmove_clock : Nat
  fullmove_number : Nat
deriving DecidableEq, Repr

/-- `Board` from `board.rs`: twelve bitboards plus the scalar state. -/
@[ext] structure Board where
  white_pawns : Nat
  white_knights : Nat
  white_bishops : Nat
  white_rooks : Nat
  white_queens : Nat
  white_king : Nat
  black_pawns : Nat
  black_knights : Nat
  black_bishops : Nat
  black_rooks : Nat
  black_queens : Nat
  black_king : Nat
  en_passant : Option Nat
  castling_rights : Nat
  side_to_move : Bool
  halfmove_clock : Nat
  fullmove_number : Nat
deriving DecidableEq, Repr

namespace Board

/-- `Board::new` from `board.rs`: the initial position. -/
def new : Board where
  white_pawns := 0xFF00
  white_knights := 0x42
  white_bishops := 0x24
  white_rooks := 0x81
  white_queens := 0x8
  white_king := 0x10
  black_pawns := 0xFF000000000000
  black_knights := 0x4200000000000000
  black_bishops := 0x2400000000000000
  black_rooks := 0x8100000000000000
  black_queens := 0x800000000000000
  black_king := 0x1000000000000000
  en_passant := none
  castling_rights := 0xF
  side_to_move := WHITE
  halfmove_clock := 0
  fullmove_number := 1

/-- The 64-bit all-ones mask; `!(1u64 << sq)` is `(1 <<< sq) ^^^ mask64`. -/
def mask64 : Nat := 2 ^ 64 - 1

/-- `Board::clear_square`: clear a square on all twelve bitboards. -/
def clear_square (b : Board) (square : Nat) : Board :=
  let mask : Nat := (1 <<< square) ^^^ mask64
  { b with
    white_pawns := b.white_pawns &&& mask
    white_knights := b.white_knights &&& mask
    white_bishops := b.white_bishops &&& mask
    white_rooks := b.white_rooks &&& mask
    white_queens := b.white_queens &&& mask
    white_king := b.white_king &&& mask
    black_pawns := b.black_pawns &&& mask
    black_knights := b.black_knights &&& mask
    black_bishops := b.black_bishops &&& mask
    black_rooks := b.black_rooks &&& mask
    black_queens := b.black_queens &&& mask
    black_king := b.black_king &&& mask }

/-- `Board::set_square`: set `piece_type` for the side to move on a square.
`Board::make_move` contains the same side-and-piece dispatch inline ("Set
the 'to' square for the appropriate piece"); both sites use this
definition. -/
def set_square (b : Board) (square : Nat) (piece_type : PieceType) : Board :=
  let mask : Nat := 1 <<< square
  match piece_type with
  | PieceType.Rook =>
      if b.side_to_move = WHITE then { b with white_rooks := b.white_rooks ||| mask }
      else { b with black_rooks := b.black_rooks ||| mask }
  | PieceType.Knight =>
      if b.side_to_move = WHITE then { b with white_knights := b.white_knights ||| mask }
      else { b with black_knights := b.black_knights ||| mask }
  | PieceType.Bishop =>
      if b.side_to_move = WHITE then { b with white_bishops := b.white_bishops ||| mask }
      else { b with black_bishops := b.black_bishops ||| mask }
  | PieceType.Queen =>
      if b.side_to_move = WHITE then { b with white_queens := b.white_queens ||| mask }
      else { b with black_queens := b.black_queens ||| mask }
  | PieceType.Pawn =>
      if b.side_to_move = WHITE then { b with white_pawns := b.white_pawns ||| mask }
      else { b with black_pawns := b.black_pawns ||| mask }
  | PieceType.King =>
      if b.side_to_move = WHITE then { b with white_king := b.white_king ||| mask }
      else { b with black_king := b.black_king ||| mask }

/-- `Board::is_occupied_by_opponent`. -/
def is_occupied_by_opponent (b : Board) (square : Nat) (side : Bool) : Bool :=
  let mask : Nat := 1 <<< square
  if side = WHITE then
    (b.black_pawns ||| b.black_knights ||| b.black_bishops |||
      b.black_rooks ||| b.black_queens ||| b.black_king) &&& mask ≠ 0
  else
    (b.white_pawns ||| b.white_knights ||| b.white_bishops |||
      b.white_rooks ||| b.white_queens ||| b.white_king) &&& mask ≠ 0

/-- `Board::is_occupied`. -/
def is_occupied (b : Board) (square : Nat) : Bool :=
  let mask : Nat := 1 <<< square
  (b.white_pawns ||| b.white_knights ||| b.white_bishops |||
    b.white_rooks ||| b.white_queens ||| b.white_king |||
    b.black_pawns ||| b.black_knights ||| b.black_bishops |||
    b.black_rooks ||| b.black_queens ||| b.black_king) &&& mask ≠ 0

/-- `Board::is_on_board`. -/
def is_on_board (_b : Board) (square : Nat) : Bool := square < 64

/-- `Board::is_occupied_by_side`. -/
def is_occupied_by_side (b : Board) (square : Nat) (side : Bool) : Bool :=
  let mask : Nat := 1 <<< square
  let occupied :=
    if side = WHITE then
      b.white_pawns ||| b.white_knights ||| b.white_bishops |||
        b.white_rooks ||| b.white_queens ||| b.white_king
    else
      b.black_pawns ||| b.black_knights ||| b.black_bishops |||
        b.black_rooks ||| b.black_queens ||| b.black_king
  occupied &&& mask ≠ 0

/-- `Board::get_piece_type`; the final `panic!("No piece on square")` of the
source is `none`. -/
def get_piece_type (b : Board) (square : Nat) : Option PieceType :=
  let mask : Nat := 1 <<< square
  if b.white_pawns &&& mask ≠ 0 then some PieceType.Pawn
  else if b.white_knights &&& mask ≠ 0 then some PieceType.Knight
  else if b.white_bishops &&& mask ≠ 0 then some PieceType.Bishop
  else if b.white_rooks &&& mask ≠ 0 then some PieceType.Rook
  else if b.white_queens &&& mask ≠ 0 then some PieceType.Queen
  else if b.white_king &&& mask ≠ 0 then some PieceType.King
  else if b.black_pawns &&& mask ≠ 0 then some PieceType.Pawn
  else if b.black_knights &&& mask ≠ 0 then some PieceType.Knight
  else if b.black_bishops &&& mask ≠ 0 then some PieceType.Bishop
  else if b.black_rooks &&& mask ≠ 0 then some PieceType.Rook
  else if b.black_queens &&& mask ≠ 0 then some PieceType.Queen
  else if b.black_king &&& mask ≠ 0 then some PieceType.King
  else none

/-- `Board::promote_pawn`; the `panic!("Invalid promotion")` arm is `none`. -/
def promote_pawn (b : Board) (square : Nat) (promotion : PieceType) : Option Board :=
  let b := b.clear_square square
  let mask : Nat := 1 <<< square
  match promotion with
  | PieceType.Queen =>
      some (if b.side_to_move = WHITE then { b with white_queens := b.white_queens ||| mask }
        else { b with black_queens := b.black_queens ||| mask })
  | PieceType.Knight =>
      some (if b.side_to_move = WHITE then { b with white_knights := b.white_knights ||| mask }
        else { b with black_knights := b.black_knights ||| mask })
  | PieceType.Rook =>
      some (if b.side_to_move = WHITE then { b with white_rooks := b.white_rooks ||| mask }
        else { b with black_rooks := b.black_rooks ||| mask })
  | PieceType.Bishop =>
      some (if b.side_to_move = WHITE then { b with white_bishops := b.white_bishops ||| mask }
        else { b with black_bishops := b.black_bishops ||| mask })
  | _ => none

/-- `Board::handle_pawn_move`.  The Rust function returns
`Option<PawnMoveResult>` (whose single field is the new en-passant square)
and may clear the en-passant-captured pawn; here it returns the updated
board together with that option.  The subtraction `mv.to - 8` of the White
double-push branch cannot underflow (the branch forces `to` on rank 3);
the one in the en-passant branch is `Nat` truncated subtraction, faithful
whenever `mv.to ≥ 8`, which holds in the scope of every theorem below. -/
def handle_pawn_move (b : Board) (mv : Move) : Board × Option (Option Nat) :=
  if mv.piece_type ≠ PieceType.Pawn then (b, none)
  else
    let from_rank := get_rank mv.fromSq
    let to_rank := get_rank mv.toSq
    if b.side_to_move = WHITE ∧ from_rank = 1 ∧ to_rank = 3 then
      (b, some (some (mv.toSq - 8)))
    else if b.side_to_move = BLACK ∧ from_rank = 6 ∧ to_rank = 4 then
      (b, some (some (mv.toSq + 8)))
    else if b.en_passant = some mv.toSq then
      let captured_square := if b.side_to_move = WHITE then mv.toSq - 8 else mv.toSq + 8
      (b.clear_square captured_square, none)
    else (b, none)

/-- `Board::update_castling_rights`. -/
def update_castling_rights (b : Board) (mv : Move) : Board :=
  let b :=
    if mv.piece_type = PieceType.King then
      if b.side_to_move = WHITE then { b with castling_rights := b.castling_rights &&& 0b1100 }
      else { b with castling_rights := b.castling_rights &&& 0b0011 }
    else b
  let b :=
    if mv.piece_type = PieceType.Rook then
      if mv.fromSq = 0 ∧ b.side_to_move = WHITE then
        { b with castling_rights := b.castling_rights &&& 0b1101 }
      else if mv.fromSq = 7 ∧ b.side_to_move = WHITE then
        { b with castling_rights := b.castling_rights &&& 0b1110 }
      else if mv.fromSq = 56 ∧ b.side_to_move = BLACK then
        { b with castling_rights := b.castling_rights &&& 0b0111 }
      else if mv.fromSq = 63 ∧ b.side_to_move = BLACK then
        { b with castling_rights := b.castling_rights &&& 0b1011 }
      else b
    else b
  if mv.toSq = 0 ∧ b.side_to_move = BLACK then
    { b with castling_rights := b.castling_rights &&& 0b1101 }
  else if mv.toSq = 7 ∧ b.side_to_move = BLACK then
    { b with castling_rights := b.castling_rights &&& 0b1110 }
  else if mv.toSq = 56 ∧ b.side_to_move = WHITE then
    { b with castling_rights := b.castling_rights &&& 0b0111 }
  else if mv.toSq = 63 ∧ b.side_to_move = WHITE then
    { b with castling_rights := b.castling_rights &&& 0b1011 }
  else b

/-- `Board::handle_castling`; the `panic!("Invalid castling move")` arm is
`none`. -/
def handle_castling (b : Board) (toSq : Nat) : Option Board :=
  match toSq with
  | 2 =>
      let b := { b with castling_rights := b.castling_rights &&& 0b1100 }
      some ((b.clear_square 0).set_square 3 PieceType.Rook)
  | 6 =>
      let b := { b with castling_rights := b.castling_rights &&& 0b1100 }
      some ((b.clear_square 7).set_square 5 PieceType.Rook)
  | 58 =>
      let b := { b with castling_rights := b.castling_rights &&& 0b0011 }
      some ((b.clear_square 56).set_square 59 PieceType.Rook)
  | 62 =>
      let b := { b with castling_rights := b.castling_rights &&& 0b0011 }
      some ((b.clear_square 63).set_square 61 PieceType.Rook)
  | _ => none

/-- `Board::make_move`.  `none` models the panic paths (`get_piece_type` on
an impossible empty capture square, `promote_pawn` with an invalid piece,
`handle_castling` with an invalid destination).  The debug-build overflow
panic of `halfmove_clock + 1` at 255 is not modelled (`Nat` addition). -/
def make_move (b : Board) (mv : Move) : Option (Board × UndoState) := do
  let is_pawn_advance := mv.piece_type = PieceType.Pawn
  let is_capture := b.is_occupied_by_opponent mv.toSq b.side_to_move
  let is_en_passant_capture := is_pawn_advance ∧ b.en_passant = some mv.toSq
  let captured_piece : Option PieceType ←
    if is_capture then do
      let pt ← b.get_piece_type mv.toSq
      pure (some pt)
    else if is_en_passant_capture then pure (some PieceType.Pawn)
    else pure none
  let undo_state : UndoState :=
    { captured_piece := captured_piece
      en_passant := b.en_passant
      castling_rights := b.castling_rights
      halfmove_clock := b.halfmove_clock
      fullmove_number := b.fullmove_number }
  let b := { b with halfmove_clock := if is_pawn_advance ∨ is_capture then 0 else b.halfmove_clock + 1 }
  let b := if is_capture then b.clear_square mv.toSq else b
  let b := b.clear_square mv.fromSq
  let b := b.set_square mv.toSq mv.piece_type
  let b ←
    if mv.piece_type = PieceType.King ∧ abs_diff mv.fromSq mv.toSq = 2 then
      b.handle_castling mv.toSq
    else pure b
  let b := b.update_castling_rights mv
  let (b, pawn_move) := b.handle_pawn_move mv
  let b := { b with en_passant := match pawn_move with | some ep => ep | none => none }
  let b ←
    match mv.promotion with
    | some promotion => b.promote_pawn mv.toSq promotion
    | none => pure b
  let b := { b with side_to_move := !b.side_to_move }
  let b := if b.side_to_move = WHITE then { b with fullmove_number := b.fullmove_number + 1 } else b
  pure (b, undo_state)

/-- `Board::unmake_move`; `none` models the
`panic!("Invalid castling move during unmake")` arm.  The subtraction
`mv.to - 8` of the en-passant restore is `Nat` truncated subtraction,
faithful whenever `mv.to ≥ 8`, which holds in the scope of every theorem
below. -/
def unmake_move (b : Board) (mv : Move) (undo_state : UndoState) : Option Board := do
  let b := b.clear_square mv.toSq
  let b :=
    if some mv.toSq = undo_state.en_passant then
      let captured_square := if b.side_to_move = WHITE then mv.toSq + 8 else mv.toSq - 8
      b.set_square captured_square PieceType.Pawn
    else
      match undo_state.captured_piece with
      | some captured_piece => b.set_square mv.toSq captured_piece
      | none => b
  let b := { b with side_to_move := !b.side_to_move }
  let b := { b with
    en_passant := undo_state.en_passant
    castling_rights := undo_state.castling_rights
    halfmove_clock := undo_state.halfmove_clock
    fullmove_number := undo_state.fullmove_number }
  let b := b.set_square mv.fromSq mv.piece_type
  if mv.piece_type = PieceType.King ∧ abs_diff mv.fromSq mv.toSq = 2 then do
    let (rook_from, rook_to) ←
      if mv.toSq = 2 ∨ mv.toSq = 58 then pure ((0 : Nat), (3 : Nat))
      else if mv.toSq = 6 ∨ mv.toSq = 62 then pure ((7 : Nat), (5 : Nat))
      else none
    let rook_from := if b.side_to_move = WHITE then rook_from else rook_from + 56
    let rook_to := if b.side_to_move = WHITE then rook_to else rook_to + 56
    let b := b.clear_square rook_to
    pure (b.set_square rook_from PieceType.Rook)
  else pure b

end Board

/-- `u64::trailing_zeros` (which is 64 on the zero bitboard), used by
`Board::bitboard_to_square`. -/
def trailing_zeros64 (n : Nat) : Nat :=
  (((List.range 64).find? fun i => n.testBit i)).getD 64

/-- `List.foldl` with the list and the initial accumulator first, so the
source's big trailing fold closures keep their shape. -/
def fold_from {α β : Type} (l : List α) (b : β) (f : β → α → β) : β :=
  l.foldl f b

/-- `List.foldlM` over `Option`, with the list and the initial accumulator
first. -/
def foldM_from {α β : Type} (l : List α) (b : β) (f : β → α → Option β) : Option β :=
  l.foldlM f b

namespace Board

/-- `Board::bitboard_to_square`. -/
def bitboard_to_square (_b : Board) (bitboard : Nat) : Nat :=
  trailing_zeros64 bitboard

/-- `(square as i8).wrapping_add(offset) as u8` for `square < 64` and the
small offsets used by the attack and generator code (the `i8` addition
cannot overflow there, so the composite is reduction mod 256). -/
def off_square (square : Nat) (offset : Int) : Nat :=
  (((square : Int) + offset).emod 256).toNat

/-- `Board::is_attacked_by_pawns`.  The early `return true` of the source
loop is `List.any`. -/
def is_attacked_by_pawns (b : Board) (square : Nat) (side : Bool) : Bool :=
  let pawn_attacks : List Int := if side = WHITE then [7, 9] else [-9, -7]
  pawn_attacks.any fun offset =>
    let attack_square := off_square square offset
    if b.is_on_board attack_square then
      let pawn_bitboard := if side = WHITE then b.black_pawns else b.white_pawns
      if pawn_bitboard &&& (1 <<< attack_square) ≠ 0 then
        ((get_file square : Int) - (get_file attack_square : Int)).natAbs = 1
      else false
    else false

/-- `Board::is_attacked_by_knights`. -/
def is_attacked_by_knights (b : Board) (square : Nat) (side : Bool) : Bool :=
  let knight_attacks : List Int := [-17, -15, -10, -6, 6, 10, 15, 17]
  knight_attacks.any fun offset =>
    let attack_square := off_square square offset
    if b.is_on_board attack_square then
      let knight_bitboard := if side = WHITE then b.black_knights else b.white_knights
      if knight_bitboard &&& (1 <<< attack_square) ≠ 0 then
        ((get_rank square : Int) - (get_rank attack_square : Int)).natAbs ≤ 2 ∧
          ((get_file square : Int) - (get_file attack_square : Int)).natAbs ≤ 2
      else false
    else false

/-- The ray loop of `Board::is_attacked_by_sliding_pieces`.  `attack_square`
is the `i8` cursor (as `Int`; the `i8` arithmetic cannot overflow because
the loop breaks as soon as `attack_square as u8` leaves the board, keeping
the cursor within `[-9, 72]`).  The fuel dominates the longest possible
walk: with `|dir| ≥ 1` the cursor leaves `[0, 63]` after at most 64 steps
and the loop then breaks, so fuel 127 never truncates it. -/
def ray_attacked (b : Board) (square : Nat)
    (enemy_bishops enemy_rooks enemy_queens : Nat) (dir : Int) :
    Nat → Int → Bool
  | 0, _ => false
  | fuel + 1, cursor =>
    let attack_square : Int := cursor + dir
    let sq : Nat := (attack_square.emod 256).toNat
    if ¬ b.is_on_board sq then false
    else
      let attack_square_bitboard : Nat := 1 <<< sq
      if (enemy_bishops ||| enemy_queens) &&& attack_square_bitboard ≠ 0 ∧
          (dir = -9 ∨ dir = -7 ∨ dir = 7 ∨ dir = 9) ∧
          ((get_rank square : Int) - (get_rank sq : Int)).natAbs =
            ((get_file square : Int) - (get_file sq : Int)).natAbs then
        true
      else if (enemy_rooks ||| enemy_queens) &&& attack_square_bitboard ≠ 0 ∧
          (dir = -8 ∨ dir = -1 ∨ dir = 1 ∨ dir = 8) ∧
          (((get_rank square : Int) - (get_rank sq : Int)).natAbs = 0 ∨
            ((get_file square : Int) - (get_file sq : Int)).natAbs = 0) then
        true
      else if b.is_occupied sq then false
      else b.ray_attacked square enemy_bishops enemy_rooks enemy_queens dir fuel attack_square

/-- `Board::is_attacked_by_sliding_pieces`. -/
def is_attacked_by_sliding_pieces (b : Board) (square : Nat) (side : Bool)
    (directions : List Int) : Bool :=
  let enemy_bishops := if side = WHITE then b.black_bishops else b.white_bishops
  let enemy_rooks := if side = WHITE then b.black_rooks else b.white_rooks
  let enemy_queens := if side = WHITE then b.black_queens else b.white_queens
  directions.any fun dir =>
    b.ray_attacked square enemy_bishops enemy_rooks enemy_queens dir 127 (square : Int)

/-- `Board::is_attacked_by_king`, including the early return on the two
kings' square indices differing by more than 9. -/
def is_attacked_by_king (b : Board) (square : Nat) (side : Bool) : Bool :=
  if ((b.bitboard_to_square b.black_king : Int) -
      (b.bitboard_to_square b.white_king : Int)).natAbs > 9 then
    false
  else
    let king_attacks : List Int := [-9, -8, -7, -1, 1, 7, 8, 9]
    king_attacks.any fun offset =>
      let attack_square := off_square square offset
      if b.is_on_board attack_square then
        let king_bitboard := if side = WHITE then b.black_king else b.white_king
        if king_bitboard &&& (1 <<< attack_square) ≠ 0 then
          ((get_rank square : Int) - (get_rank attack_square : Int)).natAbs ≤ 1 ∧
            ((get_file square : Int) - (get_file attack_square : Int)).natAbs ≤ 1
        else false
      else false

/-- `Board::is_in_check`. -/
def is_in_check (b : Board) (side : Bool) : Bool :=
  let king_pos :=
    if side = WHITE then b.bitboard_to_square b.white_king
    else b.bitboard_to_square b.black_king
  b.is_attacked_by_pawns king_pos side ||
    b.is_attacked_by_knights king_pos side ||
    b.is_attacked_by_sliding_pieces king_pos side [-9, -7, 7, 9] ||
    b.is_attacked_by_sliding_pieces king_pos side [-8, -1, 1, 8] ||
    b.is_attacked_by_king king_pos side

/-- `Board::is_square_attacked`. -/
def is_square_attacked (b : Board) (square : Nat) (side : Bool) : Bool :=
  b.is_attacked_by_pawns square side ||
    b.is_attacked_by_knights square side ||
    b.is_attacked_by_sliding_pieces square side [-9, -7, 7, 9] ||
    b.is_attacked_by_sliding_pieces square side [-8, -1, 1, 8] ||
    b.is_attacked_by_king square side

/-- The four promotion pushes of `Board::generate_pawn_moves`. -/
def promotion_moves (fromSq toSq : Nat) : List Move :=
  [⟨fromSq, toSq, some PieceType.Queen, PieceType.Pawn⟩,
    ⟨fromSq, toSq, some PieceType.Rook, PieceType.Pawn⟩,
    ⟨fromSq, toSq, some PieceType.Bishop, PieceType.Pawn⟩,
    ⟨fromSq, toSq, some PieceType.Knight, PieceType.Pawn⟩]

/-- `Board::generate_pawn_moves`.  The result is an `Option` because the
en-passant branch applies `make_move` to a cloned board.  The forward
targets `(from as i8 + direction) as u8` are modelled by `off_square`; on a
board with a pawn on its own back rank the source would index
`is_occupied` with a square of 64 or more and panic in a debug build,
while this model reads the (zero) high bit, as noted at the C10 theorem.
The `wrapping_sub`/`wrapping_add` of the captured-pawn square is `Nat`
truncated subtraction, faithful whenever the en-passant square is at least
8, which holds in the scope of every theorem below. -/
def generate_pawn_moves (b : Board) : Option (List Move) := do
  let pawns := if b.side_to_move = WHITE then b.white_pawns else b.black_pawns
  let start_rank : Nat := if b.side_to_move = WHITE then 1 else 6
  let direction : Int := if b.side_to_move = WHITE then 8 else -8
  let attack_offsets : List Int := if b.side_to_move = WHITE then [7, 9] else [-9, -7]
  foldM_from (List.range 64) [] fun (moves : List Move) fromSq => do
    if pawns &&& (1 <<< fromSq) ≠ 0 then do
      let single_to := off_square fromSq direction
      let moves :=
        if ¬ b.is_occupied single_to then
          if get_rank single_to = (if b.side_to_move = WHITE then 7 else 0) then
            moves ++ promotion_moves fromSq single_to
          else
            moves ++ [⟨fromSq, single_to, none, PieceType.Pawn⟩]
        else moves
      let moves :=
        if get_rank fromSq = start_rank then
          let double_to := off_square fromSq (2 * direction)
          if ¬ b.is_occupied double_to ∧ ¬ b.is_occupied (off_square fromSq direction) then
            moves ++ [⟨fromSq, double_to, none, PieceType.Pawn⟩]
          else moves
        else moves
      let moves := fold_from attack_offsets moves fun acc offset =>
        let toSq := off_square fromSq offset
        if b.is_on_board toSq ∧ b.is_occupied_by_opponent toSq b.side_to_move then
          if ((fromSq % 8 : Int) - (toSq % 8 : Int)).natAbs ≤ 1 then
            if get_rank toSq = (if b.side_to_move = WHITE then 7 else 0) then
              acc ++ promotion_moves fromSq toSq
            else
              acc ++ [⟨fromSq, toSq, none, PieceType.Pawn⟩]
          else acc
        else acc
      match b.en_passant with
      | some en_passant_square =>
          foldM_from attack_offsets moves fun acc offset => do
            let toSq := off_square fromSq offset
            if toSq = en_passant_square then
              if ((fromSq % 8 : Int) - (toSq % 8 : Int)).natAbs ≤ 1 then do
                let captured_pawn_square :=
                  if b.side_to_move = WHITE then en_passant_square - 8
                  else en_passant_square + 8
                let (board_copy, _) ← b.make_move ⟨fromSq, toSq, none, PieceType.Pawn⟩
                let captured_pawn_bitboard : Nat := 1 <<< captured_pawn_square
                let board_copy :=
                  if b.side_to_move = WHITE then
                    { board_copy with black_pawns :=
                        board_copy.black_pawns &&& (captured_pawn_bitboard ^^^ mask64) }
                  else
                    { board_copy with white_pawns :=
                        board_copy.white_pawns &&& (captured_pawn_bitboard ^^^ mask64) }
                if ¬ board_copy.is_in_check b.side_to_move then
                  pure (acc ++ [⟨fromSq, toSq, none, PieceType.Pawn⟩])
                else pure acc
              else pure acc
            else pure acc
      | none => pure moves
    else pure moves

/-- `Board::generate_knight_moves`. -/
def generate_knight_moves (b : Board) : List Move :=
  let knights := if b.side_to_move = WHITE then b.white_knights else b.black_knights
  fold_from (List.range 64) [] fun moves fromSq =>
    if knights &&& (1 <<< fromSq) ≠ 0 then
      let knight_moves : List Int := [-17, -15, -10, -6, 6, 10, 15, 17]
      fold_from knight_moves moves fun acc move_offset =>
        let toSq := off_square fromSq move_offset
        if b.is_on_board toSq ∧ ¬ b.is_occupied_by_side toSq b.side_to_move then
          if ((fromSq / 8 : Int) - (toSq / 8 : Int)).natAbs = 2 ∧
                ((fromSq % 8 : Int) - (toSq % 8 : Int)).natAbs = 1 ∨
              ((fromSq / 8 : Int) - (toSq / 8 : Int)).natAbs = 1 ∧
                ((fromSq % 8 : Int) - (toSq % 8 : Int)).natAbs = 2 then
            acc ++ [⟨fromSq, toSq, none, PieceType.Knight⟩]
          else acc
        else acc
    else moves

/-- The ray loop of `Board::generate_bishop_moves`.  The cursor is the
`i8` value `to` (as `Int`); for a negative cursor the source's remainder
test and the Euclidean one used here always agree on breaking, because of
the adjacent `to < 0` / `is_on_board` tests.  Fuel 127 dominates every
possible walk as in `ray_attacked`. -/
def bishop_ray (b : Board) (fromSq : Nat) (dir : Int) : Nat → Int → List Move
  | 0, _ => []
  | fuel + 1, cursor =>
    let toI : Int := cursor + dir
    if (dir = -9 ∧ (toI.emod 8 = 7 ∨ toI < 0)) ∨ (dir = -7 ∧ (toI.emod 8 = 0 ∨ toI < 0)) ∨
        (dir = 9 ∧ (toI.emod 8 = 0 ∨ toI > 63)) ∨ (dir = 7 ∧ (toI.emod 8 = 7 ∨ toI > 63)) then
      []
    else
      let toSq : Nat := (toI.emod 256).toNat
      if ¬ b.is_on_board toSq then []
      else if b.is_occupied_by_side toSq b.side_to_move then []
      else
        (⟨fromSq, toSq, none, PieceType.Bishop⟩ : Move) ::
          (if b.is_occupied_by_opponent toSq b.side_to_move then []
            else b.bishop_ray fromSq dir fuel toI)

/-- `Board::generate_bishop_moves`. -/
def generate_bishop_moves (b : Board) : List Move :=
  let bishops := if b.side_to_move = WHITE then b.white_bishops else b.black_bishops
  fold_from (List.range 64) [] fun moves fromSq =>
    if bishops &&& (1 <<< fromSq) ≠ 0 then
      fold_from ([-9, -7, 7, 9] : List Int) moves fun acc dir =>
        acc ++ b.bishop_ray fromSq dir 127 (fromSq : Int)
    else moves

/-- The ray loop of `Board::generate_rook_moves` (same conventions as
`bishop_ray`). -/
def rook_ray (b : Board) (fromSq : Nat) (dir : Int) : Nat → Int → List Move
  | 0, _ => []
  | fuel + 1, cursor =>
    let toI : Int := cursor + dir
    if (dir = -1 ∧ toI.emod 8 = 7) ∨ (dir = 1 ∧ toI.emod 8 = 0) then []
    else
      let toSq : Nat := (toI.emod 256).toNat
      if ¬ b.is_on_board toSq ∨ b.is_occupied_by_side toSq b.side_to_move then []
      else
        (⟨fromSq, toSq, none, PieceType.Rook⟩ : Move) ::
          (if b.is_occupied_by_opponent toSq b.side_to_move then []
            else b.rook_ray fromSq dir fuel toI)

/-- `Board::generate_rook_moves`. -/
def generate_rook_moves (b : Board) : List Move :=
  let rooks := if b.side_to_move = WHITE then b.white_rooks else b.black_rooks
  fold_from (List.range 64) [] fun moves fromSq =>
    if rooks &&& (1 <<< fromSq) ≠ 0 then
      fold_from ([-8, -1, 1, 8] : List Int) moves fun acc dir =>
        acc ++ b.rook_ray fromSq dir 127 (fromSq : Int)
    else moves

/-- The ray loop of `Board::generate_queen_moves` (same conventions as
`bishop_ray`). -/
def queen_ray (b : Board) (fromSq : Nat) (dir : Int) : Nat → Int → List Move
  | 0, _ => []
  | fuel + 1, cursor =>
    let toI : Int := cursor + dir
    if (dir = -1 ∧ toI.emod 8 = 7) ∨ (dir = 1 ∧ toI.emod 8 = 0) ∨
        (dir = -9 ∧ (toI.emod 8 = 7 ∨ toI < 0)) ∨ (dir = -7 ∧ (toI.emod 8 = 0 ∨ toI < 0)) ∨
        (dir = 9 ∧ (toI.emod 8 = 0 ∨ toI > 63)) ∨ (dir = 7 ∧ (toI.emod 8 = 7 ∨ toI > 63)) then
      []
    else
      let toSq : Nat := (toI.emod 256).toNat
      if ¬ b.is_on_board toSq ∨ b.is_occupied_by_side toSq b.side_to_move then []
      else
        (⟨fromSq, toSq, none, PieceType.Queen⟩ : Move) ::
          (if b.is_occupied_by_opponent toSq b.side_to_move then []
            else b.queen_ray fromSq dir fuel toI)

/-- `Board::generate_queen_moves`. -/
def generate_queen_moves (b : Board) : List Move :=
  let queens := if b.side_to_move = WHITE then b.white_queens else b.black_queens
  fold_from (List.range 64) [] fun moves fromSq =>
    if queens &&& (1 <<< fromSq) ≠ 0 then
      fold_from ([-9, -8, -7, -1, 1, 7, 8, 9] : List Int) moves fun acc dir =>
        acc ++ b.queen_ray fromSq dir 127 (fromSq : Int)
    else moves

/-- `Board::can_castle_kingside`. -/
def can_castle_kingside (b : Board) : Bool :=
  let castling_rights_mask : Nat := if b.side_to_move = WHITE then 1 else 0b0100
  if b.castling_rights &&& castling_rights_mask = 0 then false
  else
    let empty_squares_mask : Nat :=
      if b.side_to_move = WHITE then 0b01100000 else 0b01100000 <<< (7 * 8)
    let all_pieces :=
      b.white_pawns ||| b.white_knights ||| b.white_bishops ||| b.white_rooks |||
        b.white_queens ||| b.white_king ||| b.black_pawns ||| b.black_knights |||
        b.black_bishops ||| b.black_rooks ||| b.black_queens ||| b.black_king
    if all_pieces &&& empty_squares_mask ≠ 0 then false
    else if b.is_in_check b.side_to_move then false
    else
      let king_pass_through_squares : List Nat :=
        if b.side_to_move = WHITE then [5, 6] else [61, 62]
      ¬ king_pass_through_squares.any fun square => b.is_square_attacked square b.side_to_move

/-- `Board::can_castle_queenside`. -/
def can_castle_queenside (b : Board) : Bool :=
  let castling_rights_mask : Nat := if b.side_to_move = WHITE then 0b0010 else 0b1000
  if b.castling_rights &&& castling_rights_mask = 0 then false
  else
    let empty_squares_mask : Nat :=
      if b.side_to_move = WHITE then 0b00001110 else 0b00001110 <<< (7 * 8)
    let all_pieces :=
      b.white_pawns ||| b.white_knights ||| b.white_bishops ||| b.white_rooks |||
        b.white_queens ||| b.white_king ||| b.black_pawns ||| b.black_knights |||
        b.black_bishops ||| b.black_rooks ||| b.black_queens ||| b.black_king
    if all_pieces &&& empty_squares_mask ≠ 0 then false
    else if b.is_in_check b.side_to_move then false
    else
      let king_pass_through_squares : List Nat :=
        if b.side_to_move = WHITE then [2, 3] else [58, 59]
      ¬ king_pass_through_squares.any fun square => b.is_square_attacked square b.side_to_move

/-- `Board::generate_king_moves`. -/
def generate_king_moves (b : Board) : List Move :=
  let king := if b.side_to_move = WHITE then b.white_king else b.black_king
  fold_from (List.range 64) [] fun moves fromSq =>
    if king &&& (1 <<< fromSq) ≠ 0 then
      let king_moves : List Int := [-9, -8, -7, -1, 1, 7, 8, 9]
      let from_file := fromSq % 8
      let moves := fold_from king_moves moves fun acc move_offset =>
        let toSq := off_square fromSq move_offset
        let to_file := toSq % 8
        if ((from_file : Int) - (to_file : Int)).natAbs > 1 then acc
        else if b.is_on_board toSq ∧ ¬ b.is_occupied_by_side toSq b.side_to_move then
          acc ++ [⟨fromSq, toSq, none, PieceType.King⟩]
        else acc
      let moves :=
        if (b.side_to_move = WHITE ∧ b.castling_rights &&& 0b0001 ≠ 0) ∨
            (b.side_to_move = BLACK ∧ b.castling_rights &&& 0b0100 ≠ 0) then
          if b.can_castle_kingside then
            let castle_move_to : Nat := if b.side_to_move = WHITE then 6 else 62
            moves ++ [⟨fromSq, castle_move_to, none, PieceType.King⟩]
          else moves
        else moves
      if (b.side_to_move = WHITE ∧ b.castling_rights &&& 0b0010 ≠ 0) ∨
          (b.side_to_move = BLACK ∧ b.castling_rights &&& 0b1000 ≠ 0) then
        if b.can_castle_queenside then
          let castle_move_to : Nat := if b.side_to_move = WHITE then 2 else 58
          moves ++ [⟨fromSq, castle_move_to, none, PieceType.King⟩]
        else moves
      else moves
    else moves

/-- The `retain` pass of `Board::generate_legal_moves`: make each
candidate, test the mover's king, unmake; keep the candidate if the mover
was not left in check.  The board is threaded exactly as the `&mut self`
of the source. -/
def filter_legal (b : Board) : List Move → Option (Board × List Move)
  | [] => some (b, [])
  | mv :: rest => do
      let (b1, undo_state) ← b.make_move mv
      let is_legal := ¬ b1.is_in_check (!b1.side_to_move)
      let b2 ← b1.unmake_move mv undo_state
      let (b3, kept) ← b2.filter_legal rest
      pure (b3, if is_legal then mv :: kept else kept)

/-- `Board::generate_legal_moves`.  The trailing
`assert_eq!(self, &initial_state)` (which panics whenever the board
changed) is the final comparison. -/
def generate_legal_moves (b : Board) : Option (Board × List Move) := do
  let initial_state := b
  let pawn_moves ← b.generate_pawn_moves
  let moves := pawn_moves ++ b.generate_knight_moves ++ b.generate_bishop_moves ++
    b.generate_rook_moves ++ b.generate_queen_moves ++ b.generate_king_moves
  let (b, moves) ← b.filter_legal moves
  if b ≠ initial_state then none
  else pure (b, moves)

end Board

/-- `i32::MAX`. -/
def i32MAX : Int := 2147483647

/-- `i32::MIN`. -/
def i32MIN : Int := -2147483648

namespace Board

/-- `Board::bitboard_material`: `bitboard.count_ones() as i32`.  Bitboards
are kept below `2^64`, so counting the low 64 bits is the `u64`
popcount. -/
def bitboard_material (_b : Board) (bitboard : Nat) : Int :=
  ((List.range 64).countP fun i => bitboard.testBit i : Nat)

/-- `Board::evaluate`. -/
def evaluate (b : Board) : Int :=
  let white_material :=
    b.bitboard_material b.white_pawns * 1 + b.bitboard_material b.white_knights * 3 +
      b.bitboard_material b.white_bishops * 3 + b.bitboard_material b.white_rooks * 5 +
      b.bitboard_material b.white_queens * 9
  let black_material :=
    b.bitboard_material b.black_pawns * 1 + b.bitboard_material b.black_knights * 3 +
      b.bitboard_material b.black_bishops * 3 + b.bitboard_material b.black_rooks * 5 +
      b.bitboard_material b.black_queens * 9
  white_material - black_material

/-- `Board::evaluate_checkmate_or_stalemate`. -/
def evaluate_checkmate_or_stalemate (b : Board) : Int :=
  if b.is_in_check b.side_to_move then -i32MAX else 0

/-- The move loop of `Board::minimax`; `step` is the recursive call at
`depth - 1`, already receiving the `(-beta, -alpha)` window from the
caller below.  The `break` on `alpha >= beta` returns early. -/
def minimax_loop (step : Board → Int → Int → Option (Board × Int)) :
    Board → List Move → Int → Int → Int → Option (Board × Int)
  | b, [], _alpha, _beta, best_score => some (b, best_score)
  | b, mv :: rest, alpha, beta, best_score => do
      let (b1, undo_state) ← b.make_move mv
      let (b2, v) ← step b1 (-beta) (-alpha)
      let score := -v
      let b3 ← b2.unmake_move mv undo_state
      let best_score := max best_score score
      let alpha := max alpha score
      if alpha ≥ beta then some (b3, best_score)
      else minimax_loop step b3 rest alpha beta best_score

/-- `Board::minimax` (the `board.rs` search), threading the `&mut self`
board. -/
def minimax : (depth : Nat) → Board → Int → Int → Option (Board × Int)
  | 0, b, _alpha, _beta => some (b, b.evaluate)
  | depth + 1, b, alpha, beta => do
      let (b, legal_moves) ← b.generate_legal_moves
      if legal_moves.isEmpty then pure (b, b.evaluate_checkmate_or_stalemate)
      else minimax_loop (minimax depth) b legal_moves alpha beta (-i32MAX)

/-- The move loop of `Board::depth_first_search`: the root negates the
child's value. -/
def dfs_loop (step : Board → Option (Board × Int)) :
    Board → List Move → List ScoredMove → Option (Board × List ScoredMove)
  | b, [], scored_moves => some (b, scored_moves)
  | b, mv :: rest, scored_moves => do
      let (b1, undo_state) ← b.make_move mv
      let (b2, v) ← step b1
      let score := -v
      let b3 ← b2.unmake_move mv undo_state
      dfs_loop step b3 rest (scored_moves ++ [ScoredMove.mk mv score])

/-- `Board::depth_first_search`.  The `depth - 1` is the `usize`
subtraction of the source; callers use `depth ≥ 1`. -/
def depth_first_search (b : Board) (depth : Nat) : Option (Board × List ScoredMove) := do
  let (b, legal_moves) ← b.generate_legal_moves
  dfs_loop (fun b1 => minimax (depth - 1) b1 (-i32MAX) i32MAX) b legal_moves []

/-- The per-move body of `Board::perft_helper`'s loop. -/
def perft_helper_loop (step : Board → Option (Board × Nat)) :
    Board → List Move → Nat → Option (Board × Nat)
  | b, [], total_moves => some (b, total_moves)
  | b, mv :: rest, total_moves => do
      let (b1, undo_state) ← b.make_move mv
      let (b2, n) ← step b1
      let b3 ← b2.unmake_move mv undo_state
      perft_helper_loop step b3 rest (total_moves + n)

/-- `Board::perft_helper`. -/
def perft_helper : (depth : Nat) → Board → Option (Board × Nat)
  | 0, b => some (b, 1)
  | depth + 1, b => do
      let (b, legal_moves) ← b.generate_legal_moves
      perft_helper_loop (perft_helper depth) b legal_moves 0

end Board

/-- `HashMap::insert` of `Board::perft`, restricted to what the printed
total depends on: insert or replace the count keyed by
`(from, to, promotion)`. -/
def insert_count (k : Nat × Nat × Option PieceType) (v : Nat) :
    List ((Nat × Nat × Option PieceType) × Nat) →
      List ((Nat × Nat × Option PieceType) × Nat)
  | [] => [(k, v)]
  | (k1, v1) :: rest =>
      if k1 = k then (k, v) :: rest else (k1, v1) :: insert_count k v rest

namespace Board

/-- The top-level move loop of `Board::perft`, building the per-move count
map. -/
def perft_collect (step : Board → Option (Board × Nat)) :
    Board → List Move → List ((Nat × Nat × Option PieceType) × Nat) →
      Option (Board × List ((Nat × Nat × Option PieceType) × Nat))
  | b, [], acc => some (b, acc)
  | b, mv :: rest, acc => do
      let (b1, undo_state) ← b.make_move mv
      let (b2, nodes_count) ← step b1
      let acc := insert_count (mv.fromSq, mv.toSq, mv.promotion) nodes_count acc
      let b3 ← b2.unmake_move mv undo_state
      perft_collect step b3 rest acc

/-- `Board::perft`: the printed `Total nodes` (the sum of the per-move
counts).  `depth - 1` is the `usize` subtraction of the source; the CLI
calls it with `depth ≥ 1`. -/
def perft (b : Board) (depth : Nat) : Option Nat := do
  let (b, legal_moves) ← b.generate_legal_moves
  let (_, top_level_moves_count) ← perft_collect (perft_helper (depth - 1)) b legal_moves []
  pure (top_level_moves_count.foldl (fun total_nodes p => total_nodes + p.2) 0)

/-- `Board::check_for_checkmate` is called by `Engine::evaluate` but is
missing from the sources under `src/` (no definition exists anywhere in
the crate).  Modelled from the spec: "if no legal moves exist, the
position is checkmate … or stalemate" and "checkmated = attacked with no
legal move"; the board threads through `generate_legal_moves` as in every
other caller. -/
def check_for_checkmate (b : Board) : Option (Board × Bool) := do
  let (b, moves) ← b.generate_legal_moves
  pure (b, moves.isEmpty && b.is_in_check b.side_to_move)

/-- `Board::check_for_draw` is called by `Engine::evaluate` but is missing
from the sources under `src/`.  Modelled from the spec: stalemate ("not
attacked with no legal move") is the only draw the core detects
("threefold repetition and insufficient material are not detected"; the
fifty-move clock is only maintained, with "no automatic termination"). -/
def check_for_draw (b : Board) : Option (Board × Bool) := do
  let (b, moves) ← b.generate_legal_moves
  pure (b, moves.isEmpty && !b.is_in_check b.side_to_move)

end Board

/- The `Engine` of `engine.rs` holds only its board; its methods are
modelled on the board they thread. -/
namespace Engine

/-- `Engine::evaluate` from `engine.rs`: terminal tests (through the
spec-modelled `check_for_checkmate`/`check_for_draw`), then the same
material count as `Board::evaluate`. -/
def evaluate (b : Board) : Option (Board × Int) := do
  let (b, cm) ← b.check_for_checkmate
  if cm then
    pure (b, if b.side_to_move = true then i32MIN else i32MAX)
  else do
    let (b, dr) ← b.check_for_draw
    if dr then pure (b, 0)
    else
      let white_material :=
        b.bitboard_material b.white_pawns * 1 + b.bitboard_material b.white_knights * 3 +
          b.bitboard_material b.white_bishops * 3 + b.bitboard_material b.white_rooks * 5 +
          b.bitboard_material b.white_queens * 9
      let black_material :=
        b.bitboard_material b.black_pawns * 1 + b.bitboard_material b.black_knights * 3 +
          b.bitboard_material b.black_bishops * 3 + b.bitboard_material b.black_rooks * 5 +
          b.bitboard_material b.black_queens * 9
      pure (b, white_material - black_material)

/-- The move loop of `Engine::minimax`; `step` is the recursive call at
`depth - 1`.  Note the `(-alpha, -beta)` argument order and the
`i32::MIN`-to-`i32::MAX` replacement of the source, both modelled
verbatim. -/
def minimax_loop (step : Board → Int → Int → Option (Board × Int)) :
    Board → List Move → Int → Int → Int → Option (Board × Int)
  | b, [], _alpha, _beta, best_score => some (b, best_score)
  | b, mv :: rest, alpha, beta, best_score => do
      let (b1, undo_state) ← b.make_move mv
      let (b2, v) ← step b1 (-alpha) (-beta)
      let score := if v = i32MIN then i32MAX else -v
      let b3 ← b2.unmake_move mv undo_state
      let best_score := max best_score score
      let alpha := max alpha score
      if alpha ≥ beta then some (b3, best_score)
      else minimax_loop step b3 rest alpha beta best_score

/-- `Engine::minimax` from `engine.rs`.  It has no terminal handling: with
no legal moves the loop never runs and `best_score = -i32::MAX` is
returned as initialised. -/
def minimax : (depth : Nat) → Board → Int → Int → Option (Board × Int)
  | 0, b, _alpha, _beta => evaluate b
  | depth + 1, b, alpha, beta => do
      let (b, legal_moves) ← b.generate_legal_moves
      minimax_loop (minimax depth) b legal_moves alpha beta (-i32MAX)

/-- `Engine::depth_first_search_parallel`.  Every worker clones the engine
after the `generate_legal_moves` call, so every move is searched from the
same board and the clones' mutations are discarded; `rayon`'s
`par_iter().map().collect()` preserves the move order.  The root stores
`score = cloned_engine.minimax(depth - 1, -i32::MAX, i32::MAX)` without
negating it.  `depth - 1` is the `usize` subtraction of the source;
`search_moves` calls it with `depth ≥ 1`. -/
def depth_first_search_parallel (b : Board) (depth : Nat) : Option (List ScoredMove) := do
  let (b, legal_moves) ← b.generate_legal_moves
  legal_moves.mapM fun mv => do
    let (b1, undo_state) ← b.make_move mv
    let (b2, score) ← minimax (depth - 1) b1 (-i32MAX) i32MAX
    let _ ← b2.unmake_move mv undo_state
    pure (ScoredMove.mk mv score)

end Engine

/-- Rust `char::to_digit(10)`. -/
def char_to_digit (c : Char) : Option Nat :=
  if '0' ≤ c ∧ c ≤ '9' then some (c.toNat - '0'.toNat) else none

/-- `char as i8`: truncation of the code point into the signed byte
range. -/
def char_as_i8 (c : Char) : Int :=
  ((c.toNat : Int) + 128).emod 256 - 128

/-- The digit loop of Rust `str::parse::<uN>()`. -/
def parse_unsigned_digits (maxVal : Nat) (acc : Nat) : List Char → Option Nat
  | [] => some acc
  | c :: rest =>
      match char_to_digit c with
      | some d =>
          if acc * 10 + d > maxVal then none
          else parse_unsigned_digits maxVal (acc * 10 + d) rest
      | none => none

/-- Rust `str::parse::<uN>()` with maximum value `maxVal`: an optional
leading `+`, then one or more ASCII digits whose value fits; anything
else is `Err` (overflow does not wrap). -/
def parse_unsigned (maxVal : Nat) (s : String) : Option Nat :=
  let cs := match s.toList with
    | '+' :: rest => rest
    | cs => cs
  if cs.isEmpty then none
  else parse_unsigned_digits maxVal 0 cs

/-- `str::split_whitespace`: the maximal non-whitespace runs, in order. -/
def split_whitespace_go (cur : List Char) (acc : List String) : List Char → List String
  | [] => if cur.isEmpty then acc else acc ++ [String.mk cur]
  | c :: rest =>
      if c.isWhitespace then
        if cur.isEmpty then split_whitespace_go [] acc rest
        else split_whitespace_go [] (acc ++ [String.mk cur]) rest
      else split_whitespace_go (cur ++ [c]) acc rest

/-- `str::split_whitespace` on a whole string. -/
def split_whitespace (s : String) : List String :=
  split_whitespace_go [] [] s.toList

namespace Board

/-- `Board::reset_board`. -/
def reset_board (_b : Board) : Board where
  white_pawns := 0
  white_knights := 0
  white_bishops := 0
  white_rooks := 0
  white_queens := 0
  white_king := 0
  black_pawns := 0
  black_knights := 0
  black_bishops := 0
  black_rooks := 0
  black_queens := 0
  black_king := 0
  side_to_move := WHITE
  castling_rights := 0b1111
  en_passant := none
  halfmove_clock := 0
  fullmove_number := 1

/-- The character loop of `Board::set_pieces`.  `none` models the panics
of a debug build: the `u32` underflow of `rank -= 1` on a surplus `/`,
the `1u64 << square` overflow on a square of 64 or more, and the
`panic!("Invalid FEN string")` arm. -/
def set_pieces_go (b : Board) (rank file : Nat) : List Char → Option Board
  | [] => some b
  | c :: rest =>
      if c = '/' then
        if rank = 0 then none
        else set_pieces_go b (rank - 1) 0 rest
      else
        match char_to_digit c with
        | some d => set_pieces_go b rank (file + d) rest
        | none =>
            let square := rank * 8 + file
            if 64 ≤ square then none
            else
              let bitboard : Nat := 1 <<< square
              let b1 : Option Board :=
                match c with
                | 'P' => some { b with white_pawns := b.white_pawns ||| bitboard }
                | 'N' => some { b with white_knights := b.white_knights ||| bitboard }
                | 'B' => some { b with white_bishops := b.white_bishops ||| bitboard }
                | 'R' => some { b with white_rooks := b.white_rooks ||| bitboard }
                | 'Q' => some { b with white_queens := b.white_queens ||| bitboard }
                | 'K' => some { b with white_king := b.white_king ||| bitboard }
                | 'p' => some { b with black_pawns := b.black_pawns ||| bitboard }
                | 'n' => some { b with black_knights := b.black_knights ||| bitboard }
                | 'b' => some { b with black_bishops := b.black_bishops ||| bitboard }
                | 'r' => some { b with black_rooks := b.black_rooks ||| bitboard }
                | 'q' => some { b with black_queens := b.black_queens ||| bitboard }
                | 'k' => some { b with black_king := b.black_king ||| bitboard }
                | _ => none
              match b1 with
              | some b2 => set_pieces_go b2 rank (file + 1) rest
              | none => none

/-- `Board::set_pieces`. -/
def set_pieces (b : Board) (pieces : String) : Option Board :=
  set_pieces_go b 7 0 pieces.toList

/-- The character loop of `Board::set_castling_rights`; `'-'` is the
`break` of the source and an unexpected character its panic. -/
def set_castling_rights_go (castling_rights : Nat) : List Char → Option Nat
  | [] => some castling_rights
  | c :: rest =>
      match c with
      | 'K' => set_castling_rights_go (castling_rights ||| 0b0001) rest
      | 'Q' => set_castling_rights_go (castling_rights ||| 0b0010) rest
      | 'k' => set_castling_rights_go (castling_rights ||| 0b0100) rest
      | 'q' => set_castling_rights_go (castling_rights ||| 0b1000) rest
      | '-' => some castling_rights
      | _ => none

/-- `Board::set_castling_rights` (the source zeroes the rights before the
loop). -/
def set_castling_rights (b : Board) (rights : String) : Option Board := do
  let r ← set_castling_rights_go 0 rights.toList
  pure { b with castling_rights := r }

/-- `Board::set_en_passant`.  `none` models the `unwrap()` panics on a
short field and the `i8` overflow panics of `rank * 8 + file` in a debug
build; the result is the `as u8` of that `i8` value. -/
def set_en_passant (b : Board) (square : String) : Option Board :=
  if square = "-" then some { b with en_passant := none }
  else do
    let c0 ← square.toList.get? 0
    let c1 ← square.toList.get? 1
    let file : Int := char_as_i8 c0 - char_as_i8 'a'
    let rank : Int := char_as_i8 c1 - char_as_i8 '1'
    if file < -128 ∨ 127 < file ∨ rank < -128 ∨ 127 < rank then none
    else
      let r8 : Int := rank * 8
      if r8 < -128 ∨ 127 < r8 then none
      else
        let v : Int := r8 + file
        if v < -128 ∨ 127 < v then none
        else some { b with en_passant := some ((v.emod 256).toNat) }

/-- `Board::set_pos` after `split_whitespace`: the length-6 check
(`panic!("Invalid FEN string")` otherwise), then reset and the six
fields in order.  `parse().unwrap_or(0)` and `parse().unwrap_or(1)`
silently replace unparseable halfmove/fullmove fields. -/
def set_pos_parts (b : Board) : List String → Option Board
  | [p0, p1, p2, p3, p4, p5] => do
      let b := b.reset_board
      let b ← b.set_pieces p0
      let b := { b with side_to_move := if p1 = "w" then WHITE else BLACK }
      let b ← b.set_castling_rights p2
      let b ← b.set_en_passant p3
      let b := { b with halfmove_clock := (parse_unsigned 255 p4).getD 0 }
      let b := { b with fullmove_number := (parse_unsigned 65535 p5).getD 1 }
      pure b
  | _ => none

/-- `Board::set_pos`. -/
def set_pos (b : Board) (fen : String) : Option Board :=
  b.set_pos_parts (split_whitespace fen)

end Board

/-! ## Specification-side definitions

Definitions in this section are written from the spec's words, for
comparison with the embedded code. -/

/-- Spec §4.8 `WhiteMaterial`: the per-square sum of the values of White's
pieces, "Piece values {P:1, N:3, B:3, R:5, Q:9, K:∞ (never actually
counted…)}". -/
def white_material_spec (b : Board) : Int :=
  ((List.range 64).map fun sq =>
    (if b.white_pawns.testBit sq then (1 : Int) else 0) +
    (if b.white_knights.testBit sq then (3 : Int) else 0) +
    (if b.white_bishops.testBit sq then (3 : Int) else 0) +
    (if b.white_rooks.testBit sq then (5 : Int) else 0) +
    (if b.white_queens.testBit sq then (9 : Int) else 0)).sum

/-- Spec §4.8 `BlackMaterial`, as `white_material_spec`. -/
def black_material_spec (b : Board) : Int :=
  ((List.range 64).map fun sq =>
    (if b.black_pawns.testBit sq then (1 : Int) else 0) +
    (if b.black_knights.testBit sq then (3 : Int) else 0) +
    (if b.black_bishops.testBit sq then (3 : Int) else 0) +
    (if b.black_rooks.testBit sq then (5 : Int) else 0) +
    (if b.black_queens.testBit sq then (9 : Int) else 0)).sum

/-! ## Concrete boards used by witnesses and counterexamples -/

/-- The spec §8 stalemate scenario "7k/5Q2/6K1/8/8/8/8/8 b - - 0 1":
Black to move, no legal moves, not in check. -/
def stalemate_board : Board where
  white_pawns := 0
  white_knights := 0
  white_bishops := 0
  white_rooks := 0
  white_queens := 1 <<< 53
  white_king := 1 <<< 46
  black_pawns := 0
  black_knights := 0
  black_bishops := 0
  black_rooks := 0
  black_queens := 0
  black_king := 1 <<< 63
  en_passant := none
  castling_rights := 0
  side_to_move := false
  halfmove_clock := 0
  fullmove_number := 1

/-- Two lone kings (White e1, Black e8), White to move. -/
def two_kings_board : Board where
  white_pawns := 0
  white_knights := 0
  white_bishops := 0
  white_rooks := 0
  white_queens := 0
  white_king := 1 <<< 4
  black_pawns := 0
  black_knights := 0
  black_bishops := 0
  black_rooks := 0
  black_queens := 0
  black_king := 1 <<< 60
  en_passant := none
  castling_rights := 0
  side_to_move := true
  halfmove_clock := 0
  fullmove_number := 1

/-- White queen d1 and king e1 against a lone Black king e8, with Black
to move: White is nine points of material up. -/
def queen_up_board : Board where
  white_pawns := 0
  white_knights := 0
  white_bishops := 0
  white_rooks := 0
  white_queens := 1 <<< 3
  white_king := 1 <<< 4
  black_pawns := 0
  black_knights := 0
  black_bishops := 0
  black_rooks := 0
  black_queens := 0
  black_king := 1 <<< 60
  en_passant := none
  castling_rights := 0
  side_to_move := false
  halfmove_clock := 0
  fullmove_number := 1

/-- Two lone kings far apart by square index: White king a6 (40), Black
king f3 (21).  The Black king is adjacent to square e3 (20). -/
def far_kings_board : Board where
  white_pawns := 0
  white_knights := 0
  white_bishops := 0
  white_rooks := 0
  white_queens := 0
  white_king := 1 <<< 40
  black_pawns := 0
  black_knights := 0
  black_bishops := 0
  black_rooks := 0
  black_queens := 0
  black_king := 1 <<< 21
  en_passant := none
  castling_rights := 0
  side_to_move := true
  halfmove_clock := 0
  fullmove_number := 1

/-- Two lone kings close by square index: White king e1 (4), Black king
f2 (13).  The Black king is adjacent to square f1 (5). -/
def near_kings_board : Board where
  white_pawns := 0
  white_knights := 0
  white_bishops := 0
  white_rooks := 0
  white_queens := 0
  white_king := 1 <<< 4
  black_pawns := 0
  black_knights := 0
  black_bishops := 0
  black_rooks := 0
  black_queens := 0
  black_king := 1 <<< 13
  en_passant := none
  castling_rights := 0
  side_to_move := true
  halfmove_clock := 0
  fullmove_number := 1

/-! ## Proof infrastructure definitions -/

/-- The bitboard of a `(side, piece)` pair (proof infrastructure). -/
def bbOf (b : Board) (side : Bool) : PieceType → Nat
  | PieceType.Pawn => if side then b.white_pawns else b.black_pawns
  | PieceType.Knight => if side then b.white_knights else b.black_knights
  | PieceType.Bishop => if side then b.white_bishops else b.black_bishops
  | PieceType.Rook => if side then b.white_rooks else b.black_rooks
  | PieceType.Queen => if side then b.white_queens else b.black_queens
  | PieceType.King => if side then b.white_king else b.black_king

/-- The castling-rights value computed by `update_castling_rights`, as a
function of the old rights, the move and the moving side (proof
infrastructure). -/
def urights (r : Nat) (mv : Move) (side : Bool) : Nat :=
  let r := if mv.piece_type = PieceType.King then
      (if side = WHITE then r &&& 0b1100 else r &&& 0b0011) else r
  let r := if mv.piece_type = PieceType.Rook then
      (if mv.fromSq = 0 ∧ side = WHITE then r &&& 0b1101
        else if mv.fromSq = 7 ∧ side = WHITE then r &&& 0b1110
        else if mv.fromSq = 56 ∧ side = BLACK then r &&& 0b0111
        else if mv.fromSq = 63 ∧ side = BLACK then r &&& 0b1011
        else r) else r
  if mv.toSq = 0 ∧ side = BLACK then r &&& 0b1101
  else if mv.toSq = 7 ∧ side = BLACK then r &&& 0b1110
  else if mv.toSq = 56 ∧ side = WHITE then r &&& 0b0111
  else if mv.toSq = 63 ∧ side = WHITE then r &&& 0b1011
  else r

/-- C9 (amended): whether a move clears castling-rights bit `k`
(0 = White king-side, 1 = White queen-side, 2 = Black king-side,
3 = Black queen-side).  Any King move clears both of the mover's bits;
executing a castling-shaped King move (`|to − from| = 2` onto one of 2,
6, 58, 62) clears both bits of the destination corner's colour; a Rook
move leaving its own side's corner clears that corner's bit; and a move
landing on a corner clears that corner's bit only when the mover is that
corner's enemy side. -/
def clears_right (mv : Move) (side : Bool) : Nat → Prop
  | 0 =>
      (mv.piece_type = PieceType.King ∧ side = WHITE) ∨
      (mv.piece_type = PieceType.King ∧ abs_diff mv.fromSq mv.toSq = 2 ∧
        (mv.toSq = 2 ∨ mv.toSq = 6)) ∨
      (mv.piece_type = PieceType.Rook ∧ mv.fromSq = 7 ∧ side = WHITE) ∨
      (mv.toSq = 7 ∧ side = BLACK)
  | 1 =>
      (mv.piece_type = PieceType.King ∧ side = WHITE) ∨
      (mv.piece_type = PieceType.King ∧ abs_diff mv.fromSq mv.toSq = 2 ∧
        (mv.toSq = 2 ∨ mv.toSq = 6)) ∨
      (mv.piece_type = PieceType.Rook ∧ mv.fromSq = 0 ∧ side = WHITE) ∨
      (mv.toSq = 0 ∧ side = BLACK)
  | 2 =>
      (mv.piece_type = PieceType.King ∧ side = BLACK) ∨
      (mv.piece_type = PieceType.King ∧ abs_diff mv.fromSq mv.toSq = 2 ∧
        (mv.toSq = 58 ∨ mv.toSq = 62)) ∨
      (mv.piece_type = PieceType.Rook ∧ mv.fromSq = 63 ∧ side = BLACK) ∨
      (mv.toSq = 63 ∧ side = WHITE)
  | 3 =>
      (mv.piece_type = PieceType.King ∧ side = BLACK) ∨
      (mv.piece_type = PieceType.King ∧ abs_diff mv.fromSq mv.toSq = 2 ∧
        (mv.toSq = 58 ∨ mv.toSq = 62)) ∨
      (mv.piece_type = PieceType.Rook ∧ mv.fromSq = 56 ∧ side = BLACK) ∨
      (mv.toSq = 56 ∧ side = WHITE)
  | _ => False

instance (mv : Move) (side : Bool) : (k : Nat) → Decidable (clears_right mv side k)
  | 0 => inferInstanceAs (Decidable (_ ∨ _))
  | 1 => inferInstanceAs (Decidable (_ ∨ _))
  | 2 => inferInstanceAs (Decidable (_ ∨ _))
  | 3 => inferInstanceAs (Decidable (_ ∨ _))
  | (_ + 4) => inferInstanceAs (Decidable False)

/-- The King clause of `clears_right` bit `k` (proof infrastructure). -/
def king_clears (mv : Move) (side : Bool) : Nat → Prop
  | 0 => mv.piece_type = PieceType.King ∧ side = WHITE
  | 1 => mv.piece_type = PieceType.King ∧ side = WHITE
  | 2 => mv.piece_type = PieceType.King ∧ side = BLACK
  | 3 => mv.piece_type = PieceType.King ∧ side = BLACK
  | _ => False

/-- The castling-execution clause of `clears_right` bit `k` (proof
infrastructure). -/
def castle_clears (mv : Move) : Nat → Prop
  | 0 => mv.piece_type = PieceType.King ∧ abs_diff mv.fromSq mv.toSq = 2 ∧
      (mv.toSq = 2 ∨ mv.toSq = 6)
  | 1 => mv.piece_type = PieceType.King ∧ abs_diff mv.fromSq mv.toSq = 2 ∧
      (mv.toSq = 2 ∨ mv.toSq = 6)
  | 2 => mv.piece_type = PieceType.King ∧ abs_diff mv.fromSq mv.toSq = 2 ∧
      (mv.toSq = 58 ∨ mv.toSq = 62)
  | 3 => mv.piece_type = PieceType.King ∧ abs_diff mv.fromSq mv.toSq = 2 ∧
      (mv.toSq = 58 ∨ mv.toSq = 62)
  | _ => False

/-- The Rook-from-corner clause of `clears_right` bit `k` (proof
infrastructure). -/
def rook_clears (mv : Move) (side : Bool) : Nat → Prop
  | 0 => mv.piece_type = PieceType.Rook ∧ mv.fromSq = 7 ∧ side = WHITE
  | 1 => mv.piece_type = PieceType.Rook ∧ mv.fromSq = 0 ∧ side = WHITE
  | 2 => mv.piece_type = PieceType.Rook ∧ mv.fromSq = 63 ∧ side = BLACK
  | 3 => mv.piece_type = PieceType.Rook ∧ mv.fromSq = 56 ∧ side = BLACK
  | _ => False

/-- The to-corner clause of `clears_right` bit `k` (proof
infrastructure). -/
def to_clears (mv : Move) (side : Bool) : Nat → Prop
  | 0 => mv.toSq = 7 ∧ side = BLACK
  | 1 => mv.toSq = 0 ∧ side = BLACK
  | 2 => mv.toSq = 63 ∧ side = WHITE
  | 3 => mv.toSq = 56 ∧ side = WHITE
  | _ => False

/-- The King stage of `update_castling_rights` (proof infrastructure). -/
def king_stage (r : Nat) (mv : Move) (side : Bool) : Nat :=
  if mv.piece_type = PieceType.King then
    (if side = WHITE then r &&& 0b1100 else r &&& 0b0011)
  else r

/-- The Rook stage of `update_castling_rights` (proof infrastructure). -/
def rook_stage (r : Nat) (mv : Move) (side : Bool) : Nat :=
  if mv.piece_type = PieceType.Rook then
    (if mv.fromSq = 0 ∧ side = WHITE then r &&& 0b1101
      else if mv.fromSq = 7 ∧ side = WHITE then r &&& 0b1110
      else if mv.fromSq = 56 ∧ side = BLACK then r &&& 0b0111
      else if mv.fromSq = 63 ∧ side = BLACK then r &&& 0b1011
      else r)
  else r

/-- The to-square stage of `update_castling_rights` (proof
infrastructure). -/
def to_stage (r : Nat) (mv : Move) (side : Bool) : Nat :=
  if mv.toSq = 0 ∧ side = BLACK then r &&& 0b1101
  else if mv.toSq = 7 ∧ side = BLACK then r &&& 0b1110
  else if mv.toSq = 56 ∧ side = WHITE then r &&& 0b0111
  else if mv.toSq = 63 ∧ side = WHITE then r &&& 0b1011
  else r

/-- The castling-rights mask that `handle_castling` applies during a
castling-shaped King move (proof infrastructure). -/
def castle_stage (r : Nat) (mv : Move) : Nat :=
  if mv.piece_type = PieceType.King ∧ abs_diff mv.fromSq mv.toSq = 2 then
    (if mv.toSq = 2 ∨ mv.toSq = 6 then r &&& 0b1100 else r &&& 0b0011)
  else r

/-- The board state of `make_move` after the halfmove clock, the capture
clearing, the origin clearing and the destination setting (proof
infrastructure). -/
def make_mid (b : Board) (mv : Move) : Board :=
  let is_pawn_advance := mv.piece_type = PieceType.Pawn
  let is_capture := b.is_occupied_by_opponent mv.toSq b.side_to_move
  let b1 := { b with
    halfmove_clock := if is_pawn_advance ∨ is_capture then 0 else b.halfmove_clock + 1 }
  let b2 := if is_capture then b1.clear_square mv.toSq else b1
  let b3 := b2.clear_square mv.fromSq
  b3.set_square mv.toSq mv.piece_type

/-- The board state of `make_move` after the castling-rights update, the
pawn handling and the en-passant update (proof infrastructure). -/
def make_after_pawn (b4 : Board) (mv : Move) : Board :=
  let be := b4.update_castling_rights mv
  let pr := be.handle_pawn_move mv
  { pr.1 with en_passant := match pr.2 with | some ep => ep | none => none }

/-- The final side-to-move toggle and fullmove increment of `make_move`
(proof infrastructure). -/
def make_finish (b5 : Board) : Board :=
  let bg := { b5 with side_to_move := !b5.side_to_move }
  if bg.side_to_move = WHITE then { bg with fullmove_number := bg.fullmove_number + 1 } else bg

/-- The undo record built by `make_move` (proof infrastructure). -/
def make_undo (b : Board) (cap : Option PieceType) : UndoState where
  captured_piece := cap
  en_passant := b.en_passant
  castling_rights := b.castling_rights
  halfmove_clock := b.halfmove_clock
  fullmove_number := b.fullmove_number

/-- The state of `unmake_move` before the castling rook reversal (proof
infrastructure). -/
def unmake_pre (b : Board) (mv : Move) (u : UndoState) : Board :=
  let b1 := b.clear_square mv.toSq
  let b2 :=
    if some mv.toSq = u.en_passant then
      b1.set_square (if b1.side_to_move = WHITE then mv.toSq + 8 else mv.toSq - 8)
        PieceType.Pawn
    else
      match u.captured_piece with
      | some c => b1.set_square mv.toSq c
      | none => b1
  let b3 := { b2 with side_to_move := !b2.side_to_move }
  let b4 := { b3 with
    en_passant := u.en_passant
    castling_rights := u.castling_rights
    halfmove_clock := u.halfmove_clock
    fullmove_number := u.fullmove_number }
  b4.set_square mv.fromSq mv.piece_type

/-- A lone White knight on b3 (17) with only White's queen-side castling
right set, used to exercise the castling-rights update. -/
def knight_corner_board : Board where
  white_pawns := 0
  white_knights := 1 <<< 17
  white_bishops := 0
  white_rooks := 0
  white_queens := 0
  white_king := 0
  black_pawns := 0
  black_knights := 0
  black_bishops := 0
  black_rooks := 0
  black_queens := 0
  black_king := 0
  en_passant := none
  castling_rights := 0b0010
  side_to_move := true
  halfmove_clock := 0
  fullmove_number := 1

/-- C10: no White pawn on rank 8 (squares 56–63) and no Black pawn on
rank 1 (squares 0–7). -/
def no_back_rank_pawns (b : Board) : Prop :=
  (∀ sq, sq < 64 → 56 ≤ sq → b.white_pawns &&& (1 <<< sq) = 0) ∧
  (∀ sq, sq < 8 → b.black_pawns &&& (1 <<< sq) = 0)

instance (b : Board) : Decidable (no_back_rank_pawns b) :=
  inferInstanceAs (Decidable (_ ∧ _))

/-- The board that `set_pos` builds from `"P7/8/8/8/8/8/8/K6k w - - 0 1"`:
a White pawn on a8 (square 56), violating the C10 precondition. -/
def back_rank_pawn_board : Board where
  white_pawns := 1 <<< 56
  white_knights := 0
  white_bishops := 0
  white_rooks := 0
  white_queens := 0
  white_king := 1
  black_pawns := 0
  black_knights := 0
  black_bishops := 0
  black_rooks := 0
  black_queens := 0
  black_king := 1 <<< 7
  en_passant := none
  castling_rights := 0
  side_to_move := true
  halfmove_clock := 0
  fullmove_number := 1

/-- The board that `set_pos` builds from
`"8/8/8/8/8/8/8/K6k x - - xx yy"`: kings on a1 and h1, every malformed
field silently defaulted. -/
def junk_fen_board : Board where
  white_pawns := 0
  white_knights := 0
  white_bishops := 0
  white_rooks := 0
  white_queens := 0
  white_king := 1
  black_pawns := 0
  black_knights := 0
  black_bishops := 0
  black_rooks := 0
  black_queens := 0
  black_king := 1 <<< 7
  en_passant := none
  castling_rights := 0
  side_to_move := false
  halfmove_clock := 0
  fullmove_number := 1

/-- C10: the push targets that `generate_pawn_moves` hands to
`is_occupied` for a pawn on `fromSq`: the square one step in front and,
from the start rank, the square two steps in front, exactly as the
source computes them (`(from as i8 + direction) as u8`, with no on-board
check before the occupancy test). -/
def pawn_push_squares (b : Board) (fromSq : Nat) : List Nat :=
  Board.off_square fromSq (if b.side_to_move = WHITE then 8 else -8) ::
    (if get_rank fromSq = (if b.side_to_move = WHITE then 1 else 6) then
      [Board.off_square fromSq (2 * (if b.side_to_move = WHITE then 8 else -8))]
    else [])

/-- The corner square whose rook `handle_castling` moves for each castling
destination (proof infrastructure). -/
def corner_of (toSq : Nat) : Nat :=
  if toSq = 2 then 0 else if toSq = 6 then 7 else if toSq = 58 then 56 else 63

/-- The square `handle_castling` moves the rook to for each castling
destination (proof infrastructure). -/
def rook_dest_of (toSq : Nat) : Nat :=
  if toSq = 2 then 3 else if toSq = 6 then 5 else if toSq = 58 then 59 else 61

/-- The square of the pawn captured en passant: one step behind the
en-passant target from the mover's point of view. -/
def ep_behind (side : Bool) (e : Nat) : Nat := if side = WHITE then e - 8 else e + 8

/-- The condition under which `handle_pawn_move` clears the
en-passant-captured pawn's square (proof infrastructure). -/
def ep_clear_cond (b : Board) (mv : Move) : Prop :=
  mv.piece_type = PieceType.Pawn ∧
  ¬(b.side_to_move = WHITE ∧ get_rank mv.fromSq = 1 ∧ get_rank mv.toSq = 3) ∧
  ¬(b.side_to_move = BLACK ∧ get_rank mv.fromSq = 6 ∧ get_rank mv.toSq = 4) ∧
  b.en_passant = some mv.toSq

/-- Decidability of a universal over `PieceType` (proof infrastructure). -/
instance (p : PieceType → Prop) [DecidablePred p] : Decidable (∀ x, p x) :=
  decidable_of_iff
    (p PieceType.Pawn ∧ p PieceType.Knight ∧ p PieceType.Bishop ∧ p PieceType.Rook ∧
      p PieceType.Queen ∧ p PieceType.King)
    (by
      constructor
      · rintro ⟨h1, h2, h3, h4, h5, h6⟩ x
        cases x <;> assumption
      · intro h
        exact ⟨h _, h _, h _, h _, h _, h _⟩)

/-- Decidability of a universal over the content of an `Option PieceType`
(proof infrastructure). -/
instance (o : Option PieceType) (p : PieceType → Prop) [DecidablePred p] :
    Decidable (∀ x, o = some x → p x) :=
  match o with
  | none => isTrue (by simp)
  | some m => decidable_of_iff (p m) (by simp)

/-- C1: no piece of any side stands on `sq`. -/
def empty_at (b : Board) (sq : Nat) : Prop :=
  ∀ s p, (bbOf b s p).testBit sq = false

/-- C1: exactly the piece `(side, pt)` stands on `sq`: its own bitboard
has the bit and all eleven others are clear there. -/
def only_piece_at (b : Board) (sq : Nat) (side : Bool) (pt : PieceType) : Prop :=
  (bbOf b side pt).testBit sq = true ∧
  ∀ s p, ¬(s = side ∧ p = pt) → (bbOf b s p).testBit sq = false

/-- C1: every bitboard stays in the `u64` range. -/
def boards_bounded (b : Board) : Prop :=
  ∀ s p, bbOf b s p < 2 ^ 64

/-- C1: the local soundness conditions on a board and a move under which
the `make_move`/`unmake_move` round trip restores the board exactly.
Every move produced by `generate_legal_moves` on a reachable chess
position satisfies them; the phantom-castle counterexample board violates
the castle clause. -/
def MoveOk (b : Board) (mv : Move) : Prop :=
  mv.fromSq < 64 ∧ mv.toSq < 64 ∧ mv.fromSq ≠ mv.toSq ∧
  boards_bounded b ∧
  only_piece_at b mv.fromSq b.side_to_move mv.piece_type ∧
  (empty_at b mv.toSq ∨
    only_piece_at b mv.toSq (!b.side_to_move) PieceType.Pawn ∨
    only_piece_at b mv.toSq (!b.side_to_move) PieceType.Knight ∨
    only_piece_at b mv.toSq (!b.side_to_move) PieceType.Bishop ∨
    only_piece_at b mv.toSq (!b.side_to_move) PieceType.Rook ∨
    only_piece_at b mv.toSq (!b.side_to_move) PieceType.Queen ∨
    only_piece_at b mv.toSq (!b.side_to_move) PieceType.King) ∧
  (∀ p, mv.promotion = some p → mv.piece_type = PieceType.Pawn ∧
    (p = PieceType.Queen ∨ p = PieceType.Knight ∨ p = PieceType.Rook ∨
      p = PieceType.Bishop)) ∧
  (mv.promotion = none ∨ b.en_passant ≠ some mv.toSq) ∧
  (b.en_passant = some mv.toSq →
    empty_at b mv.toSq ∧
    (b.side_to_move = WHITE → 40 ≤ mv.toSq ∧ mv.toSq < 48) ∧
    (b.side_to_move = BLACK → 16 ≤ mv.toSq ∧ mv.toSq < 24) ∧
    only_piece_at b (ep_behind b.side_to_move mv.toSq) (!b.side_to_move) PieceType.Pawn ∧
    ep_behind b.side_to_move mv.toSq ≠ mv.fromSq) ∧
  (mv.piece_type = PieceType.King ∧ abs_diff mv.fromSq mv.toSq = 2 →
    empty_at b mv.toSq ∧
    ((b.side_to_move = WHITE ∧ mv.toSq = 6 ∧ empty_at b 5 ∧
        only_piece_at b 7 WHITE PieceType.Rook ∧ mv.fromSq ≠ 7 ∧ mv.fromSq ≠ 5) ∨
      (b.side_to_move = WHITE ∧ mv.toSq = 2 ∧ empty_at b 3 ∧
        only_piece_at b 0 WHITE PieceType.Rook ∧ mv.fromSq ≠ 0 ∧ mv.fromSq ≠ 3) ∨
      (b.side_to_move = BLACK ∧ mv.toSq = 62 ∧ empty_at b 61 ∧
        only_piece_at b 63 BLACK PieceType.Rook ∧ mv.fromSq ≠ 63 ∧ mv.fromSq ≠ 61) ∨
      (b.side_to_move = BLACK ∧ mv.toSq = 58 ∧ empty_at b 59 ∧
        only_piece_at b 56 BLACK PieceType.Rook ∧ mv.fromSq ≠ 56 ∧ mv.fromSq ≠ 59)))

instance (b : Board) (sq : Nat) : Decidable (empty_at b sq) :=
  inferInstanceAs (Decidable (∀ s p, (bbOf b s p).testBit sq = false))

instance (b : Board) (sq : Nat) (side : Bool) (pt : PieceType) :
    Decidable (only_piece_at b sq side pt) :=
  inferInstanceAs (Decidable (_ ∧ ∀ s p, ¬(s = side ∧ p = pt) → (bbOf b s p).testBit sq = false))

instance (b : Board) : Decidable (boards_bounded b) :=
  inferInstanceAs (Decidable (∀ s p, bbOf b s p < 2 ^ 64))

/-- Decidability of `ep_clear_cond` (proof infrastructure). -/
instance (b : Board) (mv : Move) : Decidable (ep_clear_cond b mv) :=
  inferInstanceAs (Decidable (_ ∧ _ ∧ _ ∧ _))

set_option synthInstance.maxSize 2048 in
set_option synthInstance.maxHeartbeats 1000000 in
instance (b : Board) (mv : Move) : Decidable (MoveOk b mv) := by
  unfold MoveOk
  infer_instance

/-- A board whose castling-rights word claims White may castle king-side
although there is no rook on h1 (and a spurious second White king stands
on h2): the phantom-castle counterexample for claim C1. -/
def phantom_castle_board : Board where
  white_pawns := 0
  white_knights := 0
  white_bishops := 0
  white_rooks := 0
  white_queens := 0
  white_king := (1 <<< 4) ||| (1 <<< 15)
  black_pawns := 0
  black_knights := 0
  black_bishops := 0
  black_rooks := 0
  black_queens := 0
  black_king := 1 <<< 58
  en_passant := none
  castling_rights := 0b0001
  side_to_move := true
  halfmove_clock := 0
  fullmove_number := 1

/-! ## Shared lemmas -/

/-- `trailing_zeros64` of a one-bit bitboard recovers the bit index. -/
theorem trailing_zeros64_two_pow : ∀ k, k < 64 → trailing_zeros64 (1 <<< k) = k := by
  decide

/-! ### Bit kit for the round-trip proof -/

theorem testBit_one_shiftLeft (sq k : Nat) :
    ((1 : Nat) <<< sq).testBit k = decide (k = sq) := by
  rw [Nat.shiftLeft_eq, one_mul]
  by_cases h : sq = k
  · subst h
    simp [Nat.testBit_two_pow_self]
  · rw [Nat.testBit_two_pow_of_ne h]
    simp [Ne.symm h]

theorem testBit_mask64 (k : Nat) : Board.mask64.testBit k = decide (k < 64) := by
  rw [Board.mask64]
  exact Nat.testBit_two_pow_sub_one 64 k

theorem testBit_cmask (sq k : Nat) (hsq : sq < 64) :
    (((1 : Nat) <<< sq) ^^^ Board.mask64).testBit k =
      (decide (k < 64) && !decide (k = sq)) := by
  rw [Nat.testBit_xor, testBit_one_shiftLeft, testBit_mask64]
  by_cases h1 : k = sq <;> by_cases h2 : k < 64 <;> simp_all <;> omega

theorem testBit_high (x k : Nat) (hx : x < 2 ^ 64) (hk : 64 ≤ k) :
    x.testBit k = false :=
  Nat.testBit_lt_two_pow (lt_of_lt_of_le hx (Nat.pow_le_pow_right (by omega) hk))

theorem and_shift_ne_zero_iff (x sq : Nat) :
    (x &&& 1 <<< sq ≠ 0) ↔ x.testBit sq = true := by
  rw [Nat.shiftLeft_eq, one_mul, Nat.and_two_pow]
  rcases hb : x.testBit sq <;> simp

theorem and_shift_eq_zero_iff (x sq : Nat) :
    (x &&& 1 <<< sq = 0) ↔ x.testBit sq = false := by
  rw [Nat.shiftLeft_eq, one_mul, Nat.and_two_pow]
  rcases hb : x.testBit sq <;> simp

theorem testBit_and_cmask (x sq k : Nat) (hsq : sq < 64) :
    (x &&& (((1 : Nat) <<< sq) ^^^ Board.mask64)).testBit k =
      (x.testBit k && (decide (k < 64) && !decide (k = sq))) := by
  rw [Nat.testBit_and, testBit_cmask _ _ hsq]

theorem testBit_or_shift (x sq k : Nat) :
    (x ||| (1 : Nat) <<< sq).testBit k = (x.testBit k || decide (k = sq)) := by
  rw [Nat.testBit_or, testBit_one_shiftLeft]

theorem clear_noop (x a : Nat) (hx : x < 2 ^ 64) (h : x.testBit a = false) :
    x &&& (((1 : Nat) <<< a) ^^^ Board.mask64) = x := by
  by_cases ha : a < 64
  · apply Nat.eq_of_testBit_eq
    intro k
    rw [testBit_and_cmask _ _ _ ha]
    by_cases h1 : k = a
    · subst h1
      simp [h]
    · by_cases h2 : k < 64
      · simp [h1, h2]
      · simp [testBit_high x k hx (by omega)]
  · apply Nat.eq_of_testBit_eq
    intro k
    rw [Nat.testBit_and, Nat.testBit_xor, testBit_one_shiftLeft, testBit_mask64]
    by_cases h2 : k < 64
    · simp [show ¬ (k = a) by omega, h2]
    · simp [testBit_high x k hx (by omega)]

theorem set_noop (x a : Nat) (h : x.testBit a = true) : x ||| (1 : Nat) <<< a = x := by
  apply Nat.eq_of_testBit_eq
  intro k
  rw [testBit_or_shift]
  by_cases h1 : k = a
  · subst h1
    simp [h]
  · simp [h1]

theorem clear_set (x a : Nat) (hx : x < 2 ^ 64) (ha : a < 64) (h : x.testBit a = true) :
    (x &&& (((1 : Nat) <<< a) ^^^ Board.mask64)) ||| (1 : Nat) <<< a = x := by
  apply Nat.eq_of_testBit_eq
  intro k
  rw [testBit_or_shift, testBit_and_cmask _ _ _ ha]
  by_cases h1 : k = a
  · subst h1
    simp [h]
  · by_cases h2 : k < 64
    · simp [h1, h2]
    · simp [h1, testBit_high x k hx (by omega)]

theorem set_clear (x a : Nat) (hx : x < 2 ^ 64) (ha : a < 64) (h : x.testBit a = false) :
    (x ||| (1 : Nat) <<< a) &&& (((1 : Nat) <<< a) ^^^ Board.mask64) = x := by
  apply Nat.eq_of_testBit_eq
  intro k
  rw [testBit_and_cmask _ _ _ ha, testBit_or_shift]
  by_cases h1 : k = a
  · subst h1
    simp [h]
  · by_cases h2 : k < 64
    · simp [h1, h2]
    · simp [h1, testBit_high x k hx (by omega)]

theorem and_cmask_lt (x a : Nat) (hx : x < 2 ^ 64) :
    x &&& (((1 : Nat) <<< a) ^^^ Board.mask64) < 2 ^ 64 :=
  lt_of_le_of_lt Nat.and_le_left hx

theorem or_shift_lt (x a : Nat) (hx : x < 2 ^ 64) (ha : a < 64) :
    x ||| (1 : Nat) <<< a < 2 ^ 64 := by
  refine Nat.or_lt_two_pow hx ?_
  rw [Nat.shiftLeft_eq, one_mul]
  exact Nat.pow_lt_pow_right (by omega) ha

/-- `set_castling_rights` never touches the side to move. -/
theorem set_castling_rights_side (b b' : Board) (s : String)
    (h : b.set_castling_rights s = some b') :
    b'.side_to_move = b.side_to_move := by
  unfold Board.set_castling_rights at h
  simp only [bind, pure, Option.bind_eq_some] at h
  obtain ⟨r, hr, h2⟩ := h
  cases Option.some.inj h2
  rfl

/-- `set_en_passant` never touches the side to move. -/
theorem set_en_passant_side (b b' : Board) (s : String)
    (h : b.set_en_passant s = some b') :
    b'.side_to_move = b.side_to_move := by
  unfold Board.set_en_passant at h
  split at h
  · cases Option.some.inj h
    rfl
  · simp only [bind, pure, Option.bind_eq_some] at h
    obtain ⟨c0, hc0, c1, hc1, h2⟩ := h
    repeat' split at h2
    all_goals first
      | (cases Option.some.inj h2; rfl)
      | cases h2

/-- `off_square` is plain addition while the `i8` cursor stays in
`[0, 256)`. -/
theorem off_square_eval (sq : Nat) (o : Int) (h0 : 0 ≤ (sq : Int) + o)
    (h1 : (sq : Int) + o < 256) :
    ((Board.off_square sq o : Nat) : Int) = (sq : Int) + o := by
  unfold Board.off_square
  have hm : ((sq : Int) + o).emod 256 = (sq : Int) + o := Int.emod_eq_of_lt h0 h1
  rw [hm, Int.toNat_of_nonneg h0]

/-! ### Frame lemmas for the board-mutating primitives -/

@[simp] theorem clear_square_en_passant (b : Board) (sq : Nat) :
    (b.clear_square sq).en_passant = b.en_passant := rfl

@[simp] theorem clear_square_castling_rights (b : Board) (sq : Nat) :
    (b.clear_square sq).castling_rights = b.castling_rights := rfl

@[simp] theorem clear_square_side_to_move (b : Board) (sq : Nat) :
    (b.clear_square sq).side_to_move = b.side_to_move := rfl

@[simp] theorem clear_square_halfmove_clock (b : Board) (sq : Nat) :
    (b.clear_square sq).halfmove_clock = b.halfmove_clock := rfl

@[simp] theorem clear_square_fullmove_number (b : Board) (sq : Nat) :
    (b.clear_square sq).fullmove_number = b.fullmove_number := rfl

theorem bbOf_clear_square (b : Board) (sq : Nat) (s : Bool) (p : PieceType) :
    bbOf (b.clear_square sq) s p = bbOf b s p &&& ((1 <<< sq) ^^^ Board.mask64) := by
  cases p <;> cases s <;> rfl

@[simp] theorem set_square_en_passant (b : Board) (sq : Nat) (pt : PieceType) :
    (b.set_square sq pt).en_passant = b.en_passant := by
  cases pt <;> simp only [Board.set_square] <;> split <;> rfl

@[simp] theorem set_square_castling_rights (b : Board) (sq : Nat) (pt : PieceType) :
    (b.set_square sq pt).castling_rights = b.castling_rights := by
  cases pt <;> simp only [Board.set_square] <;> split <;> rfl

@[simp] theorem set_square_side_to_move (b : Board) (sq : Nat) (pt : PieceType) :
    (b.set_square sq pt).side_to_move = b.side_to_move := by
  cases pt <;> simp only [Board.set_square] <;> split <;> rfl

@[simp] theorem set_square_halfmove_clock (b : Board) (sq : Nat) (pt : PieceType) :
    (b.set_square sq pt).halfmove_clock = b.halfmove_clock := by
  cases pt <;> simp only [Board.set_square] <;> split <;> rfl

@[simp] theorem set_square_fullmove_number (b : Board) (sq : Nat) (pt : PieceType) :
    (b.set_square sq pt).fullmove_number = b.fullmove_number := by
  cases pt <;> simp only [Board.set_square] <;> split <;> rfl

theorem bbOf_set_square (b : Board) (sq : Nat) (pt : PieceType) (s : Bool) (p : PieceType) :
    bbOf (b.set_square sq pt) s p =
      if s = b.side_to_move ∧ p = pt then bbOf b s p ||| (1 <<< sq) else bbOf b s p := by
  cases hside : b.side_to_move <;> cases pt <;> cases p <;> cases s <;>
    simp_all [Board.set_square, bbOf, WHITE]

/-- `promote_pawn` is `clear_square` followed by `set_square` for the
four valid promotion pieces, and the panic otherwise. -/
theorem promote_pawn_eq (b : Board) (sq : Nat) (pr : PieceType) :
    b.promote_pawn sq pr =
      if pr = PieceType.Queen ∨ pr = PieceType.Knight ∨ pr = PieceType.Rook ∨
          pr = PieceType.Bishop then
        some ((b.clear_square sq).set_square sq pr)
      else none := by
  cases pr <;> rfl

theorem update_castling_rights_rights (b : Board) (mv : Move) :
    (b.update_castling_rights mv).castling_rights =
      urights b.castling_rights mv b.side_to_move := by
  unfold Board.update_castling_rights urights
  simp only [apply_ite Board.castling_rights, apply_ite Board.side_to_move, ite_self]

theorem update_castling_rights_bbOf (b : Board) (mv : Move) (s : Bool) (p : PieceType) :
    bbOf (b.update_castling_rights mv) s p = bbOf b s p := by
  cases p <;> cases s <;>
    (unfold Board.update_castling_rights
     simp only [bbOf, if_true, if_false, Bool.ite_eq_true_distrib,
       apply_ite Board.white_pawns, apply_ite Board.white_knights,
       apply_ite Board.white_bishops, apply_ite Board.white_rooks,
       apply_ite Board.white_queens, apply_ite Board.white_king,
       apply_ite Board.black_pawns, apply_ite Board.black_knights,
       apply_ite Board.black_bishops, apply_ite Board.black_rooks,
       apply_ite Board.black_queens, apply_ite Board.black_king,
       apply_ite Board.side_to_move, ite_self])

theorem update_castling_rights_en_passant (b : Board) (mv : Move) :
    (b.update_castling_rights mv).en_passant = b.en_passant := by
  unfold Board.update_castling_rights
  simp only [apply_ite Board.en_passant, apply_ite Board.side_to_move, ite_self]

theorem update_castling_rights_side_to_move (b : Board) (mv : Move) :
    (b.update_castling_rights mv).side_to_move = b.side_to_move := by
  unfold Board.update_castling_rights
  simp only [apply_ite Board.side_to_move, ite_self]

theorem update_castling_rights_halfmove_clock (b : Board) (mv : Move) :
    (b.update_castling_rights mv).halfmove_clock = b.halfmove_clock := by
  unfold Board.update_castling_rights
  simp only [apply_ite Board.halfmove_clock, apply_ite Board.side_to_move, ite_self]

theorem update_castling_rights_fullmove_number (b : Board) (mv : Move) :
    (b.update_castling_rights mv).fullmove_number = b.fullmove_number := by
  unfold Board.update_castling_rights
  simp only [apply_ite Board.fullmove_number, apply_ite Board.side_to_move, ite_self]

theorem handle_castling_some_eq (b b' : Board) (t : Nat)
    (h : b.handle_castling t = some b') :
    (t = 2 ∧ b' = (({ b with castling_rights := b.castling_rights &&& 0b1100 }).clear_square
        0).set_square 3 PieceType.Rook) ∨
    (t = 6 ∧ b' = (({ b with castling_rights := b.castling_rights &&& 0b1100 }).clear_square
        7).set_square 5 PieceType.Rook) ∨
    (t = 58 ∧ b' = (({ b with castling_rights := b.castling_rights &&& 0b0011 }).clear_square
        56).set_square 59 PieceType.Rook) ∨
    (t = 62 ∧ b' = (({ b with castling_rights := b.castling_rights &&& 0b0011 }).clear_square
        63).set_square 61 PieceType.Rook) := by
  unfold Board.handle_castling at h
  split at h <;> simp_all

/-- The board component of `handle_pawn_move` either is the input board
or has the en-passant-captured pawn's square cleared; every other field
is untouched and the castling rights never change. -/
theorem handle_pawn_move_fst (b : Board) (mv : Move) :
    (b.handle_pawn_move mv).1 = b ∨
      (b.handle_pawn_move mv).1 =
        b.clear_square (if b.side_to_move = WHITE then mv.toSq - 8 else mv.toSq + 8) := by
  unfold Board.handle_pawn_move
  by_cases h1 : mv.piece_type ≠ PieceType.Pawn
  · simp [h1]
  · by_cases h2 : b.side_to_move = WHITE ∧ get_rank mv.fromSq = 1 ∧ get_rank mv.toSq = 3
    · simp [h1, h2]
    · by_cases h3 : b.side_to_move = BLACK ∧ get_rank mv.fromSq = 6 ∧ get_rank mv.toSq = 4
      · simp [h1, h2, h3]
      · by_cases h4 : b.en_passant = some mv.toSq
        · simp [h1, h2, h3, h4]
        · simp [h1, h2, h3, h4]

theorem handle_pawn_move_castling_rights (b : Board) (mv : Move) :
    (b.handle_pawn_move mv).1.castling_rights = b.castling_rights := by
  rcases handle_pawn_move_fst b mv with h | h <;> rw [h] <;> simp

theorem handle_pawn_move_side_to_move (b : Board) (mv : Move) :
    (b.handle_pawn_move mv).1.side_to_move = b.side_to_move := by
  rcases handle_pawn_move_fst b mv with h | h <;> rw [h] <;> simp

/-! ### Staged forms of `make_move` and `unmake_move` -/

/-- `make_move` as three explicitly sequenced `Option.bind` stages: the
captured-piece computation, the mid-board with the optional castling
execution, and the optional promotion; this form drives every later
analysis of `make_move`. -/
theorem make_move_stages (b : Board) (mv : Move) :
    b.make_move mv =
      Option.bind
        (if b.is_occupied_by_opponent mv.toSq b.side_to_move then
          Option.bind (b.get_piece_type mv.toSq) (fun pt => some (some pt))
        else if mv.piece_type = PieceType.Pawn ∧ b.en_passant = some mv.toSq then
          some (some PieceType.Pawn)
        else some none)
        (fun cap =>
          Option.bind
            (if mv.piece_type = PieceType.King ∧ abs_diff mv.fromSq mv.toSq = 2 then
              (make_mid b mv).handle_castling mv.toSq
            else some (make_mid b mv))
            (fun b4 =>
              Option.bind
                (match mv.promotion with
                  | some p => (make_after_pawn b4 mv).promote_pawn mv.toSq p
                  | none => some (make_after_pawn b4 mv))
                (fun b5 => some (make_finish b5, make_undo b cap)))) := by
  cases hcap : b.is_occupied_by_opponent mv.toSq b.side_to_move <;>
  by_cases hep : mv.piece_type = PieceType.Pawn ∧ b.en_passant = some mv.toSq <;>
  by_cases hcast : mv.piece_type = PieceType.King ∧ abs_diff mv.fromSq mv.toSq = 2 <;>
  rcases hpr : mv.promotion with _ | p <;>
  first
    | exact absurd (hep.1.symm.trans hcast.1) (by decide)
    | simp [Board.make_move, make_mid, make_after_pawn, make_finish, make_undo,
        hcap, hep, hcast, hpr, Option.bind_assoc]

/-- `unmake_move` as the pre-board followed by the optional castling rook
reversal. -/
theorem unmake_move_stages (b : Board) (mv : Move) (u : UndoState) :
    b.unmake_move mv u =
      (if mv.piece_type = PieceType.King ∧ abs_diff mv.fromSq mv.toSq = 2 then
        Option.bind
          (if mv.toSq = 2 ∨ mv.toSq = 58 then some ((0 : Nat), (3 : Nat))
            else if mv.toSq = 6 ∨ mv.toSq = 62 then some ((7 : Nat), (5 : Nat))
            else none)
          (fun rp =>
            let rook_from := if (unmake_pre b mv u).side_to_move = WHITE then rp.1 else rp.1 + 56
            let rook_to := if (unmake_pre b mv u).side_to_move = WHITE then rp.2 else rp.2 + 56
            some (((unmake_pre b mv u).clear_square rook_to).set_square rook_from
              PieceType.Rook))
      else some (unmake_pre b mv u)) := by
  by_cases hcast : mv.piece_type = PieceType.King ∧ abs_diff mv.fromSq mv.toSq = 2 <;>
  by_cases hept : some mv.toSq = u.en_passant <;>
  rcases hcapu : u.captured_piece with _ | c <;>
  by_cases ht2 : mv.toSq = 2 ∨ mv.toSq = 58 <;>
  by_cases ht6 : mv.toSq = 6 ∨ mv.toSq = 62 <;>
  simp [Board.unmake_move, unmake_pre, hcast, hept, hcapu, ht2, ht6, Option.bind_assoc]

/-! ### Record-update frames for `bbOf` -/

theorem bbOf_with_side (b : Board) (x : Bool) (s : Bool) (p : PieceType) :
    bbOf { b with side_to_move := x } s p = bbOf b s p := by
  cases s <;> cases p <;> rfl

theorem bbOf_with_ep (b : Board) (x : Option Nat) (s : Bool) (p : PieceType) :
    bbOf { b with en_passant := x } s p = bbOf b s p := by
  cases s <;> cases p <;> rfl

theorem bbOf_with_halfmove (b : Board) (x : Nat) (s : Bool) (p : PieceType) :
    bbOf { b with halfmove_clock := x } s p = bbOf b s p := by
  cases s <;> cases p <;> rfl

theorem bbOf_with_fullmove (b : Board) (x : Nat) (s : Bool) (p : PieceType) :
    bbOf { b with fullmove_number := x } s p = bbOf b s p := by
  cases s <;> cases p <;> rfl

theorem bbOf_with_rights (b : Board) (x : Nat) (s : Bool) (p : PieceType) :
    bbOf { b with castling_rights := x } s p = bbOf b s p := by
  cases s <;> cases p <;> rfl

theorem bbOf_with_scalars (b : Board) (e : Option Nat) (r hm fm : Nat) (s : Bool)
    (p : PieceType) :
    bbOf { b with
      en_passant := e
      castling_rights := r
      halfmove_clock := hm
      fullmove_number := fm } s p = bbOf b s p := by
  cases s <;> cases p <;> rfl

theorem bbOf_rebuild (X : Board) (e : Option Nat) (r : Nat) (sd : Bool) (hm fm : Nat)
    (s : Bool) (p : PieceType) :
    bbOf { white_pawns := X.white_pawns
           white_knights := X.white_knights
           white_bishops := X.white_bishops
           white_rooks := X.white_rooks
           white_queens := X.white_queens
           white_king := X.white_king
           black_pawns := X.black_pawns
           black_knights := X.black_knights
           black_bishops := X.black_bishops
           black_rooks := X.black_rooks
           black_queens := X.black_queens
           black_king := X.black_king
           en_passant := e
           castling_rights := r
           side_to_move := sd
           halfmove_clock := hm
           fullmove_number := fm } s p = bbOf X s p := by
  cases s <;> cases p <;> rfl

/-! ### The board built by `unmake_move` before the castling reversal -/

theorem unmake_pre_side (b : Board) (mv : Move) (u : UndoState) :
    (unmake_pre b mv u).side_to_move = !b.side_to_move := by
  unfold unmake_pre
  split <;> rcases u.captured_piece <;> simp

theorem unmake_pre_en_passant (b : Board) (mv : Move) (u : UndoState) :
    (unmake_pre b mv u).en_passant = u.en_passant := by
  unfold unmake_pre
  split <;> rcases u.captured_piece <;> simp

theorem unmake_pre_castling_rights (b : Board) (mv : Move) (u : UndoState) :
    (unmake_pre b mv u).castling_rights = u.castling_rights := by
  unfold unmake_pre
  split <;> rcases u.captured_piece <;> simp

theorem unmake_pre_halfmove (b : Board) (mv : Move) (u : UndoState) :
    (unmake_pre b mv u).halfmove_clock = u.halfmove_clock := by
  unfold unmake_pre
  split <;> rcases u.captured_piece <;> simp

theorem unmake_pre_fullmove (b : Board) (mv : Move) (u : UndoState) :
    (unmake_pre b mv u).fullmove_number = u.fullmove_number := by
  unfold unmake_pre
  split <;> rcases u.captured_piece <;> simp

theorem bbOf_unmake_pre (b1 : Board) (mv : Move) (u : UndoState) (s : Bool) (p : PieceType) :
    bbOf (unmake_pre b1 mv u) s p =
      (let base := bbOf b1 s p &&& ((1 <<< mv.toSq) ^^^ Board.mask64)
       let mid :=
        if some mv.toSq = u.en_passant then
          (if s = b1.side_to_move ∧ p = PieceType.Pawn then
            base ||| (1 <<< (if b1.side_to_move = WHITE then mv.toSq + 8 else mv.toSq - 8))
          else base)
        else
          match u.captured_piece with
          | some c => if s = b1.side_to_move ∧ p = c then base ||| (1 <<< mv.toSq) else base
          | none => base
       if s = !b1.side_to_move ∧ p = mv.piece_type then mid ||| (1 <<< mv.fromSq) else mid) := by
  rcases hcap : u.captured_piece with _ | c <;>
  by_cases hep : some mv.toSq = u.en_passant <;>
  simp [unmake_pre, hcap, hep, bbOf_set_square, bbOf_clear_square, bbOf_with_scalars,
    bbOf_with_side, bbOf_rebuild]

/-! ### Castling rights through `make_move` -/

@[simp] theorem make_finish_castling_rights (b5 : Board) :
    (make_finish b5).castling_rights = b5.castling_rights := by
  unfold make_finish
  simp only [apply_ite Board.castling_rights, ite_self]

@[simp] theorem make_mid_castling_rights (b : Board) (mv : Move) :
    (make_mid b mv).castling_rights = b.castling_rights := by
  unfold make_mid
  simp [apply_ite Board.castling_rights]

@[simp] theorem make_mid_side_to_move (b : Board) (mv : Move) :
    (make_mid b mv).side_to_move = b.side_to_move := by
  unfold make_mid
  simp [apply_ite Board.side_to_move]

theorem make_after_pawn_castling_rights (b4 : Board) (mv : Move) :
    (make_after_pawn b4 mv).castling_rights =
      urights b4.castling_rights mv b4.side_to_move := by
  unfold make_after_pawn
  rcases handle_pawn_move_fst (b4.update_castling_rights mv) mv with hp | hp <;>
    simp [hp, update_castling_rights_rights, update_castling_rights_side_to_move]

/-- On success, the destination of a castling-shaped King move is one of
the four castling destinations. -/
theorem make_move_castle_to (b : Board) (mv : Move) (b1 : Board) (u : UndoState)
    (h : b.make_move mv = some (b1, u))
    (hc : mv.piece_type = PieceType.King ∧ abs_diff mv.fromSq mv.toSq = 2) :
    mv.toSq = 2 ∨ mv.toSq = 6 ∨ mv.toSq = 58 ∨ mv.toSq = 62 := by
  rw [make_move_stages] at h
  simp only [Option.bind_eq_some] at h
  obtain ⟨cap, hcap, b4, hb4, b5, hb5, hfin⟩ := h
  rw [if_pos hc] at hb4
  rcases handle_castling_some_eq _ _ _ hb4 with ⟨ht, _⟩ | ⟨ht, _⟩ | ⟨ht, _⟩ | ⟨ht, _⟩ <;>
    simp [ht]

/-- The castling rights after a successful `make_move`: the
`handle_castling` mask followed by the `update_castling_rights` stages. -/
theorem make_move_rights (b : Board) (mv : Move) (b1 : Board) (u : UndoState)
    (h : b.make_move mv = some (b1, u)) :
    b1.castling_rights =
      urights (castle_stage b.castling_rights mv) mv b.side_to_move := by
  rw [make_move_stages] at h
  simp only [Option.bind_eq_some] at h
  obtain ⟨cap, hcap, b4, hb4, b5, hb5, hfin⟩ := h
  have hb1 : make_finish b5 = b1 := congrArg Prod.fst (Option.some.inj hfin)
  have hb5r : b5.castling_rights = (make_after_pawn b4 mv).castling_rights := by
    rcases hpr : mv.promotion with _ | p
    · simp only [hpr] at hb5
      exact (congrArg Board.castling_rights (Option.some.inj hb5)).symm
    · simp only [hpr] at hb5
      rw [promote_pawn_eq] at hb5
      split at hb5
      · cases Option.some.inj hb5
        simp
      · cases hb5
  rw [← hb1, make_finish_castling_rights, hb5r, make_after_pawn_castling_rights]
  by_cases hc : mv.piece_type = PieceType.King ∧ abs_diff mv.fromSq mv.toSq = 2
  · rw [if_pos hc] at hb4
    unfold castle_stage
    rcases handle_castling_some_eq _ _ _ hb4 with ⟨ht, hb⟩ | ⟨ht, hb⟩ | ⟨ht, hb⟩ | ⟨ht, hb⟩ <;>
      subst hb <;> rw [ht] at hc <;> simp [ht, hc.1, hc.2]
  · rw [if_neg hc] at hb4
    have hb4' : make_mid b mv = b4 := Option.some.inj hb4
    unfold castle_stage
    rw [if_neg hc, ← hb4', make_mid_castling_rights, make_mid_side_to_move]

theorem urights_eq_stages (r : Nat) (mv : Move) (side : Bool) :
    urights r mv side =
      to_stage (rook_stage (king_stage r mv side) mv side) mv side := rfl

theorem and_testBit_subset (x m k : Nat) (h : (x &&& m).testBit k = true) :
    x.testBit k = true := by
  rw [Nat.testBit_and, Bool.and_eq_true] at h
  exact h.1

theorem king_stage_subset (r : Nat) (mv : Move) (side : Bool) (k : Nat)
    (h : (king_stage r mv side).testBit k = true) : r.testBit k = true := by
  unfold king_stage at h
  repeat' split at h
  all_goals first
    | exact and_testBit_subset _ _ _ h
    | exact h

theorem rook_stage_subset (r : Nat) (mv : Move) (side : Bool) (k : Nat)
    (h : (rook_stage r mv side).testBit k = true) : r.testBit k = true := by
  unfold rook_stage at h
  repeat' split at h
  all_goals first
    | exact and_testBit_subset _ _ _ h
    | exact h

theorem to_stage_subset (r : Nat) (mv : Move) (side : Bool) (k : Nat)
    (h : (to_stage r mv side).testBit k = true) : r.testBit k = true := by
  unfold to_stage at h
  repeat' split at h
  all_goals first
    | exact and_testBit_subset _ _ _ h
    | exact h

theorem castle_stage_subset (r : Nat) (mv : Move) (k : Nat)
    (h : (castle_stage r mv).testBit k = true) : r.testBit k = true := by
  unfold castle_stage at h
  repeat' split at h
  all_goals first
    | exact and_testBit_subset _ _ _ h
    | exact h

/-- Bits are only ever cleared along the whole castling-rights pipeline. -/
theorem urights_castle_subset (r : Nat) (mv : Move) (side : Bool) (k : Nat)
    (h : (urights (castle_stage r mv) mv side).testBit k = true) :
    r.testBit k = true := by
  rw [urights_eq_stages] at h
  exact castle_stage_subset _ _ _
    (king_stage_subset _ _ _ _ (rook_stage_subset _ _ _ _ (to_stage_subset _ _ _ _ h)))

theorem king_stage_testBit (r : Nat) (mv : Move) (side : Bool) (k : Nat) (hk : k < 4) :
    ((king_stage r mv side).testBit k = true ↔
      (r.testBit k = true ∧ ¬ king_clears mv side k)) := by
  interval_cases k <;>
  unfold king_stage king_clears <;>
  cases side
  all_goals repeat' split
  all_goals simp_all +decide [Nat.testBit_and, WHITE, BLACK]

theorem rook_stage_testBit (r : Nat) (mv : Move) (side : Bool) (k : Nat) (hk : k < 4) :
    ((rook_stage r mv side).testBit k = true ↔
      (r.testBit k = true ∧ ¬ rook_clears mv side k)) := by
  interval_cases k <;>
  unfold rook_stage rook_clears <;>
  cases side
  all_goals repeat' split
  all_goals simp_all +decide [Nat.testBit_and, WHITE, BLACK]

theorem to_stage_testBit (r : Nat) (mv : Move) (side : Bool) (k : Nat) (hk : k < 4) :
    ((to_stage r mv side).testBit k = true ↔
      (r.testBit k = true ∧ ¬ to_clears mv side k)) := by
  interval_cases k <;>
  unfold to_stage to_clears <;>
  cases side
  all_goals repeat' split
  all_goals simp_all +decide [Nat.testBit_and, WHITE, BLACK]

theorem castle_stage_testBit (r : Nat) (mv : Move) (k : Nat) (hk : k < 4)
    (hto : mv.piece_type = PieceType.King ∧ abs_diff mv.fromSq mv.toSq = 2 →
      mv.toSq = 2 ∨ mv.toSq = 6 ∨ mv.toSq = 58 ∨ mv.toSq = 62) :
    ((castle_stage r mv).testBit k = true ↔
      (r.testBit k = true ∧ ¬ castle_clears mv k)) := by
  by_cases hc : mv.piece_type = PieceType.King ∧ abs_diff mv.fromSq mv.toSq = 2
  · rcases hto hc with ht | ht | ht | ht <;>
    interval_cases k <;>
    unfold castle_stage castle_clears <;>
    simp_all +decide [Nat.testBit_and]
  · unfold castle_stage
    rw [if_neg hc]
    have h1 : ¬ castle_clears mv k := by
      interval_cases k <;> exact fun hcl => hc ⟨hcl.1, hcl.2.1⟩
    simp [h1]

theorem clears_right_iff (mv : Move) (side : Bool) (k : Nat) (hk : k < 4) :
    clears_right mv side k ↔
      (king_clears mv side k ∨ castle_clears mv k ∨ rook_clears mv side k ∨
        to_clears mv side k) := by
  interval_cases k <;> exact Iff.rfl

/-- The per-bit behaviour of the whole castling-rights pipeline of
`make_move`: bit `k` survives exactly when it was set before and the move
does not clear it. -/
theorem rights_pipeline_testBit (r : Nat) (mv : Move) (side : Bool) (k : Nat)
    (hk : k < 4)
    (hto : mv.piece_type = PieceType.King ∧ abs_diff mv.fromSq mv.toSq = 2 →
      mv.toSq = 2 ∨ mv.toSq = 6 ∨ mv.toSq = 58 ∨ mv.toSq = 62) :
    ((urights (castle_stage r mv) mv side).testBit k = true ↔
      (r.testBit k = true ∧ ¬ clears_right mv side k)) := by
  rw [urights_eq_stages, to_stage_testBit _ _ _ _ hk, rook_stage_testBit _ _ _ _ hk,
    king_stage_testBit _ _ _ _ hk, castle_stage_testBit _ _ _ hk hto,
    clears_right_iff _ _ _ hk]
  tauto

/-! ### Make-side characterizations for the round trip -/

theorem ep_clear_cond_congr (b b2 : Board) (mv : Move)
    (hs : b2.side_to_move = b.side_to_move) (he : b2.en_passant = b.en_passant) :
    ep_clear_cond b2 mv ↔ ep_clear_cond b mv := by
  unfold ep_clear_cond
  rw [hs, he]

theorem handle_pawn_move_fst_eq (b : Board) (mv : Move) :
    (b.handle_pawn_move mv).1 =
      if ep_clear_cond b mv then
        b.clear_square (ep_behind b.side_to_move mv.toSq)
      else b := by
  unfold Board.handle_pawn_move ep_clear_cond ep_behind
  by_cases h1 : mv.piece_type ≠ PieceType.Pawn
  · simp [h1]
  · rw [not_not] at h1
    by_cases h2 : b.side_to_move = WHITE ∧ get_rank mv.fromSq = 1 ∧ get_rank mv.toSq = 3
    · simp [h1, h2]
    · by_cases h3 : b.side_to_move = BLACK ∧ get_rank mv.fromSq = 6 ∧ get_rank mv.toSq = 4
      · simp [h1, h2, h3]
      · by_cases h4 : b.en_passant = some mv.toSq
        · simp [h1, h2, h3, h4]
        · simp [h1, h2, h3, h4]

@[simp] theorem make_mid_en_passant (b : Board) (mv : Move) :
    (make_mid b mv).en_passant = b.en_passant := by
  unfold make_mid
  simp [apply_ite Board.en_passant]

theorem bbOf_make_finish (b5 : Board) (s : Bool) (p : PieceType) :
    bbOf (make_finish b5) s p = bbOf b5 s p := by
  unfold make_finish
  simp [apply_ite (fun bd => bbOf bd s p), bbOf_with_side, bbOf_with_fullmove, bbOf_rebuild]

theorem make_finish_side (b5 : Board) :
    (make_finish b5).side_to_move = !b5.side_to_move := by
  unfold make_finish
  simp [apply_ite Board.side_to_move]

theorem bbOf_make_mid (b : Board) (mv : Move) (s : Bool) (p : PieceType) :
    bbOf (make_mid b mv) s p =
      (let x1 := if b.is_occupied_by_opponent mv.toSq b.side_to_move then
          bbOf b s p &&& ((1 <<< mv.toSq) ^^^ Board.mask64) else bbOf b s p
       let x2 := x1 &&& ((1 <<< mv.fromSq) ^^^ Board.mask64)
       if s = b.side_to_move ∧ p = mv.piece_type then x2 ||| (1 <<< mv.toSq) else x2) := by
  unfold make_mid
  cases hocc : b.is_occupied_by_opponent mv.toSq b.side_to_move <;>
    simp [hocc, bbOf_set_square, bbOf_clear_square, bbOf_with_halfmove]
/-- The twelve per-field bits of `only_piece_at` (proof infrastructure). -/
theorem only_piece_at_bits (b : Board) (sq : Nat) (sd : Bool) (pt : PieceType)
    (h : only_piece_at b sq sd pt) :
    b.white_pawns.testBit sq = decide (sd = true ∧ pt = PieceType.Pawn) ∧
    b.white_knights.testBit sq = decide (sd = true ∧ pt = PieceType.Knight) ∧
    b.white_bishops.testBit sq = decide (sd = true ∧ pt = PieceType.Bishop) ∧
    b.white_rooks.testBit sq = decide (sd = true ∧ pt = PieceType.Rook) ∧
    b.white_queens.testBit sq = decide (sd = true ∧ pt = PieceType.Queen) ∧
    b.white_king.testBit sq = decide (sd = true ∧ pt = PieceType.King) ∧
    b.black_pawns.testBit sq = decide (sd = false ∧ pt = PieceType.Pawn) ∧
    b.black_knights.testBit sq = decide (sd = false ∧ pt = PieceType.Knight) ∧
    b.black_bishops.testBit sq = decide (sd = false ∧ pt = PieceType.Bishop) ∧
    b.black_rooks.testBit sq = decide (sd = false ∧ pt = PieceType.Rook) ∧
    b.black_queens.testBit sq = decide (sd = false ∧ pt = PieceType.Queen) ∧
    b.black_king.testBit sq = decide (sd = false ∧ pt = PieceType.King) := by
  obtain ⟨h1, h2⟩ := h
  refine ⟨?_, ?_, ?_, ?_, ?_, ?_, ?_, ?_, ?_, ?_, ?_, ?_⟩
  · by_cases hc : sd = true ∧ pt = PieceType.Pawn
    · obtain ⟨hs, hp⟩ := hc
      subst hs
      subst hp
      simpa [bbOf] using h1
    · have e := h2 true PieceType.Pawn (fun hx => hc ⟨hx.1.symm, hx.2.symm⟩)
      simp [bbOf] at e
      simp [e, hc]
  · by_cases hc : sd = true ∧ pt = PieceType.Knight
    · obtain ⟨hs, hp⟩ := hc
      subst hs
      subst hp
      simpa [bbOf] using h1
    · have e := h2 true PieceType.Knight (fun hx => hc ⟨hx.1.symm, hx.2.symm⟩)
      simp [bbOf] at e
      simp [e, hc]
  · by_cases hc : sd = true ∧ pt = PieceType.Bishop
    · obtain ⟨hs, hp⟩ := hc
      subst hs
      subst hp
      simpa [bbOf] using h1
    · have e := h2 true PieceType.Bishop (fun hx => hc ⟨hx.1.symm, hx.2.symm⟩)
      simp [bbOf] at e
      simp [e, hc]
  · by_cases hc : sd = true ∧ pt = PieceType.Rook
    · obtain ⟨hs, hp⟩ := hc
      subst hs
      subst hp
      simpa [bbOf] using h1
    · have e := h2 true PieceType.Rook (fun hx => hc ⟨hx.1.symm, hx.2.symm⟩)
      simp [bbOf] at e
      simp [e, hc]
  · by_cases hc : sd = true ∧ pt = PieceType.Queen
    · obtain ⟨hs, hp⟩ := hc
      subst hs
      subst hp
      simpa [bbOf] using h1
    · have e := h2 true PieceType.Queen (fun hx => hc ⟨hx.1.symm, hx.2.symm⟩)
      simp [bbOf] at e
      simp [e, hc]
  · by_cases hc : sd = true ∧ pt = PieceType.King
    · obtain ⟨hs, hp⟩ := hc
      subst hs
      subst hp
      simpa [bbOf] using h1
    · have e := h2 true PieceType.King (fun hx => hc ⟨hx.1.symm, hx.2.symm⟩)
      simp [bbOf] at e
      simp [e, hc]
  · by_cases hc : sd = false ∧ pt = PieceType.Pawn
    · obtain ⟨hs, hp⟩ := hc
      subst hs
      subst hp
      simpa [bbOf] using h1
    · have e := h2 false PieceType.Pawn (fun hx => hc ⟨hx.1.symm, hx.2.symm⟩)
      simp [bbOf] at e
      simp [e, hc]
  · by_cases hc : sd = false ∧ pt = PieceType.Knight
    · obtain ⟨hs, hp⟩ := hc
      subst hs
      subst hp
      simpa [bbOf] using h1
    · have e := h2 false PieceType.Knight (fun hx => hc ⟨hx.1.symm, hx.2.symm⟩)
      simp [bbOf] at e
      simp [e, hc]
  · by_cases hc : sd = false ∧ pt = PieceType.Bishop
    · obtain ⟨hs, hp⟩ := hc
      subst hs
      subst hp
      simpa [bbOf] using h1
    · have e := h2 false PieceType.Bishop (fun hx => hc ⟨hx.1.symm, hx.2.symm⟩)
      simp [bbOf] at e
      simp [e, hc]
  · by_cases hc : sd = false ∧ pt = PieceType.Rook
    · obtain ⟨hs, hp⟩ := hc
      subst hs
      subst hp
      simpa [bbOf] using h1
    · have e := h2 false PieceType.Rook (fun hx => hc ⟨hx.1.symm, hx.2.symm⟩)
      simp [bbOf] at e
      simp [e, hc]
  · by_cases hc : sd = false ∧ pt = PieceType.Queen
    · obtain ⟨hs, hp⟩ := hc
      subst hs
      subst hp
      simpa [bbOf] using h1
    · have e := h2 false PieceType.Queen (fun hx => hc ⟨hx.1.symm, hx.2.symm⟩)
      simp [bbOf] at e
      simp [e, hc]
  · by_cases hc : sd = false ∧ pt = PieceType.King
    · obtain ⟨hs, hp⟩ := hc
      subst hs
      subst hp
      simpa [bbOf] using h1
    · have e := h2 false PieceType.King (fun hx => hc ⟨hx.1.symm, hx.2.symm⟩)
      simp [bbOf] at e
      simp [e, hc]

/-- The twelve per-field bits of `empty_at` (proof infrastructure). -/
theorem empty_at_bits (b : Board) (sq : Nat) (h : empty_at b sq) :
    b.white_pawns.testBit sq = false ∧
    b.white_knights.testBit sq = false ∧
    b.white_bishops.testBit sq = false ∧
    b.white_rooks.testBit sq = false ∧
    b.white_queens.testBit sq = false ∧
    b.white_king.testBit sq = false ∧
    b.black_pawns.testBit sq = false ∧
    b.black_knights.testBit sq = false ∧
    b.black_bishops.testBit sq = false ∧
    b.black_rooks.testBit sq = false ∧
    b.black_queens.testBit sq = false ∧
    b.black_king.testBit sq = false := by
  refine ⟨?_, ?_, ?_, ?_, ?_, ?_, ?_, ?_, ?_, ?_, ?_, ?_⟩
  · simpa [bbOf] using h true PieceType.Pawn
  · simpa [bbOf] using h true PieceType.Knight
  · simpa [bbOf] using h true PieceType.Bishop
  · simpa [bbOf] using h true PieceType.Rook
  · simpa [bbOf] using h true PieceType.Queen
  · simpa [bbOf] using h true PieceType.King
  · simpa [bbOf] using h false PieceType.Pawn
  · simpa [bbOf] using h false PieceType.Knight
  · simpa [bbOf] using h false PieceType.Bishop
  · simpa [bbOf] using h false PieceType.Rook
  · simpa [bbOf] using h false PieceType.Queen
  · simpa [bbOf] using h false PieceType.King

theorem is_occ_opp_of_empty (b : Board) (sq : Nat) (side : Bool) (h : empty_at b sq) :
    b.is_occupied_by_opponent sq side = false := by
  obtain ⟨e1, e2, e3, e4, e5, e6, e7, e8, e9, e10, e11, e12⟩ := empty_at_bits b sq h
  unfold Board.is_occupied_by_opponent
  cases hside : side <;>
    simp [and_shift_eq_zero_iff, Nat.testBit_or, WHITE, BLACK, e1, e2, e3, e4, e5, e6,
      e7, e8, e9, e10, e11, e12]

theorem is_occ_opp_of_only_opp (b : Board) (sq : Nat) (side : Bool) (p : PieceType)
    (h : only_piece_at b sq (!side) p) :
    b.is_occupied_by_opponent sq side = true := by
  obtain ⟨e1, e2, e3, e4, e5, e6, e7, e8, e9, e10, e11, e12⟩ :=
    only_piece_at_bits b sq (!side) p h
  unfold Board.is_occupied_by_opponent
  cases hside : side <;> cases p <;>
    simp_all [and_shift_ne_zero_iff, Nat.testBit_or, WHITE, BLACK]

theorem get_piece_type_of_only (b : Board) (sq : Nat) (sd : Bool) (pt : PieceType)
    (h : only_piece_at b sq sd pt) :
    b.get_piece_type sq = some pt := by
  obtain ⟨e1, e2, e3, e4, e5, e6, e7, e8, e9, e10, e11, e12⟩ := only_piece_at_bits b sq sd pt h
  cases sd <;> cases pt <;>
    simp_all [Board.get_piece_type, and_shift_ne_zero_iff, WHITE, BLACK]

theorem bbOf_make_after_pawn (b4 : Board) (mv : Move) (s : Bool) (p : PieceType) :
    bbOf (make_after_pawn b4 mv) s p =
      (if ep_clear_cond b4 mv then
        bbOf b4 s p &&& ((1 <<< ep_behind b4.side_to_move mv.toSq) ^^^ Board.mask64)
      else bbOf b4 s p) := by
  unfold make_after_pawn
  rw [bbOf_with_ep, handle_pawn_move_fst_eq]
  by_cases hec : ep_clear_cond b4 mv
  · have hec2 : ep_clear_cond (b4.update_castling_rights mv) mv :=
      (ep_clear_cond_congr _ _ _ (update_castling_rights_side_to_move _ _)
        (update_castling_rights_en_passant _ _)).mpr hec
    rw [if_pos hec2, if_pos hec, bbOf_clear_square, update_castling_rights_bbOf,
      update_castling_rights_side_to_move]
  · have hec2 : ¬ ep_clear_cond (b4.update_castling_rights mv) mv := fun hx =>
      hec ((ep_clear_cond_congr _ _ _ (update_castling_rights_side_to_move _ _)
        (update_castling_rights_en_passant _ _)).mp hx)
    rw [if_neg hec2, if_neg hec, update_castling_rights_bbOf]

theorem make_after_pawn_side_to_move (b4 : Board) (mv : Move) :
    (make_after_pawn b4 mv).side_to_move = b4.side_to_move := by
  unfold make_after_pawn
  rcases handle_pawn_move_fst (b4.update_castling_rights mv) mv with hp | hp <;>
    simp [hp, update_castling_rights_side_to_move]

theorem make_move_side (b : Board) (mv : Move) (b1 : Board) (u : UndoState)
    (h : b.make_move mv = some (b1, u)) :
    b1.side_to_move = !b.side_to_move := by
  rw [make_move_stages] at h
  simp only [Option.bind_eq_some] at h
  obtain ⟨cap, hcap, b4, hb4, b5, hb5, hfin⟩ := h
  have hb1 : make_finish b5 = b1 := congrArg Prod.fst (Option.some.inj hfin)
  have h4 : b4.side_to_move = b.side_to_move := by
    by_cases hc : mv.piece_type = PieceType.King ∧ abs_diff mv.fromSq mv.toSq = 2
    · rw [if_pos hc] at hb4
      rcases handle_castling_some_eq _ _ _ hb4 with ⟨ht, hb⟩ | ⟨ht, hb⟩ | ⟨ht, hb⟩ | ⟨ht, hb⟩ <;>
        subst hb <;> simp [make_mid_side_to_move]
    · rw [if_neg hc] at hb4
      rw [← Option.some.inj hb4, make_mid_side_to_move]
  have h5 : b5.side_to_move = b4.side_to_move := by
    rcases hpr : mv.promotion with _ | pr
    · simp only [hpr] at hb5
      rw [← Option.some.inj hb5, make_after_pawn_side_to_move]
    · simp only [hpr] at hb5
      rw [promote_pawn_eq] at hb5
      split at hb5
      · rw [← Option.some.inj hb5]
        simp [make_after_pawn_side_to_move]
      · cases hb5
  rw [← hb1, make_finish_side, h5, h4]

theorem make_move_undo_fields (b : Board) (mv : Move) (b1 : Board) (u : UndoState)
    (h : b.make_move mv = some (b1, u)) :
    u.captured_piece =
      (if b.is_occupied_by_opponent mv.toSq b.side_to_move then b.get_piece_type mv.toSq
        else if mv.piece_type = PieceType.Pawn ∧ b.en_passant = some mv.toSq then
          some PieceType.Pawn
        else none) ∧
    u.en_passant = b.en_passant ∧ u.castling_rights = b.castling_rights ∧
    u.halfmove_clock = b.halfmove_clock ∧ u.fullmove_number = b.fullmove_number := by
  rw [make_move_stages] at h
  simp only [Option.bind_eq_some] at h
  obtain ⟨cap, hcap, b4, hb4, b5, hb5, hfin⟩ := h
  have hu : make_undo b cap = u := congrArg Prod.snd (Option.some.inj hfin)
  have hcap2 : u.captured_piece = cap := by rw [← hu]; rfl
  refine ⟨?_, by rw [← hu]; rfl, by rw [← hu]; rfl, by rw [← hu]; rfl, by rw [← hu]; rfl⟩
  rw [hcap2]
  by_cases hocc : b.is_occupied_by_opponent mv.toSq b.side_to_move
  · rw [if_pos hocc]
    rw [if_pos hocc] at hcap
    simp only [Option.bind_eq_some] at hcap
    obtain ⟨pt, hpt, hsome⟩ := hcap
    rw [hpt, ← Option.some.inj hsome]
  · rw [if_neg hocc]
    rw [if_neg hocc] at hcap
    by_cases hep : mv.piece_type = PieceType.Pawn ∧ b.en_passant = some mv.toSq
    · rw [if_pos hep]
      rw [if_pos hep] at hcap
      exact (Option.some.inj hcap).symm
    · rw [if_neg hep]
      rw [if_neg hep] at hcap
      exact (Option.some.inj hcap).symm

/-- The bitboards after a successful `make_move`, as mask operations on
the input board's bitboards: the capture clear, the origin clear, the
destination set, the castling rook transfer, the en-passant pawn clear
and the promotion replacement, in the source's order. -/
theorem make_move_bbOf (b : Board) (mv : Move) (b1 : Board) (u : UndoState)
    (h : b.make_move mv = some (b1, u)) (s : Bool) (p : PieceType) :
    bbOf b1 s p =
      (let x1 := if b.is_occupied_by_opponent mv.toSq b.side_to_move then
          bbOf b s p &&& ((1 <<< mv.toSq) ^^^ Board.mask64) else bbOf b s p
       let x2 := x1 &&& ((1 <<< mv.fromSq) ^^^ Board.mask64)
       let x3 := if s = b.side_to_move ∧ p = mv.piece_type then x2 ||| (1 <<< mv.toSq) else x2
       let x4 := if mv.piece_type = PieceType.King ∧ abs_diff mv.fromSq mv.toSq = 2 then
           (if s = b.side_to_move ∧ p = PieceType.Rook then
             (x3 &&& ((1 <<< corner_of mv.toSq) ^^^ Board.mask64)) |||
               (1 <<< rook_dest_of mv.toSq)
            else x3 &&& ((1 <<< corner_of mv.toSq) ^^^ Board.mask64))
         else x3
       let x5 := if ep_clear_cond b mv then
           x4 &&& ((1 <<< ep_behind b.side_to_move mv.toSq) ^^^ Board.mask64) else x4
       match mv.promotion with
       | some pr =>
           if s = b.side_to_move ∧ p = pr then
             (x5 &&& ((1 <<< mv.toSq) ^^^ Board.mask64)) ||| (1 <<< mv.toSq)
           else x5 &&& ((1 <<< mv.toSq) ^^^ Board.mask64)
       | none => x5) := by
  rw [make_move_stages] at h
  simp only [Option.bind_eq_some] at h
  obtain ⟨cap, hcap, b4, hb4, b5, hb5, hfin⟩ := h
  have hb1 : make_finish b5 = b1 := congrArg Prod.fst (Option.some.inj hfin)
  have hb4facts : (b4.side_to_move = b.side_to_move ∧ b4.en_passant = b.en_passant) ∧
      bbOf b4 s p =
        (if mv.piece_type = PieceType.King ∧ abs_diff mv.fromSq mv.toSq = 2 then
          (if s = b.side_to_move ∧ p = PieceType.Rook then
            ((if s = b.side_to_move ∧ p = mv.piece_type then
                ((if b.is_occupied_by_opponent mv.toSq b.side_to_move then
                  bbOf b s p &&& ((1 <<< mv.toSq) ^^^ Board.mask64) else bbOf b s p) &&&
                  ((1 <<< mv.fromSq) ^^^ Board.mask64)) ||| (1 <<< mv.toSq)
              else (if b.is_occupied_by_opponent mv.toSq b.side_to_move then
                  bbOf b s p &&& ((1 <<< mv.toSq) ^^^ Board.mask64) else bbOf b s p) &&&
                  ((1 <<< mv.fromSq) ^^^ Board.mask64)) &&&
              ((1 <<< corner_of mv.toSq) ^^^ Board.mask64)) ||| (1 <<< rook_dest_of mv.toSq)
          else
            (if s = b.side_to_move ∧ p = mv.piece_type then
                ((if b.is_occupied_by_opponent mv.toSq b.side_to_move then
                  bbOf b s p &&& ((1 <<< mv.toSq) ^^^ Board.mask64) else bbOf b s p) &&&
                  ((1 <<< mv.fromSq) ^^^ Board.mask64)) ||| (1 <<< mv.toSq)
              else (if b.is_occupied_by_opponent mv.toSq b.side_to_move then
                  bbOf b s p &&& ((1 <<< mv.toSq) ^^^ Board.mask64) else bbOf b s p) &&&
                  ((1 <<< mv.fromSq) ^^^ Board.mask64)) &&&
              ((1 <<< corner_of mv.toSq) ^^^ Board.mask64))
        else
          (if s = b.side_to_move ∧ p = mv.piece_type then
              ((if b.is_occupied_by_opponent mv.toSq b.side_to_move then
                bbOf b s p &&& ((1 <<< mv.toSq) ^^^ Board.mask64) else bbOf b s p) &&&
                ((1 <<< mv.fromSq) ^^^ Board.mask64)) ||| (1 <<< mv.toSq)
            else (if b.is_occupied_by_opponent mv.toSq b.side_to_move then
                bbOf b s p &&& ((1 <<< mv.toSq) ^^^ Board.mask64) else bbOf b s p) &&&
                ((1 <<< mv.fromSq) ^^^ Board.mask64))) := by
    by_cases hc : mv.piece_type = PieceType.King ∧ abs_diff mv.fromSq mv.toSq = 2
    · rw [if_pos hc] at hb4
      rcases handle_castling_some_eq _ _ _ hb4 with ⟨ht, hb⟩ | ⟨ht, hb⟩ | ⟨ht, hb⟩ | ⟨ht, hb⟩ <;>
        subst hb <;>
        rw [ht] at hc <;>
        refine ⟨⟨by simp, by simp⟩, ?_⟩ <;>
        rw [bbOf_set_square, bbOf_clear_square, bbOf_with_rights, bbOf_make_mid] <;>
        simp [ht, hc.1, hc.2, corner_of, rook_dest_of]
    · rw [if_neg hc] at hb4
      cases Option.some.inj hb4
      refine ⟨⟨make_mid_side_to_move _ _, make_mid_en_passant _ _⟩, ?_⟩
      rw [bbOf_make_mid, if_neg hc]
  have hside4 := hb4facts.1.1
  have hep4 := hb4facts.1.2
  have hA : bbOf (make_after_pawn b4 mv) s p =
      (if ep_clear_cond b mv then
        bbOf b4 s p &&& ((1 <<< ep_behind b.side_to_move mv.toSq) ^^^ Board.mask64)
      else bbOf b4 s p) := by
    rw [bbOf_make_after_pawn]
    by_cases hec : ep_clear_cond b mv
    · rw [if_pos ((ep_clear_cond_congr b b4 mv hside4 hep4).mpr hec), if_pos hec, hside4]
    · rw [if_neg (fun hx => hec ((ep_clear_cond_congr b b4 mv hside4 hep4).mp hx)),
        if_neg hec]
  have h5 : bbOf b5 s p =
      (match mv.promotion with
        | some pr =>
            if s = b.side_to_move ∧ p = pr then
              (bbOf (make_after_pawn b4 mv) s p &&& ((1 <<< mv.toSq) ^^^ Board.mask64)) |||
                (1 <<< mv.toSq)
            else bbOf (make_after_pawn b4 mv) s p &&& ((1 <<< mv.toSq) ^^^ Board.mask64)
        | none => bbOf (make_after_pawn b4 mv) s p) := by
    rcases hpr : mv.promotion with _ | pr
    · simp only [hpr] at hb5 ⊢
      rw [← Option.some.inj hb5]
    · simp only [hpr] at hb5 ⊢
      rw [promote_pawn_eq] at hb5
      split at hb5
      · rw [← Option.some.inj hb5, bbOf_set_square, bbOf_clear_square]
        simp [make_after_pawn_side_to_move, hside4]
      · cases hb5
  rw [← hb1, bbOf_make_finish, h5, hA, hb4facts.2]


theorem board_eq_of_bbOf (A B : Board)
    (hb : ∀ s p, bbOf A s p = bbOf B s p)
    (hep : A.en_passant = B.en_passant) (hcr : A.castling_rights = B.castling_rights)
    (hs : A.side_to_move = B.side_to_move) (hh : A.halfmove_clock = B.halfmove_clock)
    (hf : A.fullmove_number = B.fullmove_number) : A = B :=
  Board.ext (hb true PieceType.Pawn) (hb true PieceType.Knight) (hb true PieceType.Bishop)
    (hb true PieceType.Rook) (hb true PieceType.Queen) (hb true PieceType.King)
    (hb false PieceType.Pawn) (hb false PieceType.Knight) (hb false PieceType.Bishop)
    (hb false PieceType.Rook) (hb false PieceType.Queen) (hb false PieceType.King)
    hep hcr hs hh hf

theorem ep_behind_black (e : Nat) : ep_behind false e = e + 8 := rfl

theorem ep_behind_white (e : Nat) : ep_behind true e = e - 8 := rfl

set_option maxRecDepth 8192 in
theorem make_unmake_roundtrip (b : Board) (mv : Move) (b1 : Board) (u : UndoState)
    (hok : MoveOk b mv) (h : b.make_move mv = some (b1, u)) :
    b1.unmake_move mv u = some b := by
  obtain ⟨hf64, ht64, hft, hbnd, honly_from, hto_disj, hpromo, hpromo_ep, hep_cl, hcast_cl⟩ :=
    hok
  have hside1 := make_move_side b mv b1 u h
  obtain ⟨hucap, huep, hucr, huhm, hufm⟩ := make_move_undo_fields b mv b1 u h
  rw [unmake_move_stages]
  by_cases hcast : mv.piece_type = PieceType.King ∧ abs_diff mv.fromSq mv.toSq = 2
  · rw [if_pos hcast]
    have hptP : mv.piece_type ≠ PieceType.Pawn := by simp [hcast.1]
    have hpn : mv.promotion = none := by
      rcases hpr : mv.promotion with _ | pr
      · rfl
      · exact absurd ((hpromo pr hpr).1.symm.trans hcast.1) (by decide)
    obtain ⟨hto_empty, hd4⟩ := hcast_cl hcast
    have hocc : b.is_occupied_by_opponent mv.toSq b.side_to_move = false :=
      is_occ_opp_of_empty b mv.toSq b.side_to_move hto_empty
    have hcapn : u.captured_piece = none := by
      rw [hucap, if_neg (by simp [hocc]), if_neg (fun hx => hptP hx.1)]
    have hec : ¬ ep_clear_cond b mv := fun hx => hptP hx.1
    have hepne : ¬ (some mv.toSq = u.en_passant) := by
      rw [huep]
      intro hx
      have h2 := hep_cl hx.symm
      rcases hd4 with ⟨hsw, ht, hh⟩ | ⟨hsw, ht, hh⟩ | ⟨hsw, ht, hh⟩ | ⟨hsw, ht, hh⟩
      · exact absurd (h2.2.1 hsw).1 (by rw [ht]; decide)
      · exact absurd (h2.2.1 hsw).1 (by rw [ht]; decide)
      · exact absurd (h2.2.2.1 hsw).2 (by rw [ht]; decide)
      · exact absurd (h2.2.2.1 hsw).2 (by rw [ht]; decide)
    rcases hd4 with ⟨hsw, ht, hempd, hrk, hfc, hfd⟩ | ⟨hsw, ht, hempd, hrk, hfc, hfd⟩ |
      ⟨hsw, ht, hempd, hrk, hfc, hfd⟩ | ⟨hsw, ht, hempd, hrk, hfc, hfd⟩
    · rw [ht] at hft hto_empty hepne hocc hcast
      rw [hsw] at honly_from hocc
      simp only [WHITE, BLACK] at hocc
      rw [hcast.1] at honly_from
      rw [ht]
      rw [if_neg (by decide), if_pos (by decide)]
      simp only [Option.some_bind]
      rw [unmake_pre_side, hside1, Bool.not_not, hsw]
      simp [WHITE, BLACK]
      refine board_eq_of_bbOf _ _ (fun s p => ?_) (by simp [unmake_pre_en_passant, huep])
        (by simp [unmake_pre_castling_rights, hucr]) (by simp [unmake_pre_side, hside1])
        (by simp [unmake_pre_halfmove, huhm]) (by simp [unmake_pre_fullmove, hufm])
      rw [bbOf_set_square, bbOf_clear_square, bbOf_unmake_pre, make_move_bbOf b mv b1 u h]
      clear h
      have hcC : corner_of (6 : Nat) = 7 := rfl
      have hdD : rook_dest_of (6 : Nat) = 5 := rfl
      simp only [clear_square_side_to_move, unmake_pre_side, hside1, Bool.not_not, hsw,
        hocc, hcapn, hec, hpn, hepne, ht, hcast.1, hcast.2, hcC, hdD, WHITE, BLACK,
        Bool.false_eq_true, Bool.true_eq_false, eq_self_iff_true, and_true, true_and,
        and_self, if_true, if_false]
      by_cases hp1 : s = true ∧ p = PieceType.King <;>
        by_cases hp2 : s = true ∧ p = PieceType.Rook
      · exact absurd (hp1.2.symm.trans hp2.2) (by decide)
      · simp only [if_pos hp1, if_neg hp2]
        have hx := hbnd s p
        have hxF : (bbOf b s p).testBit mv.fromSq = true := by
          rw [hp1.1, hp1.2]
          exact honly_from.1
        have hxT : (bbOf b s p).testBit (6 : Nat) = false := hto_empty s p
        have hxC : (bbOf b s p).testBit (7 : Nat) = false := hrk.2 s p (by simp [hp1.2])
        have hxD : (bbOf b s p).testBit (5 : Nat) = false := hempd s p
        apply Nat.eq_of_testBit_eq
        intro k
        rcases Nat.lt_or_ge k 64 with hk64 | hk64
        · simp only [testBit_or_shift, testBit_and_cmask _ _ _ hf64,
            testBit_and_cmask _ _ _ (by decide : (6 : Nat) < 64),
            testBit_and_cmask _ _ _ (by decide : (7 : Nat) < 64),
            testBit_and_cmask _ _ _ (by decide : (5 : Nat) < 64),
            Nat.testBit_or, Nat.testBit_and, Nat.testBit_xor, testBit_one_shiftLeft,
            testBit_mask64]
          by_cases hk1 : k = mv.fromSq <;> by_cases hk2 : k = (6 : Nat) <;>
            by_cases hk3 : k = (7 : Nat) <;> by_cases hk4 : k = (5 : Nat)
          · exact absurd (hk1.symm.trans hk2) hft
          · exact absurd (hk1.symm.trans hk2) hft
          · exact absurd (hk1.symm.trans hk2) hft
          · exact absurd (hk1.symm.trans hk2) hft
          · exact absurd (hk1.symm.trans hk3) hfc
          · exact absurd (hk1.symm.trans hk3) hfc
          · exact absurd (hk1.symm.trans hk4) hfd
          · simp [hk1, hxF, hft, hfc, hfd, hf64]
          · exact absurd (hk2.symm.trans hk3) (by decide)
          · exact absurd (hk2.symm.trans hk3) (by decide)
          · exact absurd (hk2.symm.trans hk4) (by decide)
          · simp [hk2, hxT, Ne.symm hft]
          · exact absurd (hk3.symm.trans hk4) (by decide)
          · simp [hk3, hxC, Ne.symm hfc]
          · simp [hk4, hxD, Ne.symm hfd]
          · simp [hk1, hk2, hk3, hk4, hk64]
        · have h1k : ¬ k = mv.fromSq := by omega
          have hnk : ¬ k < 64 := by omega
          simp only [testBit_or_shift, testBit_and_cmask _ _ _ hf64,
            testBit_and_cmask _ _ _ (by decide : (6 : Nat) < 64),
            testBit_and_cmask _ _ _ (by decide : (7 : Nat) < 64),
            testBit_and_cmask _ _ _ (by decide : (5 : Nat) < 64),
            Nat.testBit_or, Nat.testBit_and, Nat.testBit_xor, testBit_one_shiftLeft,
            testBit_mask64]
          simp [h1k, hnk, testBit_high _ k hx hk64,
            show ¬ k = (6 : Nat) from by omega, show ¬ k = (7 : Nat) from by omega,
            show ¬ k = (5 : Nat) from by omega]
      · simp only [if_neg hp1, if_pos hp2]
        have hx := hbnd s p
        have hxF : (bbOf b s p).testBit mv.fromSq = false :=
          honly_from.2 s p (by simp [hp2.2])
        have hxT : (bbOf b s p).testBit (6 : Nat) = false := hto_empty s p
        have hxC : (bbOf b s p).testBit (7 : Nat) = true := by
          rw [hp2.1, hp2.2]
          exact hrk.1
        have hxD : (bbOf b s p).testBit (5 : Nat) = false := hempd s p
        apply Nat.eq_of_testBit_eq
        intro k
        rcases Nat.lt_or_ge k 64 with hk64 | hk64
        · simp only [testBit_or_shift, testBit_and_cmask _ _ _ hf64,
            testBit_and_cmask _ _ _ (by decide : (6 : Nat) < 64),
            testBit_and_cmask _ _ _ (by decide : (7 : Nat) < 64),
            testBit_and_cmask _ _ _ (by decide : (5 : Nat) < 64),
            Nat.testBit_or, Nat.testBit_and, Nat.testBit_xor, testBit_one_shiftLeft,
            testBit_mask64]
          by_cases hk1 : k = mv.fromSq <;> by_cases hk2 : k = (6 : Nat) <;>
            by_cases hk3 : k = (7 : Nat) <;> by_cases hk4 : k = (5 : Nat)
          · exact absurd (hk1.symm.trans hk2) hft
          · exact absurd (hk1.symm.trans hk2) hft
          · exact absurd (hk1.symm.trans hk2) hft
          · exact absurd (hk1.symm.trans hk2) hft
          · exact absurd (hk1.symm.trans hk3) hfc
          · exact absurd (hk1.symm.trans hk3) hfc
          · exact absurd (hk1.symm.trans hk4) hfd
          · simp [hk1, hxF, hft, hfc, hfd, hf64]
          · exact absurd (hk2.symm.trans hk3) (by decide)
          · exact absurd (hk2.symm.trans hk3) (by decide)
          · exact absurd (hk2.symm.trans hk4) (by decide)
          · simp [hk2, hxT, Ne.symm hft]
          · exact absurd (hk3.symm.trans hk4) (by decide)
          · simp [hk3, hxC, Ne.symm hfc]
          · simp [hk4, hxD, Ne.symm hfd]
          · simp [hk1, hk2, hk3, hk4, hk64]
        · have h1k : ¬ k = mv.fromSq := by omega
          have hnk : ¬ k < 64 := by omega
          simp only [testBit_or_shift, testBit_and_cmask _ _ _ hf64,
            testBit_and_cmask _ _ _ (by decide : (6 : Nat) < 64),
            testBit_and_cmask _ _ _ (by decide : (7 : Nat) < 64),
            testBit_and_cmask _ _ _ (by decide : (5 : Nat) < 64),
            Nat.testBit_or, Nat.testBit_and, Nat.testBit_xor, testBit_one_shiftLeft,
            testBit_mask64]
          simp [h1k, hnk, testBit_high _ k hx hk64,
            show ¬ k = (6 : Nat) from by omega, show ¬ k = (7 : Nat) from by omega,
            show ¬ k = (5 : Nat) from by omega]
      · simp only [if_neg hp1, if_neg hp2]
        have hx := hbnd s p
        have hxF : (bbOf b s p).testBit mv.fromSq = false := honly_from.2 s p hp1
        have hxT : (bbOf b s p).testBit (6 : Nat) = false := hto_empty s p
        have hxC : (bbOf b s p).testBit (7 : Nat) = false := hrk.2 s p hp2
        have hxD : (bbOf b s p).testBit (5 : Nat) = false := hempd s p
        rw [clear_noop _ _ hx hxF, clear_noop _ _ hx hxC, clear_noop _ _ hx hxT,
          clear_noop _ _ hx hxD]
    · rw [ht] at hft hto_empty hepne hocc hcast
      rw [hsw] at honly_from hocc
      simp only [WHITE, BLACK] at hocc
      rw [hcast.1] at honly_from
      rw [ht]
      rw [if_pos (by decide)]
      simp only [Option.some_bind]
      rw [unmake_pre_side, hside1, Bool.not_not, hsw]
      simp [WHITE, BLACK]
      refine board_eq_of_bbOf _ _ (fun s p => ?_) (by simp [unmake_pre_en_passant, huep])
        (by simp [unmake_pre_castling_rights, hucr]) (by simp [unmake_pre_side, hside1])
        (by simp [unmake_pre_halfmove, huhm]) (by simp [unmake_pre_fullmove, hufm])
      rw [bbOf_set_square, bbOf_clear_square, bbOf_unmake_pre, make_move_bbOf b mv b1 u h]
      clear h
      have hcC : corner_of (2 : Nat) = 0 := rfl
      have hdD : rook_dest_of (2 : Nat) = 3 := rfl
      simp only [clear_square_side_to_move, unmake_pre_side, hside1, Bool.not_not, hsw,
        hocc, hcapn, hec, hpn, hepne, ht, hcast.1, hcast.2, hcC, hdD, WHITE, BLACK,
        Bool.false_eq_true, Bool.true_eq_false, eq_self_iff_true, and_true, true_and,
        and_self, if_true, if_false]
      by_cases hp1 : s = true ∧ p = PieceType.King <;>
        by_cases hp2 : s = true ∧ p = PieceType.Rook
      · exact absurd (hp1.2.symm.trans hp2.2) (by decide)
      · simp only [if_pos hp1, if_neg hp2]
        have hx := hbnd s p
        have hxF : (bbOf b s p).testBit mv.fromSq = true := by
          rw [hp1.1, hp1.2]
          exact honly_from.1
        have hxT : (bbOf b s p).testBit (2 : Nat) = false := hto_empty s p
        have hxC : (bbOf b s p).testBit (0 : Nat) = false := hrk.2 s p (by simp [hp1.2])
        have hxD : (bbOf b s p).testBit (3 : Nat) = false := hempd s p
        apply Nat.eq_of_testBit_eq
        intro k
        rcases Nat.lt_or_ge k 64 with hk64 | hk64
        · simp only [testBit_or_shift, testBit_and_cmask _ _ _ hf64,
            testBit_and_cmask _ _ _ (by decide : (2 : Nat) < 64),
            testBit_and_cmask _ _ _ (by decide : (0 : Nat) < 64),
            testBit_and_cmask _ _ _ (by decide : (3 : Nat) < 64),
            Nat.testBit_or, Nat.testBit_and, Nat.testBit_xor, testBit_one_shiftLeft,
            testBit_mask64]
          by_cases hk1 : k = mv.fromSq <;> by_cases hk2 : k = (2 : Nat) <;>
            by_cases hk3 : k = (0 : Nat) <;> by_cases hk4 : k = (3 : Nat)
          · exact absurd (hk1.symm.trans hk2) hft
          · exact absurd (hk1.symm.trans hk2) hft
          · exact absurd (hk1.symm.trans hk2) hft
          · exact absurd (hk1.symm.trans hk2) hft
          · exact absurd (hk1.symm.trans hk3) hfc
          · exact absurd (hk1.symm.trans hk3) hfc
          · exact absurd (hk1.symm.trans hk4) hfd
          · simp [hk1, hxF, hft, hfc, hfd, hf64]
          · exact absurd (hk2.symm.trans hk3) (by decide)
          · exact absurd (hk2.symm.trans hk3) (by decide)
          · exact absurd (hk2.symm.trans hk4) (by decide)
          · simp [hk2, hxT, Ne.symm hft]
          · exact absurd (hk3.symm.trans hk4) (by decide)
          · simp [hk3, hxC, Ne.symm hfc]
          · simp [hk4, hxD, Ne.symm hfd]
          · simp [hk1, hk2, hk3, hk4, hk64]
        · have h1k : ¬ k = mv.fromSq := by omega
          have hnk : ¬ k < 64 := by omega
          simp only [testBit_or_shift, testBit_and_cmask _ _ _ hf64,
            testBit_and_cmask _ _ _ (by decide : (2 : Nat) < 64),
            testBit_and_cmask _ _ _ (by decide : (0 : Nat) < 64),
            testBit_and_cmask _ _ _ (by decide : (3 : Nat) < 64),
            Nat.testBit_or, Nat.testBit_and, Nat.testBit_xor, testBit_one_shiftLeft,
            testBit_mask64]
          simp [h1k, hnk, testBit_high _ k hx hk64,
            show ¬ k = (2 : Nat) from by omega, show ¬ k = (0 : Nat) from by omega,
            show ¬ k = (3 : Nat) from by omega]
      · simp only [if_neg hp1, if_pos hp2]
        have hx := hbnd s p
        have hxF : (bbOf b s p).testBit mv.fromSq = false :=
          honly_from.2 s p (by simp [hp2.2])
        have hxT : (bbOf b s p).testBit (2 : Nat) = false := hto_empty s p
        have hxC : (bbOf b s p).testBit (0 : Nat) = true := by
          rw [hp2.1, hp2.2]
          exact hrk.1
        have hxD : (bbOf b s p).testBit (3 : Nat) = false := hempd s p
        apply Nat.eq_of_testBit_eq
        intro k
        rcases Nat.lt_or_ge k 64 with hk64 | hk64
        · simp only [testBit_or_shift, testBit_and_cmask _ _ _ hf64,
            testBit_and_cmask _ _ _ (by decide : (2 : Nat) < 64),
            testBit_and_cmask _ _ _ (by decide : (0 : Nat) < 64),
            testBit_and_cmask _ _ _ (by decide : (3 : Nat) < 64),
            Nat.testBit_or, Nat.testBit_and, Nat.testBit_xor, testBit_one_shiftLeft,
            testBit_mask64]
          by_cases hk1 : k = mv.fromSq <;> by_cases hk2 : k = (2 : Nat) <;>
            by_cases hk3 : k = (0 : Nat) <;> by_cases hk4 : k = (3 : Nat)
          · exact absurd (hk1.symm.trans hk2) hft
          · exact absurd (hk1.symm.trans hk2) hft
          · exact absurd (hk1.symm.trans hk2) hft
          · exact absurd (hk1.symm.trans hk2) hft
          · exact absurd (hk1.symm.trans hk3) hfc
          · exact absurd (hk1.symm.trans hk3) hfc
          · exact absurd (hk1.symm.trans hk4) hfd
          · simp [hk1, hxF, hft, hfc, hfd, hf64]
          · exact absurd (hk2.symm.trans hk3) (by decide)
          · exact absurd (hk2.symm.trans hk3) (by decide)
          · exact absurd (hk2.symm.trans hk4) (by decide)
          · simp [hk2, hxT, Ne.symm hft]
          · exact absurd (hk3.symm.trans hk4) (by decide)
          · simp [hk3, hxC, Ne.symm hfc]
          · simp [hk4, hxD, Ne.symm hfd]
          · simp [hk1, hk2, hk3, hk4, hk64]
        · have h1k : ¬ k = mv.fromSq := by omega
          have hnk : ¬ k < 64 := by omega
          simp only [testBit_or_shift, testBit_and_cmask _ _ _ hf64,
            testBit_and_cmask _ _ _ (by decide : (2 : Nat) < 64),
            testBit_and_cmask _ _ _ (by decide : (0 : Nat) < 64),
            testBit_and_cmask _ _ _ (by decide : (3 : Nat) < 64),
            Nat.testBit_or, Nat.testBit_and, Nat.testBit_xor, testBit_one_shiftLeft,
            testBit_mask64]
          simp [h1k, hnk, testBit_high _ k hx hk64,
            show ¬ k = (2 : Nat) from by omega, show ¬ k = (0 : Nat) from by omega,
            show ¬ k = (3 : Nat) from by omega]
      · simp only [if_neg hp1, if_neg hp2]
        have hx := hbnd s p
        have hxF : (bbOf b s p).testBit mv.fromSq = false := honly_from.2 s p hp1
        have hxT : (bbOf b s p).testBit (2 : Nat) = false := hto_empty s p
        have hxC : (bbOf b s p).testBit (0 : Nat) = false := hrk.2 s p hp2
        have hxD : (bbOf b s p).testBit (3 : Nat) = false := hempd s p
        rw [clear_noop _ _ hx hxF, clear_noop _ _ hx hxC, clear_noop _ _ hx hxT,
          clear_noop _ _ hx hxD]
    · rw [ht] at hft hto_empty hepne hocc hcast
      rw [hsw] at honly_from hocc
      simp only [WHITE, BLACK] at hocc
      rw [hcast.1] at honly_from
      rw [ht]
      rw [if_neg (by decide), if_pos (by decide)]
      simp only [Option.some_bind]
      rw [unmake_pre_side, hside1, Bool.not_not, hsw]
      simp [WHITE, BLACK]
      refine board_eq_of_bbOf _ _ (fun s p => ?_) (by simp [unmake_pre_en_passant, huep])
        (by simp [unmake_pre_castling_rights, hucr]) (by simp [unmake_pre_side, hside1])
        (by simp [unmake_pre_halfmove, huhm]) (by simp [unmake_pre_fullmove, hufm])
      rw [bbOf_set_square, bbOf_clear_square, bbOf_unmake_pre, make_move_bbOf b mv b1 u h]
      clear h
      have hcC : corner_of (62 : Nat) = 63 := rfl
      have hdD : rook_dest_of (62 : Nat) = 61 := rfl
      simp only [clear_square_side_to_move, unmake_pre_side, hside1, Bool.not_not, hsw,
        hocc, hcapn, hec, hpn, hepne, ht, hcast.1, hcast.2, hcC, hdD, WHITE, BLACK,
        Bool.false_eq_true, Bool.true_eq_false, eq_self_iff_true, and_true, true_and,
        and_self, if_true, if_false]
      by_cases hp1 : s = false ∧ p = PieceType.King <;>
        by_cases hp2 : s = false ∧ p = PieceType.Rook
      · exact absurd (hp1.2.symm.trans hp2.2) (by decide)
      · simp only [if_pos hp1, if_neg hp2]
        have hx := hbnd s p
        have hxF : (bbOf b s p).testBit mv.fromSq = true := by
          rw [hp1.1, hp1.2]
          exact honly_from.1
        have hxT : (bbOf b s p).testBit (62 : Nat) = false := hto_empty s p
        have hxC : (bbOf b s p).testBit (63 : Nat) = false := hrk.2 s p (by simp [hp1.2])
        have hxD : (bbOf b s p).testBit (61 : Nat) = false := hempd s p
        apply Nat.eq_of_testBit_eq
        intro k
        rcases Nat.lt_or_ge k 64 with hk64 | hk64
        · simp only [testBit_or_shift, testBit_and_cmask _ _ _ hf64,
            testBit_and_cmask _ _ _ (by decide : (62 : Nat) < 64),
            testBit_and_cmask _ _ _ (by decide : (63 : Nat) < 64),
            testBit_and_cmask _ _ _ (by decide : (61 : Nat) < 64),
            Nat.testBit_or, Nat.testBit_and, Nat.testBit_xor, testBit_one_shiftLeft,
            testBit_mask64]
          by_cases hk1 : k = mv.fromSq <;> by_cases hk2 : k = (62 : Nat) <;>
            by_cases hk3 : k = (63 : Nat) <;> by_cases hk4 : k = (61 : Nat)
          · exact absurd (hk1.symm.trans hk2) hft
          · exact absurd (hk1.symm.trans hk2) hft
          · exact absurd (hk1.symm.trans hk2) hft
          · exact absurd (hk1.symm.trans hk2) hft
          · exact absurd (hk1.symm.trans hk3) hfc
          · exact absurd (hk1.symm.trans hk3) hfc
          · exact absurd (hk1.symm.trans hk4) hfd
          · simp [hk1, hxF, hft, hfc, hfd, hf64]
          · exact absurd (hk2.symm.trans hk3) (by decide)
          · exact absurd (hk2.symm.trans hk3) (by decide)
          · exact absurd (hk2.symm.trans hk4) (by decide)
          · simp [hk2, hxT, Ne.symm hft]
          · exact absurd (hk3.symm.trans hk4) (by decide)
          · simp [hk3, hxC, Ne.symm hfc]
          · simp [hk4, hxD, Ne.symm hfd]
          · simp [hk1, hk2, hk3, hk4, hk64]
        · have h1k : ¬ k = mv.fromSq := by omega
          have hnk : ¬ k < 64 := by omega
          simp only [testBit_or_shift, testBit_and_cmask _ _ _ hf64,
            testBit_and_cmask _ _ _ (by decide : (62 : Nat) < 64),
            testBit_and_cmask _ _ _ (by decide : (63 : Nat) < 64),
            testBit_and_cmask _ _ _ (by decide : (61 : Nat) < 64),
            Nat.testBit_or, Nat.testBit_and, Nat.testBit_xor, testBit_one_shiftLeft,
            testBit_mask64]
          simp [h1k, hnk, testBit_high _ k hx hk64,
            show ¬ k = (62 : Nat) from by omega, show ¬ k = (63 : Nat) from by omega,
            show ¬ k = (61 : Nat) from by omega]
      · simp only [if_neg hp1, if_pos hp2]
        have hx := hbnd s p
        have hxF : (bbOf b s p).testBit mv.fromSq = false :=
          honly_from.2 s p (by simp [hp2.2])
        have hxT : (bbOf b s p).testBit (62 : Nat) = false := hto_empty s p
        have hxC : (bbOf b s p).testBit (63 : Nat) = true := by
          rw [hp2.1, hp2.2]
          exact hrk.1
        have hxD : (bbOf b s p).testBit (61 : Nat) = false := hempd s p
        apply Nat.eq_of_testBit_eq
        intro k
        rcases Nat.lt_or_ge k 64 with hk64 | hk64
        · simp only [testBit_or_shift, testBit_and_cmask _ _ _ hf64,
            testBit_and_cmask _ _ _ (by decide : (62 : Nat) < 64),
            testBit_and_cmask _ _ _ (by decide : (63 : Nat) < 64),
            testBit_and_cmask _ _ _ (by decide : (61 : Nat) < 64),
            Nat.testBit_or, Nat.testBit_and, Nat.testBit_xor, testBit_one_shiftLeft,
            testBit_mask64]
          by_cases hk1 : k = mv.fromSq <;> by_cases hk2 : k = (62 : Nat) <;>
            by_cases hk3 : k = (63 : Nat) <;> by_cases hk4 : k = (61 : Nat)
          · exact absurd (hk1.symm.trans hk2) hft
          · exact absurd (hk1.symm.trans hk2) hft
          · exact absurd (hk1.symm.trans hk2) hft
          · exact absurd (hk1.symm.trans hk2) hft
          · exact absurd (hk1.symm.trans hk3) hfc
          · exact absurd (hk1.symm.trans hk3) hfc
          · exact absurd (hk1.symm.trans hk4) hfd
          · simp [hk1, hxF, hft, hfc, hfd, hf64]
          · exact absurd (hk2.symm.trans hk3) (by decide)
          · exact absurd (hk2.symm.trans hk3) (by decide)
          · exact absurd (hk2.symm.trans hk4) (by decide)
          · simp [hk2, hxT, Ne.symm hft]
          · exact absurd (hk3.symm.trans hk4) (by decide)
          · simp [hk3, hxC, Ne.symm hfc]
          · simp [hk4, hxD, Ne.symm hfd]
          · simp [hk1, hk2, hk3, hk4, hk64]
        · have h1k : ¬ k = mv.fromSq := by omega
          have hnk : ¬ k < 64 := by omega
          simp only [testBit_or_shift, testBit_and_cmask _ _ _ hf64,
            testBit_and_cmask _ _ _ (by decide : (62 : Nat) < 64),
            testBit_and_cmask _ _ _ (by decide : (63 : Nat) < 64),
            testBit_and_cmask _ _ _ (by decide : (61 : Nat) < 64),
            Nat.testBit_or, Nat.testBit_and, Nat.testBit_xor, testBit_one_shiftLeft,
            testBit_mask64]
          simp [h1k, hnk, testBit_high _ k hx hk64,
            show ¬ k = (62 : Nat) from by omega, show ¬ k = (63 : Nat) from by omega,
            show ¬ k = (61 : Nat) from by omega]
      · simp only [if_neg hp1, if_neg hp2]
        have hx := hbnd s p
        have hxF : (bbOf b s p).testBit mv.fromSq = false := honly_from.2 s p hp1
        have hxT : (bbOf b s p).testBit (62 : Nat) = false := hto_empty s p
        have hxC : (bbOf b s p).testBit (63 : Nat) = false := hrk.2 s p hp2
        have hxD : (bbOf b s p).testBit (61 : Nat) = false := hempd s p
        rw [clear_noop _ _ hx hxF, clear_noop _ _ hx hxC, clear_noop _ _ hx hxT,
          clear_noop _ _ hx hxD]
    · rw [ht] at hft hto_empty hepne hocc hcast
      rw [hsw] at honly_from hocc
      simp only [WHITE, BLACK] at hocc
      rw [hcast.1] at honly_from
      rw [ht]
      rw [if_pos (by decide)]
      simp only [Option.some_bind]
      rw [unmake_pre_side, hside1, Bool.not_not, hsw]
      simp [WHITE, BLACK]
      refine board_eq_of_bbOf _ _ (fun s p => ?_) (by simp [unmake_pre_en_passant, huep])
        (by simp [unmake_pre_castling_rights, hucr]) (by simp [unmake_pre_side, hside1])
        (by simp [unmake_pre_halfmove, huhm]) (by simp [unmake_pre_fullmove, hufm])
      rw [bbOf_set_square, bbOf_clear_square, bbOf_unmake_pre, make_move_bbOf b mv b1 u h]
      clear h
      have hcC : corner_of (58 : Nat) = 56 := rfl
      have hdD : rook_dest_of (58 : Nat) = 59 := rfl
      simp only [clear_square_side_to_move, unmake_pre_side, hside1, Bool.not_not, hsw,
        hocc, hcapn, hec, hpn, hepne, ht, hcast.1, hcast.2, hcC, hdD, WHITE, BLACK,
        Bool.false_eq_true, Bool.true_eq_false, eq_self_iff_true, and_true, true_and,
        and_self, if_true, if_false]
      by_cases hp1 : s = false ∧ p = PieceType.King <;>
        by_cases hp2 : s = false ∧ p = PieceType.Rook
      · exact absurd (hp1.2.symm.trans hp2.2) (by decide)
      · simp only [if_pos hp1, if_neg hp2]
        have hx := hbnd s p
        have hxF : (bbOf b s p).testBit mv.fromSq = true := by
          rw [hp1.1, hp1.2]
          exact honly_from.1
        have hxT : (bbOf b s p).testBit (58 : Nat) = false := hto_empty s p
        have hxC : (bbOf b s p).testBit (56 : Nat) = false := hrk.2 s p (by simp [hp1.2])
        have hxD : (bbOf b s p).testBit (59 : Nat) = false := hempd s p
        apply Nat.eq_of_testBit_eq
        intro k
        rcases Nat.lt_or_ge k 64 with hk64 | hk64
        · simp only [testBit_or_shift, testBit_and_cmask _ _ _ hf64,
            testBit_and_cmask _ _ _ (by decide : (58 : Nat) < 64),
            testBit_and_cmask _ _ _ (by decide : (56 : Nat) < 64),
            testBit_and_cmask _ _ _ (by decide : (59 : Nat) < 64),
            Nat.testBit_or, Nat.testBit_and, Nat.testBit_xor, testBit_one_shiftLeft,
            testBit_mask64]
          by_cases hk1 : k = mv.fromSq <;> by_cases hk2 : k = (58 : Nat) <;>
            by_cases hk3 : k = (56 : Nat) <;> by_cases hk4 : k = (59 : Nat)
          · exact absurd (hk1.symm.trans hk2) hft
          · exact absurd (hk1.symm.trans hk2) hft
          · exact absurd (hk1.symm.trans hk2) hft
          · exact absurd (hk1.symm.trans hk2) hft
          · exact absurd (hk1.symm.trans hk3) hfc
          · exact absurd (hk1.symm.trans hk3) hfc
          · exact absurd (hk1.symm.trans hk4) hfd
          · simp [hk1, hxF, hft, hfc, hfd, hf64]
          · exact absurd (hk2.symm.trans hk3) (by decide)
          · exact absurd (hk2.symm.trans hk3) (by decide)
          · exact absurd (hk2.symm.trans hk4) (by decide)
          · simp [hk2, hxT, Ne.symm hft]
          · exact absurd (hk3.symm.trans hk4) (by decide)
          · simp [hk3, hxC, Ne.symm hfc]
          · simp [hk4, hxD, Ne.symm hfd]
          · simp [hk1, hk2, hk3, hk4, hk64]
        · have h1k : ¬ k = mv.fromSq := by omega
          have hnk : ¬ k < 64 := by omega
          simp only [testBit_or_shift, testBit_and_cmask _ _ _ hf64,
            testBit_and_cmask _ _ _ (by decide : (58 : Nat) < 64),
            testBit_and_cmask _ _ _ (by decide : (56 : Nat) < 64),
            testBit_and_cmask _ _ _ (by decide : (59 : Nat) < 64),
            Nat.testBit_or, Nat.testBit_and, Nat.testBit_xor, testBit_one_shiftLeft,
            testBit_mask64]
          simp [h1k, hnk, testBit_high _ k hx hk64,
            show ¬ k = (58 : Nat) from by omega, show ¬ k = (56 : Nat) from by omega,
            show ¬ k = (59 : Nat) from by omega]
      · simp only [if_neg hp1, if_pos hp2]
        have hx := hbnd s p
        have hxF : (bbOf b s p).testBit mv.fromSq = false :=
          honly_from.2 s p (by simp [hp2.2])
        have hxT : (bbOf b s p).testBit (58 : Nat) = false := hto_empty s p
        have hxC : (bbOf b s p).testBit (56 : Nat) = true := by
          rw [hp2.1, hp2.2]
          exact hrk.1
        have hxD : (bbOf b s p).testBit (59 : Nat) = false := hempd s p
        apply Nat.eq_of_testBit_eq
        intro k
        rcases Nat.lt_or_ge k 64 with hk64 | hk64
        · simp only [testBit_or_shift, testBit_and_cmask _ _ _ hf64,
            testBit_and_cmask _ _ _ (by decide : (58 : Nat) < 64),
            testBit_and_cmask _ _ _ (by decide : (56 : Nat) < 64),
            testBit_and_cmask _ _ _ (by decide : (59 : Nat) < 64),
            Nat.testBit_or, Nat.testBit_and, Nat.testBit_xor, testBit_one_shiftLeft,
            testBit_mask64]
          by_cases hk1 : k = mv.fromSq <;> by_cases hk2 : k = (58 : Nat) <;>
            by_cases hk3 : k = (56 : Nat) <;> by_cases hk4 : k = (59 : Nat)
          · exact absurd (hk1.symm.trans hk2) hft
          · exact absurd (hk1.symm.trans hk2) hft
          · exact absurd (hk1.symm.trans hk2) hft
          · exact absurd (hk1.symm.trans hk2) hft
          · exact absurd (hk1.symm.trans hk3) hfc
          · exact absurd (hk1.symm.trans hk3) hfc
          · exact absurd (hk1.symm.trans hk4) hfd
          · simp [hk1, hxF, hft, hfc, hfd, hf64]
          · exact absurd (hk2.symm.trans hk3) (by decide)
          · exact absurd (hk2.symm.trans hk3) (by decide)
          · exact absurd (hk2.symm.trans hk4) (by decide)
          · simp [hk2, hxT, Ne.symm hft]
          · exact absurd (hk3.symm.trans hk4) (by decide)
          · simp [hk3, hxC, Ne.symm hfc]
          · simp [hk4, hxD, Ne.symm hfd]
          · simp [hk1, hk2, hk3, hk4, hk64]
        · have h1k : ¬ k = mv.fromSq := by omega
          have hnk : ¬ k < 64 := by omega
          simp only [testBit_or_shift, testBit_and_cmask _ _ _ hf64,
            testBit_and_cmask _ _ _ (by decide : (58 : Nat) < 64),
            testBit_and_cmask _ _ _ (by decide : (56 : Nat) < 64),
            testBit_and_cmask _ _ _ (by decide : (59 : Nat) < 64),
            Nat.testBit_or, Nat.testBit_and, Nat.testBit_xor, testBit_one_shiftLeft,
            testBit_mask64]
          simp [h1k, hnk, testBit_high _ k hx hk64,
            show ¬ k = (58 : Nat) from by omega, show ¬ k = (56 : Nat) from by omega,
            show ¬ k = (59 : Nat) from by omega]
      · simp only [if_neg hp1, if_neg hp2]
        have hx := hbnd s p
        have hxF : (bbOf b s p).testBit mv.fromSq = false := honly_from.2 s p hp1
        have hxT : (bbOf b s p).testBit (58 : Nat) = false := hto_empty s p
        have hxC : (bbOf b s p).testBit (56 : Nat) = false := hrk.2 s p hp2
        have hxD : (bbOf b s p).testBit (59 : Nat) = false := hempd s p
        rw [clear_noop _ _ hx hxF, clear_noop _ _ hx hxC, clear_noop _ _ hx hxT,
          clear_noop _ _ hx hxD]
  · rw [if_neg hcast]
    congr 1
    refine board_eq_of_bbOf _ _ ?_ (by rw [unmake_pre_en_passant, huep])
      (by rw [unmake_pre_castling_rights, hucr])
      (by rw [unmake_pre_side, hside1, Bool.not_not])
      (by rw [unmake_pre_halfmove, huhm]) (by rw [unmake_pre_fullmove, hufm])
    intro s p
    rw [bbOf_unmake_pre, make_move_bbOf b mv b1 u h]
    clear h
    simp only [hside1, Bool.not_not, huep, if_neg hcast]
    by_cases hepto : b.en_passant = some mv.toSq
    · -- the to-square is the en-passant target: classes E and F
      obtain ⟨hto_empty, hrW, hrB, honly_behind, hbne⟩ := hep_cl hepto
      have hocc : b.is_occupied_by_opponent mv.toSq b.side_to_move = false :=
        is_occ_opp_of_empty _ _ _ hto_empty
      have hpn : mv.promotion = none := by
        rcases hpromo_ep with hpn | hne
        · exact hpn
        · exact absurd hepto hne
      simp only [hocc, Bool.false_eq_true, if_false, hpn, if_pos (Eq.symm hepto)]
      cases hs0 : b.side_to_move
      · -- side to move is Black
        have hr : 16 ≤ mv.toSq ∧ mv.toSq < 24 := hrB (by rw [hs0]; rfl)
        have hb64 : mv.toSq + 8 < 64 := by omega
        rw [hs0] at honly_behind hbne honly_from
        simp only [ep_behind_black, ep_behind_white, WHITE, BLACK, Bool.not_false, Bool.not_true] at honly_behind hbne ⊢
        by_cases hptP : mv.piece_type = PieceType.Pawn
        · -- class E: en-passant capture by a pawn
          have hec : ep_clear_cond b mv :=
            ⟨hptP, (fun hx => by rw [hs0] at hx; exact absurd hx.1 (by decide)), (fun hx => by
              have h2 := hx.2.2
              unfold get_rank at h2
              omega), hepto⟩
          simp only [hptP, if_pos hec, hs0, ep_behind_black, ep_behind_white, WHITE, BLACK,
            Bool.not_false, Bool.not_true, Bool.false_eq_true, Bool.true_eq_false,
            true_and, if_true, if_false, eq_self_iff_true]
          by_cases hp1 : s = false ∧ p = PieceType.Pawn <;>
            by_cases hp2 : s = true ∧ p = PieceType.Pawn
          · exact absurd (hp1.1.symm.trans hp2.1) (by simp [hp1.1])
          · rw [if_pos hp1, if_neg hp2, if_pos hp1]
            have hx := hbnd s p
            have hxF : (bbOf b s p).testBit mv.fromSq = true := by
              rw [hp1.1, hp1.2]
              have h2 := honly_from.1
              rw [hptP] at h2
              exact h2
            have hxT := hto_empty s p
            have hxB : (bbOf b s p).testBit (mv.toSq + 8) = false :=
              honly_behind.2 s p (by simp [hp1.1])
            apply Nat.eq_of_testBit_eq
            intro k
            rcases Nat.lt_or_ge k 64 with hk64 | hk64
            · simp only [testBit_or_shift, testBit_and_cmask _ _ _ hf64,
                testBit_and_cmask _ _ _ ht64, testBit_and_cmask _ _ _ hb64,
                Nat.testBit_or, Nat.testBit_and, Nat.testBit_xor, testBit_one_shiftLeft,
                testBit_mask64]
              by_cases hk1 : k = mv.fromSq <;> by_cases hk2 : k = mv.toSq <;>
                by_cases hk3 : k = mv.toSq + 8 <;> simp_all +decide
            · have h1k : ¬ k = mv.fromSq := by omega
              have h2k : ¬ k = mv.toSq := by omega
              have h3k : ¬ k = mv.toSq + 8 := by omega
              have h4k : ¬ k < 64 := by omega
              simp only [testBit_or_shift, testBit_and_cmask _ _ _ hf64,
                testBit_and_cmask _ _ _ ht64, testBit_and_cmask _ _ _ hb64,
                Nat.testBit_or, Nat.testBit_and, Nat.testBit_xor, testBit_one_shiftLeft,
                testBit_mask64]
              simp [h1k, h2k, h3k, h4k, testBit_high _ k hx hk64]
          · rw [if_neg hp1, if_pos hp2, if_neg hp1]
            have hx := hbnd s p
            have hxF : (bbOf b s p).testBit mv.fromSq = false :=
              honly_from.2 s p (by simp [hp2.1, hptP])
            have hxT := hto_empty s p
            have hxB : (bbOf b s p).testBit (mv.toSq + 8) = true := by
              rw [hp2.1, hp2.2]
              exact honly_behind.1
            apply Nat.eq_of_testBit_eq
            intro k
            rcases Nat.lt_or_ge k 64 with hk64 | hk64
            · simp only [testBit_or_shift, testBit_and_cmask _ _ _ hf64,
                testBit_and_cmask _ _ _ ht64, testBit_and_cmask _ _ _ hb64,
                Nat.testBit_or, Nat.testBit_and, Nat.testBit_xor, testBit_one_shiftLeft,
                testBit_mask64]
              by_cases hk1 : k = mv.fromSq <;> by_cases hk2 : k = mv.toSq <;>
                by_cases hk3 : k = mv.toSq + 8 <;> simp_all +decide
            · have h1k : ¬ k = mv.fromSq := by omega
              have h2k : ¬ k = mv.toSq := by omega
              have h3k : ¬ k = mv.toSq + 8 := by omega
              have h4k : ¬ k < 64 := by omega
              simp only [testBit_or_shift, testBit_and_cmask _ _ _ hf64,
                testBit_and_cmask _ _ _ ht64, testBit_and_cmask _ _ _ hb64,
                Nat.testBit_or, Nat.testBit_and, Nat.testBit_xor, testBit_one_shiftLeft,
                testBit_mask64]
              simp [h1k, h2k, h3k, h4k, testBit_high _ k hx hk64]
          · rw [if_neg hp1, if_neg hp2, if_neg hp1]
            have hx := hbnd s p
            have hxF : (bbOf b s p).testBit mv.fromSq = false :=
              honly_from.2 s p (by rw [hptP]; exact hp1)
            have hxT := hto_empty s p
            have hxB : (bbOf b s p).testBit (mv.toSq + 8) = false := honly_behind.2 s p hp2
            rw [clear_noop _ _ hx hxF, clear_noop _ _ hx hxB, clear_noop _ _ hx hxT]
        · -- class F: a non-pawn lands on the en-passant target
          have hec : ¬ ep_clear_cond b mv := fun hx => hptP hx.1
          have hcapn : u.captured_piece = none := by
            rw [hucap, if_neg (by simp [hocc]), if_neg (fun hx => hptP hx.1)]
          simp only [if_neg hec, hcapn, hs0, ep_behind_black, ep_behind_white, WHITE, BLACK,
            Bool.not_false, Bool.not_true, Bool.false_eq_true, Bool.true_eq_false,
            true_and, if_true, if_false, eq_self_iff_true]
          by_cases hp1 : s = false ∧ p = mv.piece_type <;>
            by_cases hp2 : s = true ∧ p = PieceType.Pawn
          · exact absurd (hp1.1.symm.trans hp2.1) (by simp [hp1.1])
          · rw [if_pos hp1, if_neg hp2, if_pos hp1]
            have hx := hbnd s p
            have hxF : (bbOf b s p).testBit mv.fromSq = true := by
              rw [hp1.1, hp1.2]
              exact honly_from.1
            have hxT := hto_empty s p
            apply Nat.eq_of_testBit_eq
            intro k
            rcases Nat.lt_or_ge k 64 with hk64 | hk64
            · simp only [testBit_or_shift, testBit_and_cmask _ _ _ hf64,
                testBit_and_cmask _ _ _ ht64, Nat.testBit_or, Nat.testBit_and,
                Nat.testBit_xor, testBit_one_shiftLeft, testBit_mask64]
              by_cases hk1 : k = mv.fromSq <;> by_cases hk2 : k = mv.toSq
              · exact absurd (hk1.symm.trans hk2) hft
              · simp [hk1, hk2, hxF, hf64, hft]
              · simp [hk1, hk2, hxT, ht64, Ne.symm hft]
              · simp [hk1, hk2, hk64]
            · have h1k : ¬ k = mv.fromSq := by omega
              have h2k : ¬ k = mv.toSq := by omega
              have h4k : ¬ k < 64 := by omega
              simp only [testBit_or_shift, testBit_and_cmask _ _ _ hf64,
                testBit_and_cmask _ _ _ ht64, Nat.testBit_or, Nat.testBit_and,
                Nat.testBit_xor, testBit_one_shiftLeft, testBit_mask64]
              simp [h1k, h2k, h4k, testBit_high _ k hx hk64]
          · rw [if_neg hp1, if_pos hp2, if_neg hp1]
            have hx := hbnd s p
            have hxF : (bbOf b s p).testBit mv.fromSq = false :=
              honly_from.2 s p (by simp [hp2.1])
            have hxT := hto_empty s p
            have hxB : (bbOf b s p).testBit (mv.toSq + 8) = true := by
              rw [hp2.1, hp2.2]
              exact honly_behind.1
            rw [clear_noop _ _ hx hxF, clear_noop _ _ hx hxT, set_noop _ _ hxB]
          · rw [if_neg hp1, if_neg hp2, if_neg hp1]
            have hx := hbnd s p
            have hxF : (bbOf b s p).testBit mv.fromSq = false := honly_from.2 s p hp1
            have hxT := hto_empty s p
            rw [clear_noop _ _ hx hxF, clear_noop _ _ hx hxT]
      · -- side to move is White
        have hr : 40 ≤ mv.toSq ∧ mv.toSq < 48 := hrW (by rw [hs0]; rfl)
        have hb64 : mv.toSq - 8 < 64 := by omega
        rw [hs0] at honly_behind hbne honly_from
        simp only [ep_behind_black, ep_behind_white, WHITE, BLACK, Bool.not_false, Bool.not_true] at honly_behind hbne ⊢
        by_cases hptP : mv.piece_type = PieceType.Pawn
        · -- class E: en-passant capture by a pawn
          have hec : ep_clear_cond b mv :=
            ⟨hptP, (fun hx => by
              have h2 := hx.2.2
              unfold get_rank at h2
              omega), (fun hx => by rw [hs0] at hx; exact absurd hx.1 (by decide)), hepto⟩
          simp only [hptP, if_pos hec, hs0, ep_behind_black, ep_behind_white, WHITE, BLACK,
            Bool.not_false, Bool.not_true, Bool.false_eq_true, Bool.true_eq_false,
            true_and, if_true, if_false, eq_self_iff_true]
          by_cases hp1 : s = true ∧ p = PieceType.Pawn <;>
            by_cases hp2 : s = false ∧ p = PieceType.Pawn
          · exact absurd (hp1.1.symm.trans hp2.1) (by simp [hp1.1])
          · rw [if_pos hp1, if_neg hp2, if_pos hp1]
            have hx := hbnd s p
            have hxF : (bbOf b s p).testBit mv.fromSq = true := by
              rw [hp1.1, hp1.2]
              have h2 := honly_from.1
              rw [hptP] at h2
              exact h2
            have hxT := hto_empty s p
            have hxB : (bbOf b s p).testBit (mv.toSq - 8) = false :=
              honly_behind.2 s p (by simp [hp1.1])
            apply Nat.eq_of_testBit_eq
            intro k
            rcases Nat.lt_or_ge k 64 with hk64 | hk64
            · simp only [testBit_or_shift, testBit_and_cmask _ _ _ hf64,
                testBit_and_cmask _ _ _ ht64, testBit_and_cmask _ _ _ hb64,
                Nat.testBit_or, Nat.testBit_and, Nat.testBit_xor, testBit_one_shiftLeft,
                testBit_mask64]
              by_cases hk1 : k = mv.fromSq <;> by_cases hk2 : k = mv.toSq <;>
                by_cases hk3 : k = mv.toSq - 8 <;> simp_all +decide
            · have h1k : ¬ k = mv.fromSq := by omega
              have h2k : ¬ k = mv.toSq := by omega
              have h3k : ¬ k = mv.toSq - 8 := by omega
              have h4k : ¬ k < 64 := by omega
              simp only [testBit_or_shift, testBit_and_cmask _ _ _ hf64,
                testBit_and_cmask _ _ _ ht64, testBit_and_cmask _ _ _ hb64,
                Nat.testBit_or, Nat.testBit_and, Nat.testBit_xor, testBit_one_shiftLeft,
                testBit_mask64]
              simp [h1k, h2k, h3k, h4k, testBit_high _ k hx hk64]
          · rw [if_neg hp1, if_pos hp2, if_neg hp1]
            have hx := hbnd s p
            have hxF : (bbOf b s p).testBit mv.fromSq = false :=
              honly_from.2 s p (by simp [hp2.1, hptP])
            have hxT := hto_empty s p
            have hxB : (bbOf b s p).testBit (mv.toSq - 8) = true := by
              rw [hp2.1, hp2.2]
              exact honly_behind.1
            apply Nat.eq_of_testBit_eq
            intro k
            rcases Nat.lt_or_ge k 64 with hk64 | hk64
            · simp only [testBit_or_shift, testBit_and_cmask _ _ _ hf64,
                testBit_and_cmask _ _ _ ht64, testBit_and_cmask _ _ _ hb64,
                Nat.testBit_or, Nat.testBit_and, Nat.testBit_xor, testBit_one_shiftLeft,
                testBit_mask64]
              by_cases hk1 : k = mv.fromSq <;> by_cases hk2 : k = mv.toSq <;>
                by_cases hk3 : k = mv.toSq - 8 <;> simp_all +decide
            · have h1k : ¬ k = mv.fromSq := by omega
              have h2k : ¬ k = mv.toSq := by omega
              have h3k : ¬ k = mv.toSq - 8 := by omega
              have h4k : ¬ k < 64 := by omega
              simp only [testBit_or_shift, testBit_and_cmask _ _ _ hf64,
                testBit_and_cmask _ _ _ ht64, testBit_and_cmask _ _ _ hb64,
                Nat.testBit_or, Nat.testBit_and, Nat.testBit_xor, testBit_one_shiftLeft,
                testBit_mask64]
              simp [h1k, h2k, h3k, h4k, testBit_high _ k hx hk64]
          · rw [if_neg hp1, if_neg hp2, if_neg hp1]
            have hx := hbnd s p
            have hxF : (bbOf b s p).testBit mv.fromSq = false :=
              honly_from.2 s p (by rw [hptP]; exact hp1)
            have hxT := hto_empty s p
            have hxB : (bbOf b s p).testBit (mv.toSq - 8) = false := honly_behind.2 s p hp2
            rw [clear_noop _ _ hx hxF, clear_noop _ _ hx hxB, clear_noop _ _ hx hxT]
        · -- class F: a non-pawn lands on the en-passant target
          have hec : ¬ ep_clear_cond b mv := fun hx => hptP hx.1
          have hcapn : u.captured_piece = none := by
            rw [hucap, if_neg (by simp [hocc]), if_neg (fun hx => hptP hx.1)]
          simp only [if_neg hec, hcapn, hs0, ep_behind_black, ep_behind_white, WHITE, BLACK,
            Bool.not_false, Bool.not_true, Bool.false_eq_true, Bool.true_eq_false,
            true_and, if_true, if_false, eq_self_iff_true]
          by_cases hp1 : s = true ∧ p = mv.piece_type <;>
            by_cases hp2 : s = false ∧ p = PieceType.Pawn
          · exact absurd (hp1.1.symm.trans hp2.1) (by simp [hp1.1])
          · rw [if_pos hp1, if_neg hp2, if_pos hp1]
            have hx := hbnd s p
            have hxF : (bbOf b s p).testBit mv.fromSq = true := by
              rw [hp1.1, hp1.2]
              exact honly_from.1
            have hxT := hto_empty s p
            apply Nat.eq_of_testBit_eq
            intro k
            rcases Nat.lt_or_ge k 64 with hk64 | hk64
            · simp only [testBit_or_shift, testBit_and_cmask _ _ _ hf64,
                testBit_and_cmask _ _ _ ht64, Nat.testBit_or, Nat.testBit_and,
                Nat.testBit_xor, testBit_one_shiftLeft, testBit_mask64]
              by_cases hk1 : k = mv.fromSq <;> by_cases hk2 : k = mv.toSq
              · exact absurd (hk1.symm.trans hk2) hft
              · simp [hk1, hk2, hxF, hf64, hft]
              · simp [hk1, hk2, hxT, ht64, Ne.symm hft]
              · simp [hk1, hk2, hk64]
            · have h1k : ¬ k = mv.fromSq := by omega
              have h2k : ¬ k = mv.toSq := by omega
              have h4k : ¬ k < 64 := by omega
              simp only [testBit_or_shift, testBit_and_cmask _ _ _ hf64,
                testBit_and_cmask _ _ _ ht64, Nat.testBit_or, Nat.testBit_and,
                Nat.testBit_xor, testBit_one_shiftLeft, testBit_mask64]
              simp [h1k, h2k, h4k, testBit_high _ k hx hk64]
          · rw [if_neg hp1, if_pos hp2, if_neg hp1]
            have hx := hbnd s p
            have hxF : (bbOf b s p).testBit mv.fromSq = false :=
              honly_from.2 s p (by simp [hp2.1])
            have hxT := hto_empty s p
            have hxB : (bbOf b s p).testBit (mv.toSq - 8) = true := by
              rw [hp2.1, hp2.2]
              exact honly_behind.1
            rw [clear_noop _ _ hx hxF, clear_noop _ _ hx hxT, set_noop _ _ hxB]
          · rw [if_neg hp1, if_neg hp2, if_neg hp1]
            have hx := hbnd s p
            have hxF : (bbOf b s p).testBit mv.fromSq = false := honly_from.2 s p hp1
            have hxT := hto_empty s p
            rw [clear_noop _ _ hx hxF, clear_noop _ _ hx hxT]
    · -- the to-square is not the en-passant target: classes A, B, C, D
      have hec : ¬ ep_clear_cond b mv := fun hx => hepto hx.2.2.2
      have hepne : ¬ (some mv.toSq = b.en_passant) := fun hx => hepto hx.symm
      simp only [if_neg hec, if_neg hepne]
      cases hocc : b.is_occupied_by_opponent mv.toSq b.side_to_move
      · -- no capture
        have hcapn : u.captured_piece = none := by
          rw [hucap, if_neg (by simp [hocc]), if_neg (fun hx => hepto hx.2)]
        simp only [hocc, hcapn, if_false, Bool.false_eq_true]
        have hto_empty : empty_at b mv.toSq := by
          rcases hto_disj with he | h1 | h1 | h1 | h1 | h1 | h1
          · exact he
          all_goals exact absurd (is_occ_opp_of_only_opp _ _ _ _ h1) (by simp [hocc])
        rcases hpr : mv.promotion with _ | pr
        · -- class A: quiet move
          by_cases hsp : s = b.side_to_move ∧ p = mv.piece_type
          · rw [if_pos hsp, if_pos hsp]
            have hx := hbnd s p
            have hxF : (bbOf b s p).testBit mv.fromSq = true := by
              rw [hsp.1, hsp.2]
              exact honly_from.1
            have hxT := hto_empty s p
            apply Nat.eq_of_testBit_eq
            intro k
            rcases Nat.lt_or_ge k 64 with hk64 | hk64
            · simp only [testBit_or_shift, testBit_and_cmask _ _ _ hf64,
                testBit_and_cmask _ _ _ ht64, Nat.testBit_or, Nat.testBit_and,
                Nat.testBit_xor, testBit_one_shiftLeft, testBit_mask64]
              by_cases hk1 : k = mv.fromSq <;> by_cases hk2 : k = mv.toSq <;>
                simp_all
            · have h1 : ¬ k = mv.fromSq := by omega
              have h2 : ¬ k = mv.toSq := by omega
              have h4 : ¬ k < 64 := by omega
              simp only [testBit_or_shift, testBit_and_cmask _ _ _ hf64,
                testBit_and_cmask _ _ _ ht64, Nat.testBit_or, Nat.testBit_and,
                Nat.testBit_xor, testBit_one_shiftLeft, testBit_mask64]
              simp [h1, h2, h4, testBit_high _ k hx hk64]
          · rw [if_neg hsp, if_neg hsp]
            have hx := hbnd s p
            have hxF : (bbOf b s p).testBit mv.fromSq = false := honly_from.2 s p hsp
            have hxT := hto_empty s p
            rw [clear_noop _ _ hx hxF, clear_noop _ _ hx hxT]
        · -- class C: promotion without capture
          simp only []
          obtain ⟨hptP, hprv⟩ := hpromo pr hpr
          have hprP : pr ≠ PieceType.Pawn := by
            rcases hprv with hq | hq | hq | hq <;> subst hq <;> simp
          by_cases hp1 : s = b.side_to_move ∧ p = mv.piece_type <;>
            by_cases hp4 : s = b.side_to_move ∧ p = pr
          · exact absurd (by rw [← hp4.2, hp1.2, hptP]) hprP
          · rw [if_pos hp1, if_neg hp4, if_pos hp1]
            have hx := hbnd s p
            have hxF : (bbOf b s p).testBit mv.fromSq = true := by
              rw [hp1.1, hp1.2]
              exact honly_from.1
            have hxT := hto_empty s p
            apply Nat.eq_of_testBit_eq
            intro k
            rcases Nat.lt_or_ge k 64 with hk64 | hk64
            · simp only [testBit_or_shift, testBit_and_cmask _ _ _ hf64,
                testBit_and_cmask _ _ _ ht64, Nat.testBit_or, Nat.testBit_and,
                Nat.testBit_xor, testBit_one_shiftLeft, testBit_mask64]
              by_cases hk1 : k = mv.fromSq <;> by_cases hk2 : k = mv.toSq <;>
                simp_all
            · have h1 : ¬ k = mv.fromSq := by omega
              have h2 : ¬ k = mv.toSq := by omega
              have h4 : ¬ k < 64 := by omega
              simp only [testBit_or_shift, testBit_and_cmask _ _ _ hf64,
                testBit_and_cmask _ _ _ ht64, Nat.testBit_or, Nat.testBit_and,
                Nat.testBit_xor, testBit_one_shiftLeft, testBit_mask64]
              simp [h1, h2, h4, testBit_high _ k hx hk64]
          · rw [if_neg hp1, if_pos hp4, if_neg hp1]
            have hx := hbnd s p
            have hxF : (bbOf b s p).testBit mv.fromSq = false := honly_from.2 s p hp1
            have hxT := hto_empty s p
            apply Nat.eq_of_testBit_eq
            intro k
            rcases Nat.lt_or_ge k 64 with hk64 | hk64
            · simp only [testBit_or_shift, testBit_and_cmask _ _ _ hf64,
                testBit_and_cmask _ _ _ ht64, Nat.testBit_or, Nat.testBit_and,
                Nat.testBit_xor, testBit_one_shiftLeft, testBit_mask64]
              by_cases hk1 : k = mv.fromSq <;> by_cases hk2 : k = mv.toSq <;>
                simp_all
            · have h1 : ¬ k = mv.fromSq := by omega
              have h2 : ¬ k = mv.toSq := by omega
              have h4 : ¬ k < 64 := by omega
              simp only [testBit_or_shift, testBit_and_cmask _ _ _ hf64,
                testBit_and_cmask _ _ _ ht64, Nat.testBit_or, Nat.testBit_and,
                Nat.testBit_xor, testBit_one_shiftLeft, testBit_mask64]
              simp [h1, h2, h4, testBit_high _ k hx hk64]
          · rw [if_neg hp1, if_neg hp4, if_neg hp1]
            have hx := hbnd s p
            have hxF : (bbOf b s p).testBit mv.fromSq = false := honly_from.2 s p hp1
            have hxT := hto_empty s p
            rw [clear_noop _ _ hx hxF, clear_noop _ _ hx hxT,
              clear_noop _ _ hx hxT]
      · -- capture classes: the to-square holds exactly one enemy piece
        have hcapX : ∃ ptc, only_piece_at b mv.toSq (!b.side_to_move) ptc := by
          rcases hto_disj with hemp | h1 | h1 | h1 | h1 | h1 | h1
          · exact absurd (is_occ_opp_of_empty b mv.toSq b.side_to_move hemp)
              (by simp [hocc])
          all_goals exact ⟨_, h1⟩
        obtain ⟨ptc, h1⟩ := hcapX
        have hcap2 : u.captured_piece = some ptc := by
          rw [hucap, if_pos hocc, get_piece_type_of_only _ _ _ _ h1]
        simp only [hocc, hcap2, eq_self_iff_true, if_true]
        rcases hpr : mv.promotion with _ | pr
        · -- class B: plain capture
          simp only []
          by_cases hp1 : s = b.side_to_move ∧ p = mv.piece_type <;>
            by_cases hp3 : s = !b.side_to_move ∧ p = ptc
          · exact absurd (hp1.1.symm.trans hp3.1) (by simp)
          · rw [if_pos hp1, if_neg hp3, if_pos hp1]
            have hx := hbnd s p
            have hxF : (bbOf b s p).testBit mv.fromSq = true := by
              rw [hp1.1, hp1.2]
              exact honly_from.1
            have hxT : (bbOf b s p).testBit mv.toSq = false := h1.2 s p hp3
            apply Nat.eq_of_testBit_eq
            intro k
            rcases Nat.lt_or_ge k 64 with hk64 | hk64
            · simp only [testBit_or_shift, testBit_and_cmask _ _ _ hf64,
                testBit_and_cmask _ _ _ ht64, Nat.testBit_or, Nat.testBit_and,
                Nat.testBit_xor, testBit_one_shiftLeft, testBit_mask64]
              by_cases hk1 : k = mv.fromSq <;> by_cases hk2 : k = mv.toSq <;>
                simp_all
            · have h1k : ¬ k = mv.fromSq := by omega
              have h2k : ¬ k = mv.toSq := by omega
              have h4k : ¬ k < 64 := by omega
              simp only [testBit_or_shift, testBit_and_cmask _ _ _ hf64,
                testBit_and_cmask _ _ _ ht64, Nat.testBit_or, Nat.testBit_and,
                Nat.testBit_xor, testBit_one_shiftLeft, testBit_mask64]
              simp [h1k, h2k, h4k, testBit_high _ k hx hk64]
          · rw [if_neg hp1, if_pos hp3, if_neg hp1]
            have hx := hbnd s p
            have hxF : (bbOf b s p).testBit mv.fromSq = false := honly_from.2 s p hp1
            have hxT : (bbOf b s p).testBit mv.toSq = true := by
              rw [hp3.1, hp3.2]
              exact h1.1
            apply Nat.eq_of_testBit_eq
            intro k
            rcases Nat.lt_or_ge k 64 with hk64 | hk64
            · simp only [testBit_or_shift, testBit_and_cmask _ _ _ hf64,
                testBit_and_cmask _ _ _ ht64, Nat.testBit_or, Nat.testBit_and,
                Nat.testBit_xor, testBit_one_shiftLeft, testBit_mask64]
              by_cases hk1 : k = mv.fromSq <;> by_cases hk2 : k = mv.toSq <;>
                simp_all
            · have h1k : ¬ k = mv.fromSq := by omega
              have h2k : ¬ k = mv.toSq := by omega
              have h4k : ¬ k < 64 := by omega
              simp only [testBit_or_shift, testBit_and_cmask _ _ _ hf64,
                testBit_and_cmask _ _ _ ht64, Nat.testBit_or, Nat.testBit_and,
                Nat.testBit_xor, testBit_one_shiftLeft, testBit_mask64]
              simp [h1k, h2k, h4k, testBit_high _ k hx hk64]
          · rw [if_neg hp1, if_neg hp3, if_neg hp1]
            have hx := hbnd s p
            have hxF : (bbOf b s p).testBit mv.fromSq = false := honly_from.2 s p hp1
            have hxT : (bbOf b s p).testBit mv.toSq = false := h1.2 s p hp3
            rw [clear_noop _ _ hx hxT, clear_noop _ _ hx hxF,
              clear_noop _ _ hx hxT]
        · -- class D: capture with promotion
          simp only []
          obtain ⟨hptP, hprv⟩ := hpromo pr hpr
          have hprP : pr ≠ PieceType.Pawn := by
            rcases hprv with hq | hq | hq | hq <;> subst hq <;> simp
          by_cases hp1 : s = b.side_to_move ∧ p = mv.piece_type <;>
            by_cases hp3 : s = !b.side_to_move ∧ p = ptc <;>
            by_cases hp4 : s = b.side_to_move ∧ p = pr
          · exact absurd (hp1.1.symm.trans hp3.1) (by simp)
          · exact absurd (hp1.1.symm.trans hp3.1) (by simp)
          · exact absurd (by rw [← hp4.2, hp1.2, hptP]) hprP
          · rw [if_pos hp1, if_neg hp3, if_neg hp4, if_pos hp1]
            have hx := hbnd s p
            have hxF : (bbOf b s p).testBit mv.fromSq = true := by
              rw [hp1.1, hp1.2]
              exact honly_from.1
            have hxT : (bbOf b s p).testBit mv.toSq = false := h1.2 s p hp3
            apply Nat.eq_of_testBit_eq
            intro k
            rcases Nat.lt_or_ge k 64 with hk64 | hk64
            · simp only [testBit_or_shift, testBit_and_cmask _ _ _ hf64,
                testBit_and_cmask _ _ _ ht64, Nat.testBit_or, Nat.testBit_and,
                Nat.testBit_xor, testBit_one_shiftLeft, testBit_mask64]
              by_cases hk1 : k = mv.fromSq <;> by_cases hk2 : k = mv.toSq <;>
                simp_all
            · have h1k : ¬ k = mv.fromSq := by omega
              have h2k : ¬ k = mv.toSq := by omega
              have h4k : ¬ k < 64 := by omega
              simp only [testBit_or_shift, testBit_and_cmask _ _ _ hf64,
                testBit_and_cmask _ _ _ ht64, Nat.testBit_or, Nat.testBit_and,
                Nat.testBit_xor, testBit_one_shiftLeft, testBit_mask64]
              simp [h1k, h2k, h4k, testBit_high _ k hx hk64]
          · exact absurd (hp4.1.symm.trans hp3.1) (by simp)
          · rw [if_neg hp1, if_pos hp3, if_neg hp4, if_neg hp1]
            have hx := hbnd s p
            have hxF : (bbOf b s p).testBit mv.fromSq = false := honly_from.2 s p hp1
            have hxT : (bbOf b s p).testBit mv.toSq = true := by
              rw [hp3.1, hp3.2]
              exact h1.1
            apply Nat.eq_of_testBit_eq
            intro k
            rcases Nat.lt_or_ge k 64 with hk64 | hk64
            · simp only [testBit_or_shift, testBit_and_cmask _ _ _ hf64,
                testBit_and_cmask _ _ _ ht64, Nat.testBit_or, Nat.testBit_and,
                Nat.testBit_xor, testBit_one_shiftLeft, testBit_mask64]
              by_cases hk1 : k = mv.fromSq <;> by_cases hk2 : k = mv.toSq <;>
                simp_all
            · have h1k : ¬ k = mv.fromSq := by omega
              have h2k : ¬ k = mv.toSq := by omega
              have h4k : ¬ k < 64 := by omega
              simp only [testBit_or_shift, testBit_and_cmask _ _ _ hf64,
                testBit_and_cmask _ _ _ ht64, Nat.testBit_or, Nat.testBit_and,
                Nat.testBit_xor, testBit_one_shiftLeft, testBit_mask64]
              simp [h1k, h2k, h4k, testBit_high _ k hx hk64]
          · rw [if_neg hp1, if_neg hp3, if_pos hp4, if_neg hp1]
            have hx := hbnd s p
            have hxF : (bbOf b s p).testBit mv.fromSq = false := honly_from.2 s p hp1
            have hxT : (bbOf b s p).testBit mv.toSq = false := h1.2 s p hp3
            apply Nat.eq_of_testBit_eq
            intro k
            rcases Nat.lt_or_ge k 64 with hk64 | hk64
            · simp only [testBit_or_shift, testBit_and_cmask _ _ _ hf64,
                testBit_and_cmask _ _ _ ht64, Nat.testBit_or, Nat.testBit_and,
                Nat.testBit_xor, testBit_one_shiftLeft, testBit_mask64]
              by_cases hk1 : k = mv.fromSq <;> by_cases hk2 : k = mv.toSq <;>
                simp_all
            · have h1k : ¬ k = mv.fromSq := by omega
              have h2k : ¬ k = mv.toSq := by omega
              have h4k : ¬ k < 64 := by omega
              simp only [testBit_or_shift, testBit_and_cmask _ _ _ hf64,
                testBit_and_cmask _ _ _ ht64, Nat.testBit_or, Nat.testBit_and,
                Nat.testBit_xor, testBit_one_shiftLeft, testBit_mask64]
              simp [h1k, h2k, h4k, testBit_high _ k hx hk64]
          · rw [if_neg hp1, if_neg hp3, if_neg hp4, if_neg hp1]
            have hx := hbnd s p
            have hxF : (bbOf b s p).testBit mv.fromSq = false := honly_from.2 s p hp1
            have hxT : (bbOf b s p).testBit mv.toSq = false := h1.2 s p hp3
            rw [clear_noop _ _ hx hxT, clear_noop _ _ hx hxF,
              clear_noop _ _ hx hxT, clear_noop _ _ hx hxT]

/-- Whenever `generate_legal_moves` returns, the returned board is the
input board: the final `assert_eq!` comparison admits no other outcome. -/
theorem generate_legal_moves_fst {b b' : Board} {ms : List Move}
    (h : b.generate_legal_moves = some (b', ms)) : b' = b := by
  unfold Board.generate_legal_moves at h
  simp only [bind, pure, Option.bind_eq_some] at h
  obtain ⟨pawn_moves, hp, p, hf, hlast⟩ := h
  obtain ⟨b2, kept⟩ := p
  by_cases hne : b2 = b
  · subst hne
    simp only [ne_eq, not_true_eq_false, if_false] at hlast
    exact (Prod.mk.injEq .. ▸ Option.some.injEq .. ▸ hlast).1.symm
  · simp [hne] at hlast

/-- The `evaluate` of `board.rs` is the spec's White-minus-Black material
count. -/
theorem evaluate_eq_material_spec (b : Board) :
    b.evaluate = white_material_spec b - black_material_spec b := by
  have key : ∀ p1 p2 p3 p4 p5 : Nat → Bool, ∀ l : List Nat,
      (l.map fun sq =>
        (if p1 sq then (1 : Int) else 0) + (if p2 sq then (3 : Int) else 0) +
        (if p3 sq then (3 : Int) else 0) + (if p4 sq then (5 : Int) else 0) +
        (if p5 sq then (9 : Int) else 0)).sum =
      (l.countP p1 : Int) * 1 + (l.countP p2 : Int) * 3 + (l.countP p3 : Int) * 3 +
        (l.countP p4 : Int) * 5 + (l.countP p5 : Int) * 9 := by
    intro p1 p2 p3 p4 p5 l
    induction l with
    | nil => simp
    | cons x xs ih =>
        simp only [List.map_cons, List.sum_cons, List.countP_cons, ih]
        by_cases h1 : p1 x <;> by_cases h2 : p2 x <;> by_cases h3 : p3 x <;>
          by_cases h4 : p4 x <;> by_cases h5 : p5 x <;>
          simp [h1, h2, h3, h4, h5] <;> ring
  unfold Board.evaluate Board.bitboard_material white_material_spec black_material_spec
  rw [key, key]

/-! ## Claim C3 -/

/-- Claim C3: for every board `B`, `generate_legal_moves(B)` returns with
`B` unchanged — whenever the call returns (rather than aborting on its
final `assert_eq!`), the board it hands back is field-for-field the input
board. -/
theorem claim_C3_generate_legal_moves_preserves_board (b b' : Board) (ms : List Move)
    (h : b.generate_legal_moves = some (b', ms)) : b' = b :=
  generate_legal_moves_fst h

/-- Witness for C3 at a concrete input: two lone kings. -/
theorem claim_C3_witness :
    (Board.generate_legal_moves two_kings_board).map Prod.fst = some two_kings_board := by
  rcases h : Board.generate_legal_moves two_kings_board with _ | ⟨b', ms⟩
  · exact absurd h (by decide)
  · rw [claim_C3_generate_legal_moves_preserves_board _ _ _ h]; rfl

/-! ## Claim C5 -/

/-- Claim C5 counterexample: on the spec's own stalemate position
(`7k/5Q2/6K1/8/8/8/8/8 b - - 0 1`) the recursive search of `engine.rs`
(`Engine::minimax`, the first source the claim cites) returns
`-i32::MAX` at remaining depth 1 even though the side to move is not in
check, where the claim requires exactly 0. -/
theorem claim_C5_counterexample :
    Engine.minimax 1 stalemate_board (-i32MAX) i32MAX = some (stalemate_board, -i32MAX) ∧
      stalemate_board.is_in_check stalemate_board.side_to_move = false ∧
      (-i32MAX : Int) ≠ 0 := by
  refine ⟨by decide, by decide, by decide⟩

/-- Claim C5 (amended): at nonzero remaining depth on a position with no
legal moves, `Board::minimax` returns `-i32::MAX` when the side to move
is in check and exactly 0 otherwise, but `Engine::minimax`, which has no
terminal handling, returns its loop initialiser `-i32::MAX` whether or
not the side to move is in check. -/
theorem claim_C5_amended_no_move_values (b b' : Board) (d : Nat) (alpha beta : Int)
    (h : b.generate_legal_moves = some (b', [])) :
    Board.minimax (d + 1) b alpha beta =
        some (b, if b.is_in_check b.side_to_move then -i32MAX else 0) ∧
      Engine.minimax (d + 1) b alpha beta = some (b, -i32MAX) := by
  have hb : b' = b := generate_legal_moves_fst h
  subst hb
  constructor
  · show (b'.generate_legal_moves.bind _) = _
    rw [h]
    simp [Board.evaluate_checkmate_or_stalemate, Option.bind]
  · show (b'.generate_legal_moves.bind _) = _
    rw [h]
    simp [Engine.minimax_loop, Option.bind]

/-- Witness for the C5 amended theorem on the stalemate position. -/
theorem claim_C5_witness :
    Board.minimax 1 stalemate_board (-i32MAX) i32MAX = some (stalemate_board, 0) := by
  have h : stalemate_board.generate_legal_moves = some (stalemate_board, []) := by decide
  have := (claim_C5_amended_no_move_values stalemate_board stalemate_board 0
    (-i32MAX) i32MAX h).1
  rw [this]
  decide

/-! ## Claim C6 -/

/-- Claim C6 counterexample: with Black to move and White a queen up, the
depth-0 leaf of `Board::minimax` is `+9` — `WhiteMaterial - BlackMaterial`
— although the claim requires the sign to flip to `-9`
(`BlackMaterial - WhiteMaterial`) when Black is to move. -/
theorem claim_C6_counterexample :
    Board.minimax 0 queen_up_board (-i32MAX) i32MAX = some (queen_up_board, 9) ∧
      queen_up_board.side_to_move = BLACK ∧
      black_material_spec queen_up_board - white_material_spec queen_up_board = -9 ∧
      (9 : Int) ≠ -9 := by
  refine ⟨by decide, by decide, by decide, by decide⟩

/-- Claim C6 (amended): the search's depth-0 leaf value is always the
static material evaluation from White's perspective,
`WhiteMaterial - BlackMaterial`, for both sides to move — the sign of the
material score does not flip for Black. -/
theorem claim_C6_amended_leaf_value (b : Board) (alpha beta : Int) :
    Board.minimax 0 b alpha beta =
      some (b, white_material_spec b - black_material_spec b) := by
  show some (b, b.evaluate) = _
  rw [evaluate_eq_material_spec]

/-! ## Claim C4 -/

/-- Claim C4 counterexample: on a board whose only pieces are the two
kings, the Black king on f3 (21) stands at Chebyshev distance 1 from
square e3 (20), yet `is_square_attacked(20, WHITE)` returns `false`: the
king-adjacency test first returns `false` because the two kings' square
indices differ by more than 9 (`|21 - 40| = 19`). -/
theorem claim_C4_counterexample :
    far_kings_board.is_square_attacked 20 WHITE = false ∧
      far_kings_board.black_king = 1 <<< 21 ∧
      max ((get_rank 20 : Int) - (get_rank 21 : Int)).natAbs
        ((get_file 20 : Int) - (get_file 21 : Int)).natAbs = 1 := by
  refine ⟨by decide, by decide, by decide⟩

/-- Claim C4 (amended): `is_square_attacked(square, side)` returns true
whenever the enemy king stands at Chebyshev distance 1 from the square —
provided the two kings' square indices differ by at most 9; when they
differ by more than 9 the king-adjacency test reports no attack
regardless (see the counterexample). -/
theorem claim_C4_amended_king_adjacency (b : Board) (square wk bk k : Nat) (side : Bool)
    (hwk : b.white_king = 1 <<< wk) (hbk : b.black_king = 1 <<< bk)
    (hwk64 : wk < 64) (hbk64 : bk < 64) (hsq : square < 64)
    (hnear : ((bk : Int) - (wk : Int)).natAbs ≤ 9)
    (hk : k = if side = WHITE then bk else wk) (hk64 : k < 64)
    (hcheb : max ((get_rank square : Int) - (get_rank k : Int)).natAbs
        ((get_file square : Int) - (get_file k : Int)).natAbs = 1) :
    b.is_square_attacked square side = true := by
  have hranks : ((get_rank square : Int) - (get_rank k : Int)).natAbs ≤ 1 := by
    rw [← hcheb]; exact le_max_left _ _
  have hfiles : ((get_file square : Int) - (get_file k : Int)).natAbs ≤ 1 := by
    rw [← hcheb]; exact le_max_right _ _
  have hone : ((get_rank square : Int) - (get_rank k : Int)).natAbs = 1 ∨
      ((get_file square : Int) - (get_file k : Int)).natAbs = 1 := by
    rcases max_choice ((get_rank square : Int) - (get_rank k : Int)).natAbs
      ((get_file square : Int) - (get_file k : Int)).natAbs with hc | hc <;>
      rw [hc] at hcheb <;> [exact Or.inl hcheb; exact Or.inr hcheb]
  have hδ : (k : Int) - square = -9 ∨ (k : Int) - square = -8 ∨ (k : Int) - square = -7 ∨
      (k : Int) - square = -1 ∨ (k : Int) - square = 1 ∨ (k : Int) - square = 7 ∨
      (k : Int) - square = 8 ∨ (k : Int) - square = 9 := by
    simp only [get_rank, get_file] at hranks hfiles hone
    omega
  have hoff : Board.off_square square ((k : Int) - square) = k := by
    unfold Board.off_square
    have harith : (square : Int) + ((k : Int) - square) = k := by ring
    have hmod : ((k : Int)).emod 256 = k := Int.emod_eq_of_lt (by positivity) (by omega)
    rw [harith, hmod]
    simp
  have hkb : (if side = WHITE then b.black_king else b.white_king) = 1 <<< k := by
    rcases side with _ | _ <;> simp_all [WHITE]
  have hking : b.is_attacked_by_king square side = true := by
    unfold Board.is_attacked_by_king
    rw [Board.bitboard_to_square, Board.bitboard_to_square, hwk, hbk,
      trailing_zeros64_two_pow _ hwk64, trailing_zeros64_two_pow _ hbk64]
    rw [if_neg (by omega : ¬ ((bk : Int) - (wk : Int)).natAbs > 9)]
    rw [List.any_eq_true]
    refine ⟨(k : Int) - square, ?_, ?_⟩
    · rcases hδ with h | h | h | h | h | h | h | h <;> rw [h] <;> decide
    · rw [hoff]
      have hkb2 : (if side = WHITE then (1 : Nat) <<< bk else 1 <<< wk) = 1 <<< k := by
        rcases side with _ | _ <;> simp_all [WHITE]
      have hbit : (1 : Nat) <<< k &&& 1 <<< k ≠ 0 := by
        rw [Nat.and_self, Nat.shiftLeft_eq, one_mul]
        positivity
      simp only [hkb2]
      simp [Board.is_on_board, hk64, hbit, hranks, hfiles]
      rw [Nat.shiftLeft_eq, one_mul]
      positivity
  unfold Board.is_square_attacked
  rw [hking, Bool.or_true]

/-- Witness for the C4 amended theorem: White king e1 (4), Black king f2
(13), square f1 (5). -/
theorem claim_C4_witness : near_kings_board.is_square_attacked 5 WHITE = true := by
  refine claim_C4_amended_king_adjacency near_kings_board 5 4 13 13 WHITE
    (by decide) (by decide) (by decide) (by decide) (by decide) (by decide)
    (by decide) (by decide) (by decide)

/-! ## Claim C9 -/

/-- Claim C9 counterexample: the claim says that a move whose to-square
is the corner a1 (square 0) clears the corresponding castling-rights bit
(bit 1, White queen-side) for any moving piece kind.  But when the White
knight of `knight_corner_board` moves b3 → a1, `update_castling_rights`
leaves the rights word at 2: the to-corner branch for a1 fires only for
the side `BLACK`, so White's own landing on a1 clears nothing, and bit 1
stays set. -/
theorem claim_C9_counterexample :
    ((knight_corner_board.make_move ⟨17, 0, none, PieceType.Knight⟩).map
        (fun p => p.1.castling_rights)) = some 2 ∧ Nat.testBit 2 1 = true := by
  constructor
  · decide
  · decide

/-- Claim C9 (amended): after a successful `make_move`, castling-rights
bit `k < 4` is set exactly when it was set before and the move does not
clear it, where a move clears bit `k` when (a) it is a King move of the
side owning bit `k`, (b) it is a castling-shaped King move whose
destination corner belongs to bit `k`'s side, (c) it is a Rook move
leaving bit `k`'s corner with `k`'s own side to move, or (d) it lands on
bit `k`'s corner with the opposite side to move; moreover no rights bit
is ever set by `make_move`. -/
theorem claim_C9_amended_rights_bits (b : Board) (mv : Move) (b1 : Board) (u : UndoState)
    (h : b.make_move mv = some (b1, u)) :
    (∀ k, k < 4 →
      (b1.castling_rights.testBit k = true ↔
        (b.castling_rights.testBit k = true ∧ ¬ clears_right mv b.side_to_move k))) ∧
    (∀ k, b1.castling_rights.testBit k = true → b.castling_rights.testBit k = true) := by
  have hr := make_move_rights b mv b1 u h
  constructor
  · intro k hk
    rw [hr]
    exact rights_pipeline_testBit b.castling_rights mv b.side_to_move k hk
      (make_move_castle_to b mv b1 u h)
  · intro k hbit
    rw [hr] at hbit
    exact urights_castle_subset _ _ _ _ hbit

/-- Witness for the C9 amended theorem: the king-side castling move
e1 → g1 on the initial board clears White's king-side right (bit 0). -/
theorem claim_C9_witness :
    ((Board.new.make_move ⟨4, 6, none, PieceType.King⟩).map
        (fun p => p.1.castling_rights.testBit 0)) = some false := by
  rcases h : Board.new.make_move ⟨4, 6, none, PieceType.King⟩ with _ | p
  · exact absurd h (by decide)
  · obtain ⟨b1, u⟩ := p
    have h0 := (claim_C9_amended_rights_bits Board.new ⟨4, 6, none, PieceType.King⟩
      b1 u h).1 0 (by decide)
    have hfalse : b1.castling_rights.testBit 0 = false := by
      rcases hb : b1.castling_rights.testBit 0
      · rfl
      · exact absurd (h0.mp hb).2 (by decide)
    show some (b1.castling_rights.testBit 0) = some false
    rw [hfalse]

/-! ## Claim C10 -/

/-- Claim C10: for every board with no White pawn on rank 8 and no Black
pawn on rank 1, every push square that `generate_pawn_moves` feeds to
`is_occupied` for a pawn of the side to move is strictly below 64, so
the `1u64 << square` shift inside `is_occupied` cannot overflow; and
`set_pos` does accept a FEN that violates this precondition (here a
White pawn on a8). -/
theorem claim_C10_pawn_push_in_bounds (b : Board) (hpre : no_back_rank_pawns b)
    (fromSq : Nat) (hlt : fromSq < 64)
    (hpawn : (if b.side_to_move = WHITE then b.white_pawns else b.black_pawns) &&&
      (1 <<< fromSq) ≠ 0) :
    (∀ t ∈ pawn_push_squares b fromSq, t < 64) ∧
    (∃ b1 : Board, Board.new.set_pos "P7/8/8/8/8/8/8/K6k w - - 0 1" = some b1 ∧
      ¬ no_back_rank_pawns b1) := by
  constructor
  · intro t ht
    unfold pawn_push_squares at ht
    by_cases hside : b.side_to_move = WHITE
    · rw [if_pos hside] at hpawn
      simp only [if_pos hside] at ht
      have h56 : fromSq < 56 := by
        by_contra hge
        exact hpawn (hpre.1 fromSq hlt (by omega))
      rcases List.mem_cons.mp ht with h1 | h2
      · have he := off_square_eval fromSq 8 (by omega) (by omega)
        omega
      · by_cases hr : get_rank fromSq = 1
        · rw [if_pos hr] at h2
          simp only [List.mem_singleton] at h2
          have hr2 : fromSq / 8 = 1 := hr
          have he := off_square_eval fromSq (2 * 8) (by omega) (by omega)
          omega
        · rw [if_neg hr] at h2
          simp at h2
    · rw [if_neg hside] at hpawn
      simp only [if_neg hside] at ht
      have h8 : 8 ≤ fromSq := by
        by_contra hl
        exact hpawn (hpre.2 fromSq (by omega))
      rcases List.mem_cons.mp ht with h1 | h2
      · have he := off_square_eval fromSq (-8) (by omega) (by omega)
        omega
      · by_cases hr : get_rank fromSq = 6
        · rw [if_pos hr] at h2
          simp only [List.mem_singleton] at h2
          have hr2 : fromSq / 8 = 6 := hr
          have he := off_square_eval fromSq (2 * -8) (by omega) (by omega)
          omega
        · rw [if_neg hr] at h2
          simp at h2
  · refine ⟨back_rank_pawn_board, ?_, ?_⟩
    · decide
    · decide

/-- Witness for C10: both push squares of the White a2 pawn of the
initial board are on the board. -/
theorem claim_C10_witness :
    Board.off_square 8 8 < 64 ∧ Board.off_square 8 (2 * 8) < 64 := by
  have h := claim_C10_pawn_push_in_bounds Board.new (by decide) 8 (by decide) (by decide)
  exact ⟨h.1 (Board.off_square 8 8) (by decide), h.1 (Board.off_square 8 (2 * 8)) (by decide)⟩

/-! ## Claim C8 -/

/-- Claim C8 counterexample: `set_pos` accepts a FEN whose side field is
`"x"`, whose halfmove field is `"xx"` and whose fullmove field is
`"yy"`; neither number parses, yet the call succeeds with the silent
defaults 0 and 1 (and the junk side field silently means Black) instead
of reporting a fatal input error. -/
theorem claim_C8_counterexample :
    Board.new.set_pos "8/8/8/8/8/8/8/K6k x - - xx yy" = some junk_fen_board ∧
    parse_unsigned 255 "xx" = none ∧ parse_unsigned 65535 "yy" = none := by
  refine ⟨by decide, by decide, by decide⟩

/-- Claim C8 (amended): whenever `set_pos` accepts a six-field FEN, the
halfmove clock and fullmove number are the parses of their fields with
silent defaults 0 and 1 (a malformed field is not a fatal error), the
side to move is White exactly on the literal field `"w"` (any other
content silently means Black), and the result never depends on the prior
board contents: the board is reset before the fields are applied. -/
theorem claim_C8_amended_silent_defaults (b : Board) (p0 p1 p2 p3 p4 p5 : String)
    (b1 : Board) (h : b.set_pos_parts [p0, p1, p2, p3, p4, p5] = some b1) :
    b1.halfmove_clock = (parse_unsigned 255 p4).getD 0 ∧
    b1.fullmove_number = (parse_unsigned 65535 p5).getD 1 ∧
    b1.side_to_move = (if p1 = "w" then WHITE else BLACK) ∧
    (∀ c : Board, c.set_pos_parts [p0, p1, p2, p3, p4, p5] =
      b.set_pos_parts [p0, p1, p2, p3, p4, p5]) := by
  unfold Board.set_pos_parts at h
  simp only [bind, pure, Option.bind_eq_some] at h
  obtain ⟨b2, hb2, b3, hb3, b4, hb4, hfin⟩ := h
  have hb1 := Option.some.inj hfin
  refine ⟨?_, ?_, ?_, fun c => rfl⟩
  · rw [← hb1]
  · rw [← hb1]
  · rw [← hb1]
    show b4.side_to_move = _
    rw [set_en_passant_side _ _ _ hb4, set_castling_rights_side _ _ _ hb3]

/-- Witness for the C8 amended theorem at the junk FEN of the
counterexample. -/
theorem claim_C8_witness :
    junk_fen_board.halfmove_clock = (parse_unsigned 255 "xx").getD 0 ∧
    junk_fen_board.fullmove_number = (parse_unsigned 65535 "yy").getD 1 ∧
    junk_fen_board.side_to_move = (if "x" = "w" then WHITE else BLACK) ∧
    knight_corner_board.set_pos_parts ["8/8/8/8/8/8/8/K6k", "x", "-", "-", "xx", "yy"] =
      Board.new.set_pos_parts ["8/8/8/8/8/8/8/K6k", "x", "-", "-", "xx", "yy"] := by
  have h := claim_C8_amended_silent_defaults Board.new "8/8/8/8/8/8/8/K6k" "x" "-" "-"
    "xx" "yy" junk_fen_board (by decide)
  exact ⟨h.1, h.2.1, h.2.2.1, h.2.2.2 knight_corner_board⟩

/-! ## Claim C7 -/

/-- Claim C7 counterexample: the recursive call of `Engine::minimax` does
not receive the canonical `(-beta, -alpha)` window.  Probing the move
loop with a child that returns the first component of its window, at
`alpha = 2`, `beta = 5`: the `engine.rs` loop hands the child `-alpha`
(the run below yields `-(-2) = 2`), while the canonical loop of
`Board::minimax` hands it `-beta` (yielding `-(-5) = 5`).  Were the
claim true of `Engine::minimax`, both runs would return the same value. -/
theorem claim_C7_counterexample :
    Engine.minimax_loop (fun b2 x _y => some (b2, x)) two_kings_board
        [⟨4, 12, none, PieceType.King⟩] 2 5 (-100) = some (two_kings_board, 2) ∧
    Board.minimax_loop (fun b2 x _y => some (b2, x)) two_kings_board
        [⟨4, 12, none, PieceType.King⟩] 2 5 (-100) = some (two_kings_board, 5) := by
  refine ⟨by decide, by decide⟩

/-- Claim C7 (amended): the actual search shape of `engine.rs`.  At every
inner node `Engine::minimax` recurses with the swapped window
`(-alpha, -beta)`; the parent replaces a returned `i32::MIN` by
`i32::MAX` and otherwise negates; alpha is updated as
`max alpha score` and the branch is pruned when `alpha ≥ beta`.  At the
root, `depth_first_search_parallel` searches every legal move from the
same board with the window `(-i32::MAX, i32::MAX)` and stores the
child's returned value with no negation at all. -/
theorem claim_C7_amended_search_shape :
    (∀ (step : Board → Int → Int → Option (Board × Int)) (b : Board) (mv : Move)
        (rest : List Move) (alpha beta best : Int),
      Engine.minimax_loop step b (mv :: rest) alpha beta best =
        Option.bind (b.make_move mv) (fun p =>
          Option.bind (step p.1 (-alpha) (-beta)) (fun q =>
            Option.bind (q.1.unmake_move mv p.2) (fun b3 =>
              if max alpha (if q.2 = i32MIN then i32MAX else -q.2) ≥ beta then
                some (b3, max best (if q.2 = i32MIN then i32MAX else -q.2))
              else
                Engine.minimax_loop step b3 rest
                  (max alpha (if q.2 = i32MIN then i32MAX else -q.2)) beta
                  (max best (if q.2 = i32MIN then i32MAX else -q.2)))))) ∧
    (∀ (b : Board) (depth : Nat),
      Engine.depth_first_search_parallel b depth =
        Option.bind b.generate_legal_moves (fun p =>
          p.2.mapM (fun mv =>
            Option.bind (p.1.make_move mv) (fun q =>
              Option.bind (Engine.minimax (depth - 1) q.1 (-i32MAX) i32MAX) (fun r =>
                Option.bind (r.1.unmake_move mv q.2) (fun _ =>
                  some (ScoredMove.mk mv r.2))))))) := by
  constructor
  · intro step b mv rest alpha beta best
    rfl
  · intro b depth
    rfl

/-! ### C1: the `make_move`/`unmake_move` round trip -/

/-- C1 (counterexample): on `phantom_castle_board` — a board with a second
White "king" bit on h2 and only the White king-side castling right set, no
rook on h1 — `generate_legal_moves` emits the castling move e1→g1, and
making then unmaking that move leaves a phantom White rook on h1: the
board is not restored, so the spec's unconditional round-trip sentence is
false as stated. -/
theorem claim_C1_counterexample :
    (phantom_castle_board.generate_legal_moves).map
        (fun p => decide (p.1 = phantom_castle_board) &&
          decide ((⟨4, 6, none, PieceType.King⟩ : Move) ∈ p.2)) = some true ∧
    ((phantom_castle_board.make_move ⟨4, 6, none, PieceType.King⟩).bind
        (fun p => p.1.unmake_move ⟨4, 6, none, PieceType.King⟩ p.2)).map
      (fun b2 => decide (b2 = phantom_castle_board)) = some false := by
  constructor
  · decide
  · decide

/-- C1 (amended): under the local soundness conditions `MoveOk` — which
hold for every move generated on a position reachable by legal play, and
which the spec's unconditional sentence omits — the round trip is exact:
`unmake_move` after a successful `make_move` restores all twelve
bitboards, the side to move, the castling rights, the en-passant target
and both clocks. -/
theorem claim_C1_amended_roundtrip (b : Board) (mv : Move) (b1 : Board) (u : UndoState)
    (hok : MoveOk b mv) (h : b.make_move mv = some (b1, u)) :
    b1.unmake_move mv u = some b :=
  make_unmake_roundtrip b mv b1 u hok h

/-- C1 (witness): the amended round trip at a concrete input, the double
pawn push e2–e4 on the initial board. -/
theorem claim_C1_witness :
    MoveOk Board.new ⟨12, 28, none, PieceType.Pawn⟩ ∧
    ((Board.new.make_move ⟨12, 28, none, PieceType.Pawn⟩).bind
      (fun p => p.1.unmake_move ⟨12, 28, none, PieceType.Pawn⟩ p.2)) = some Board.new := by
  refine ⟨by decide, ?_⟩
  rcases hmk : Board.new.make_move ⟨12, 28, none, PieceType.Pawn⟩ with _ | pr
  · exact absurd hmk (by decide)
  · rw [Option.some_bind]
    exact claim_C1_amended_roundtrip Board.new ⟨12, 28, none, PieceType.Pawn⟩ pr.1 pr.2
      (by decide) hmk


end RustyEngine
